import Mathlib

/-!
# The tagged parameter store of `CSGObject`

A shallow embedding of the name/tag addressed parameter interface of
`shogun::CSGObject` (`src/shogun/base/SGObject.h`): `has`, the typed and the
string-option overloads of `put` and `get`, and the reference taken by `put`
on an object-pointer value; the array dispatch behind `add` and the indexed
getters; `run` and `observe`; the reference counting of objects and of
the containers derived from `SGReferencedData` (`src/shogun/lib/SGVector.cpp`);
the registration macros `SG_ADD`; the process-wide objects of
`src/shogun/base/init.cpp`; `clone` and `equals` of `SGVector` over a flat
memory of element cells; the deep `clone` and `equals` of `CSGObject` over
a graph of objects; and the element algorithms of `SGVector`
(`find_position_to_insert`, `unique`, `find`, `resize_vector`, `slice`, the
additions and `convert_to_matrix`).

C++ exceptions are modelled by `Except ShogunException`; a member function
that can mutate returns the memory it leaves behind together with its
result, also when it throws, so that "a failed call changes nothing" is a
statement about the order of the checks and the writes in the code.
-/

namespace shogun

/-- Address of a heap-allocated `CSGObject`; a `CSGObject*` is an `Option ObjId`,
the null pointer being `none`. -/
abbrev ObjId := Nat

/-- The base classes whose pointers are stored as parameters (`is_sg_base<T>`),
together with `CDynamicObjectArray`, the heterogeneous object array. -/
inductive BaseCategory
  | SGObject
  | Kernel
  | Features
  | Machine
  | Labels
  | EvaluationResult
  | DynamicObjectArray
  deriving DecidableEq, Repr

/-- The two types for which the trait `is_string<T>` holds. -/
inductive StringType
  | std_string
  | c_string
  deriving DecidableEq, Repr

/-- Runtime type identifiers: the template argument `T` of `Tag<T>`, `put<T>`,
`get<T>` and `has<T>`, compared exactly (as `typeid`) by `Any::has_type<T>`. -/
inductive SGType
  | bool
  | machine_int
  | int64
  | string (k : StringType)
  | object_ptr (c : BaseCategory)
  | object_vector (c : BaseCategory)
  deriving DecidableEq, Repr

/-- The C++ values of a type: `machine_int_t` and `int64_t` are integers,
`T*` for an object class is a possibly null address, `std::vector<T*>` a
sequence of such pointers. -/
def SGType.interp : SGType → Type
  | .bool => Bool
  | .machine_int => Int
  | .int64 => Int
  | .string _ => String
  | .object_ptr _ => Option ObjId
  | .object_vector _ => List (Option ObjId)

instance SGType.instDecidableEqInterp : (T : SGType) → DecidableEq T.interp
  | .bool => inferInstanceAs (DecidableEq Bool)
  | .machine_int => inferInstanceAs (DecidableEq Int)
  | .int64 => inferInstanceAs (DecidableEq Int)
  | .string _ => inferInstanceAs (DecidableEq String)
  | .object_ptr _ => inferInstanceAs (DecidableEq (Option ObjId))
  | .object_vector _ => inferInstanceAs (DecidableEq (List (Option ObjId)))

/-- The trait `is_string<T>` that selects between the two overloads of `put`
and of `get`. -/
def SGType.is_string : SGType → Bool
  | .string _ => true
  | _ => false

/-- Whether `T` is `X*` for a class `X` derived from `CSGObject`: the condition
`std::is_base_of<CSGObject, remove_pointer<T>>` that selects the overload of
`ref_value`. -/
def SGType.is_object_ptr : SGType → Bool
  | .object_ptr _ => true
  | _ => false

/-- The failures raised by `SG_ERROR` in the parameter interface, one
constructor per error site; the `TypeMismatchException` of `any_cast` carries
the actual (stored) and the expected (requested) type. -/
inductive ShogunException
  /-- "Parameter %s::%s does not exist." and the throw of `get_parameter`. -/
  | not_found
  /-- "Cannot put parameter %s::%s." -/
  | not_cloneable
  /-- "Cannot put/get parameter %s::%s of type %s, incompatible ... type %s." -/
  | type_mismatch (actual expected : SGType)
  /-- "There are no options for parameter %s::%s" -/
  | no_options
  /-- "Illegal option '%s' for parameter %s::%s" -/
  | illegal_option (option : String)
  /-- The reverse lookup of an integer code that no option of the table carries. -/
  | no_option_for_value (value : Int)
  /-- "Cannot add to %s::%s, no object provided." (the `REQUIRE` of `add`). -/
  | no_object_provided
  /-- "Cannot add object %s to array parameter %s::%s of type %s.": no array
  representation is registered under the name (the NotFound of spec §4.3). -/
  | cannot_add_to_array
  /-- "Could not get array parameter %s::%s[%d] of type %s": no array
  representation is registered under the name (the NotFound of spec §4.3). -/
  | could_not_get_array_parameter (index : Int)
  /-- A failed `ASSERT`. -/
  | assertion_failed
  /-- "Object of type %s cannot be converted to type %s." (`as<T>`). -/
  | cannot_convert (actual target : BaseCategory)
  /-- The `std::out_of_range` thrown by `at(index)`. -/
  | out_of_range (index : Int)
  /-- Use of `*p` for a null `p`: undefined behaviour, kept apart from every
  defined outcome. -/
  | null_dereference
  /-- "Failed to run function %s::%s" -/
  | run_function_failed
  /-- A failed `REQUIRE` of the container code, with the number it complains
  about. -/
  | requirement_failed (number : Int)
  /-- "Addition possible for only non-null vectors." -/
  | non_null_required
  /-- "SGVector::convert_to_matrix():: Dimensions mismatch" -/
  | dimensions_mismatch
  /-- An access below the first address of the memory: undefined behaviour,
  kept apart from every defined outcome. -/
  | wild_access
  /-- An allocation of a size that no allocator grants: a negative element
  count converted to `size_t`. -/
  | allocation_failed
  deriving DecidableEq, Repr

/-- Modelled from the spec: `Any` (`shogun/lib/any.h`) is not among the sources.
Spec §3: an AnyValue carries a runtime type identifier, the value, and a
"cloneable" capability flag. -/
structure Any where
  type : SGType
  value : type.interp
  cloneable : Bool

/-- Modelled from the spec: `make_any(value)` (`shogun/lib/any.h`, not among
the sources) wraps a value together with the runtime identifier of its static
type. An owned copy can itself be cloned. -/
def make_any (T : SGType) (value : T.interp) : Any :=
  { type := T, value := value, cloneable := true }

/-- Modelled from the spec: `Any::has_type<T>()`, exact agreement of the
stored type identifier with `T`. -/
def Any.has_type (a : Any) (T : SGType) : Bool :=
  decide (a.type = T)

/-- Modelled from the spec: `any_cast<T>(any)` (§3: "a narrowing access must
fail (reported, not silently coerced) if the requested type disagrees with the
stored type"): the value when the stored type is `T`, else a
`TypeMismatchException` naming the actual and the expected type. -/
def any_cast (T : SGType) (a : Any) : Except ShogunException T.interp :=
  if h : a.type = T then .ok (h ▸ a.value)
  else .error (.type_mismatch a.type T)

/-- The independent flags of spec §3. -/
inductive ParameterProperties
  | HYPER
  | GRADIENT
  | READONLY
  | RUNFUNCTION
  | AUTO
  deriving DecidableEq, Repr

/-- Modelled from the spec: `AnyParameterProperties` (`shogun/base/AnyParameter.h`,
not among the sources): a description and a set of flags. -/
structure AnyParameterProperties where
  description : String
  attributes : List ParameterProperties
  deriving DecidableEq, Repr

/-- Modelled from the spec: `AnyParameter` (`shogun/base/AnyParameter.h`, not
among the sources), spec §3: the type-erased value and its properties; the
name is the key under which the store holds it. -/
structure AnyParameter where
  value : Any
  properties : AnyParameterProperties

/-- The receiver of the parameter interface: the parameter store `self->map`
(spec §3 ParameterStore, a mapping from name to AnyParameter, kept in
registration order) and the member `m_string_to_enum_map`
(`stringToEnumMapType`: parameter name to option name to `machine_int_t`). -/
structure CSGObject where
  map : List (String × AnyParameter)
  m_string_to_enum_map : List (String × List (String × Int))

/-- The memory a member function of one object acts on: the object itself and
the ownership counter (`m_refcount`) of every object, by address. -/
structure Memory where
  self : CSGObject
  refcount : ObjId → Int

/-- Lookup in a map with string keys: `std::map::find` /
`std::unordered_map::find`, `none` standing for `end()`. -/
def map_find {β : Type} : List (String × β) → String → Option β
  | [], _ => none
  | (k, b) :: rest, key => if k = key then some b else map_find rest key

/-- In-place replacement of the value kept under a key; other keys, the order
and the number of entries are untouched, and nothing happens when the key is
absent. -/
def map_update (f : AnyParameter → AnyParameter) :
    List (String × AnyParameter) → String → List (String × AnyParameter)
  | [], _ => []
  | (k, p) :: rest, key =>
    if k = key then (k, f p) :: rest else (k, p) :: map_update f rest key

/-- The reserved counter value of spec §3 that marks an object whose lifetime
is owned elsewhere (reference counting disabled). -/
def REFCOUNT_DISABLED : Int := -1

namespace CSGObject

/-- Modelled from the spec: `CSGObject::has_parameter` (body in `SGObject.cpp`,
not among the sources). Header: "This only checks for name and not type
information"; true when a parameter exists under the tag's name. -/
def has_parameter (self : CSGObject) (_tag : String) : Bool :=
  (map_find self.map _tag).isSome

/-- Modelled from the spec: `CSGObject::get_parameter` (body in `SGObject.cpp`,
not among the sources). Header: "Getter for a class parameter, identified by a
BaseTag. Throws an exception if the class does not have such a parameter." -/
def get_parameter (self : CSGObject) (_tag : String) :
    Except ShogunException AnyParameter :=
  match map_find self.map _tag with
  | some p => .ok p
  | none => .error .not_found

/-- Modelled from the spec: `CSGObject::update_parameter` (body in
`SGObject.cpp`, not among the sources). Header: "Updates a parameter identified
by a BaseTag"; spec §4.2: "replaces the stored value in place". The registered
slot keeps its capability flag and its properties. -/
def update_parameter (self : CSGObject) (_tag : String) (value : Any) : CSGObject :=
  { self with
    map := map_update
      (fun p => { p with value := { value with cloneable := p.value.cloneable } })
      self.map _tag }

/-- Modelled from the spec: `CSGObject::ref` (body in `SGObject.cpp`, not among
the sources), applied to the object at address `o`. Spec §4.1: "ref()
increments and returns the new count; ... if the sentinel "disabled" state is
active, both are no-ops returning the sentinel." Only the counter of `o` is
written. -/
def ref (o : ObjId) (m : Memory) : Int × Memory :=
  if m.refcount o = REFCOUNT_DISABLED then (REFCOUNT_DISABLED, m)
  else (m.refcount o + 1,
        { m with refcount := fun x => if x = o then m.refcount o + 1 else m.refcount x })

/-- `SG_REF(x)`: `{ if (x) (x)->ref(); }`. -/
def SG_REF (x : Option ObjId) (m : Memory) : Memory :=
  match x with
  | some o => (ref o m).2
  | none => m

/-- The two overloads of `ref_value`: for a pointer to a `CSGObject` it is
`SG_REF(value)`, for every other type a no-op. -/
def ref_value : (T : SGType) → T.interp → Memory → Memory
  | .object_ptr _, value, m => SG_REF value m
  | _, _, m => m

/-- `has(name)`: declared in the header ("true if the parameter exists with the
input name"), spec §4.2; it is `has_parameter` on the name. -/
def has_name (self : CSGObject) (name : String) : Bool :=
  has_parameter self name

/-- `has<T>(name)` (SGObject.h 351-359). The function is `noexcept(true)`; the
result is an `Except` so that an exception of `get_parameter` reaching that
boundary would show as `.error`. -/
def has (T : SGType) (self : CSGObject) (name : String) :
    Except ShogunException Bool :=
  if !has_parameter self name then .ok false
  else
    match get_parameter self name with
    | .error e => .error e
    | .ok p => .ok (p.value.has_type T)

/-- The overload of `put(const Tag<T>&, const T&)` for `!is_string<T>`
(SGObject.h 368-402). -/
def put_value (T : SGType) (_tag : String) (value : T.interp) (m : Memory) :
    Except ShogunException Unit × Memory :=
  if has_parameter m.self _tag then
    match get_parameter m.self _tag with
    | .error e => (.error e, m)
    | .ok p =>
      let parameter_value := p.value
      if !parameter_value.cloneable then (.error .not_cloneable, m)
      else
        match any_cast T parameter_value with
        | .error _ => (.error (.type_mismatch parameter_value.type T), m)
        | .ok _ =>
          let m1 := ref_value T value m
          (.ok (), { m1 with self := update_parameter m1.self _tag (make_any T value) })
  else (.error .not_found, m)

/-- The overload of `put(const Tag<T>&, const T&)` for `is_string<T>`
(SGObject.h 411-436); `val_string` is `std::string(value)`. -/
def put_string (_tag : String) (val_string : String) (m : Memory) :
    Except ShogunException Unit × Memory :=
  match map_find m.self.m_string_to_enum_map _tag with
  | none => (.error .no_options, m)
  | some string_to_enum =>
    match map_find string_to_enum val_string with
    | none => (.error (.illegal_option val_string), m)
    | some enum_value => put_value .machine_int _tag enum_value m

/-- `put(const Tag<T>&, const T&)`: overload resolution by `is_string<T>`. -/
def put : (T : SGType) → String → T.interp → Memory →
    Except ShogunException Unit × Memory
  | .string _, _tag, value, m => put_string _tag value m
  | .bool, _tag, value, m => put_value .bool _tag value m
  | .machine_int, _tag, value, m => put_value .machine_int _tag value m
  | .int64, _tag, value, m => put_value .int64 _tag value m
  | .object_ptr c, _tag, value, m => put_value (.object_ptr c) _tag value m
  | .object_vector c, _tag, value, m => put_value (.object_vector c) _tag value m

/-- The overload of `get(const Tag<T>&) const` for `!is_string<T>`
(SGObject.h 602-620). A `const` member: it returns no memory. -/
def get_value (T : SGType) (self : CSGObject) (_tag : String) :
    Except ShogunException T.interp :=
  match get_parameter self _tag with
  | .error e => .error e
  | .ok p =>
    match any_cast T p.value with
    | .ok v => .ok v
    | .error _ => .error (.type_mismatch p.value.type T)

/-- Modelled from the spec: `CSGObject::string_enum_reverse_lookup` (body in
`SGObject.cpp`, not among the sources). Header: "Looks up the option name of a
parameter given the enum value"; spec §3: the reverse of the forward map
option name -> integer code. The first option of the table carrying the code
is returned. -/
def string_enum_reverse_lookup (self : CSGObject) (param : String) (value : Int) :
    Except ShogunException String :=
  match map_find self.m_string_to_enum_map param with
  | none => .error .no_options
  | some table =>
    match table.find? (fun e => decide (e.2 = value)) with
    | some e => .ok e.1
    | none => .error (.no_option_for_value value)

/-- The overload of `get(const Tag<T>&) const` for `is_string<T>`
(SGObject.h 622-643), `T` being the string type `k`. -/
def get_string (k : StringType) (self : CSGObject) (_tag : String) :
    Except ShogunException String :=
  match map_find self.m_string_to_enum_map _tag with
  | none =>
    match get_parameter self _tag with
    | .error e => .error e
    | .ok p =>
      match any_cast (.string k) p.value with
      | .ok v => .ok v
      | .error _ => .error (.type_mismatch p.value.type (.string k))
  | some _ =>
    match get_value .machine_int self _tag with
    | .error e => .error e
    | .ok code => string_enum_reverse_lookup self _tag code

/-- `get(const Tag<T>&) const`: overload resolution by `is_string<T>`. -/
def get : (T : SGType) → CSGObject → String → Except ShogunException T.interp
  | .string k, self, _tag => get_string k self _tag
  | .bool, self, _tag => get_value .bool self _tag
  | .machine_int, self, _tag => get_value .machine_int self _tag
  | .int64, self, _tag => get_value .int64 self _tag
  | .object_ptr c, self, _tag => get_value (.object_ptr c) self _tag
  | .object_vector c, self, _tag => get_value (.object_vector c) self _tag

end CSGObject

/-! ## Concrete objects -/

/-- Properties of a parameter registered without flags. -/
def plain_properties : AnyParameterProperties :=
  { description := "", attributes := [] }

/-- An object with five registered parameters: the option parameter
`kernel_type` (integer code 1, options GAUSSIAN = 0 and LINEAR = 1), the
integer `max_iterations`, the string `label`, the object pointer `kernel`,
and `frozen`, an integer whose value is not cloneable. -/
def example_object : CSGObject :=
  { map :=
      [("kernel_type",
          { value := { type := .machine_int, value := (1 : Int), cloneable := true },
            properties := plain_properties }),
       ("max_iterations",
          { value := { type := .int64, value := (100 : Int), cloneable := true },
            properties := plain_properties }),
       ("label",
          { value := { type := .string .std_string, value := "a", cloneable := true },
            properties := plain_properties }),
       ("kernel",
          { value := { type := .object_ptr .Kernel, value := (none : Option ObjId),
                       cloneable := true },
            properties := plain_properties }),
       ("frozen",
          { value := { type := .int64, value := (1 : Int), cloneable := false },
            properties := plain_properties })],
    m_string_to_enum_map := [("kernel_type", [("GAUSSIAN", 0), ("LINEAR", 1)])] }

/-- The example object in a memory where every object has one owner. -/
def example_memory : Memory :=
  { self := example_object, refcount := fun _ => 1 }

/-- An object with three option parameters: `solver` (code 1, options
NEWTON = 0 and LBFGS = 1) whose value is not cloneable, `loss` (code 1) whose
table gives the code 0 to both L2 and SQUARED, and `mode`, which has a table
but is registered as `int64_t` instead of `machine_int_t`. -/
def option_object : CSGObject :=
  { map :=
      [("solver",
          { value := { type := .machine_int, value := (1 : Int), cloneable := false },
            properties := plain_properties }),
       ("loss",
          { value := { type := .machine_int, value := (1 : Int), cloneable := true },
            properties := plain_properties }),
       ("mode",
          { value := { type := .int64, value := (1 : Int), cloneable := true },
            properties := plain_properties })],
    m_string_to_enum_map :=
      [("solver", [("NEWTON", 0), ("LBFGS", 1)]),
       ("loss", [("L2", 0), ("SQUARED", 0), ("L1", 1)]),
       ("mode", [("FAST", 0), ("EXACT", 1)])] }

/-- The option object in a memory where every object has one owner. -/
def option_memory : Memory :=
  { self := option_object, refcount := fun _ => 1 }

/-! ## Object arrays -/

/-- The objects a parameter can point to, as far as the array interface looks
at them: the receiver, the elements of every `CDynamicObjectArray` by address,
and the category of the most derived class of every object. -/
structure ObjectMemory where
  self : CSGObject
  arrays : ObjId → List (Option ObjId)
  dynamic_class : ObjId → BaseCategory

/-- Whether `dynamic_cast<T*>` succeeds on an object of class category `c`: the
base categories are unrelated classes, each derived from `CSGObject`. -/
def derives_from (c T : BaseCategory) : Bool :=
  decide (c = T) || decide (T = .SGObject)

/-- Checked element access `at(index)` with an `index_t`: the element inside
the bounds, `none` (where the caller throws `std::out_of_range`) outside. -/
def element_at {α : Type} (l : List α) (index : Int) : Option α :=
  if 0 ≤ index then l.get? index.toNat else none

/-- A generic lambda `[&...](auto& array) { ... }` as `dispatch_array_type`
receives it: its instantiation for a `CDynamicObjectArray&` (given as the
pointer that is dereferenced) and its instantiation for a
`std::vector<T*>&`, which may change the vector it is handed. `σ` is what the
lambda captures by reference and the objects it reaches. -/
structure ArrayLambda (σ : Type) where
  on_array : Option ObjId → σ → Except ShogunException Unit × σ
  on_vector : List (Option ObjId) → σ →
    Except ShogunException Unit × (List (Option ObjId) × σ)

namespace sgo_details

/-- `sgo_details::dispatch_array_type<T1>(obj, name, lambda)` (SGObject.h
1210-1230). In the second branch `dispatched` is the `std::vector` that
`get` returned by value: a local of this function, dropped on return. -/
def dispatch_array_type {σ : Type} (T1 : BaseCategory) (obj : CSGObject)
    (name : String) (lambda : ArrayLambda σ) (s : σ) :
    Except ShogunException Bool × σ :=
  match CSGObject.has (.object_ptr .DynamicObjectArray) obj name with
  | .error e => (.error e, s)
  | .ok true =>
    match CSGObject.get (.object_ptr .DynamicObjectArray) obj name with
    | .error e => (.error e, s)
    | .ok dispatched =>
      match lambda.on_array dispatched s with
      | (.error e, s1) => (.error e, s1)
      | (.ok _, s1) => (.ok true, s1)
  | .ok false =>
    match CSGObject.has (.object_vector T1) obj name with
    | .error e => (.error e, s)
    | .ok true =>
      match CSGObject.get (.object_vector T1) obj name with
      | .error e => (.error e, s)
      | .ok dispatched =>
        match lambda.on_vector dispatched s with
        | (.error e, (_, s1)) => (.error e, s1)
        | (.ok _, (_, s1)) => (.ok true, s1)
    | .ok false => (.ok false, s)

end sgo_details

namespace CSGObject

/-- Modelled from the spec: `push_back` of `CDynamicObjectArray`
(`shogun/lib/DynamicObjectArray.h`, not among the sources) and of
`std::vector`, spec §4.3 "append": the lambda
`[&value](auto& array) { array.push_back(value); }` of `add`. -/
def push_back_lambda (value : Option ObjId) : ArrayLambda ObjectMemory where
  on_array := fun array m =>
    match array with
    | none => (.error .null_dereference, m)
    | some a =>
      (.ok (), { m with arrays := fun x => if x = a then m.arrays a ++ [value]
                                           else m.arrays x })
  on_vector := fun array m => (.ok (), (array ++ [value], m))

/-- `add<T>(name, value)` (SGObject.h 459-477). -/
def add (T : BaseCategory) (name : String) (value : Option ObjId)
    (m : ObjectMemory) : Except ShogunException Unit × ObjectMemory :=
  match value with
  | none => (.error .no_object_provided, m)
  | some _ =>
    match sgo_details.dispatch_array_type T m.self name (push_back_lambda value) m with
    | (.error e, m1) => (.error e, m1)
    | (.ok true, m1) => (.ok (), m1)
    | (.ok false, m1) => (.error .cannot_add_to_array, m1)

/-- Modelled from the spec: `at(index)` of `CDynamicObjectArray`
(`shogun/lib/DynamicObjectArray.h`, not among the sources) and of
`std::vector`, spec §4.3 "fetch-by-index": the lambda
`[&index, &result](auto& array) { result = array.at(index); }` of the indexed
getter; the captured `result` is the state. -/
def get_lambda (m : ObjectMemory) (index : Int) : ArrayLambda (Option ObjId) where
  on_array := fun array result =>
    match array with
    | none => (.error .null_dereference, result)
    | some a =>
      match element_at (m.arrays a) index with
      | some e => (.ok (), e)
      | none => (.error (.out_of_range index), result)
  on_vector := fun array result =>
    match element_at array index with
    | some e => (.ok (), (array, e))
    | none => (.error (.out_of_range index), (array, result))

/-- `as<T>()` on the object at address `o` (SGObject.h 704-715): the object
itself when `dynamic_cast<T*>` succeeds, else `SG_SERROR`. -/
def as (T : BaseCategory) (o : ObjId) (m : ObjectMemory) :
    Except ShogunException (Option ObjId) :=
  if derives_from (m.dynamic_class o) T then .ok (some o)
  else .error (.cannot_convert (m.dynamic_class o) T)

/-- `get<T>(name, index, std::nothrow)` (SGObject.h 490-507), a `const`
member. -/
def get_index_nothrow (T : BaseCategory) (name : String) (index : Int)
    (m : ObjectMemory) : Except ShogunException (Option ObjId) :=
  match sgo_details.dispatch_array_type T m.self name (get_lambda m index) none with
  | (.error e, _) => .error e
  | (.ok true, result) =>
    match result with
    | none => .error .assertion_failed
    | some o => as T o m
  | (.ok false, _) => .ok none

/-- `get<T>(name, index)` (SGObject.h 509-521), a `const` member. -/
def get_index (T : BaseCategory) (name : String) (index : Int)
    (m : ObjectMemory) : Except ShogunException (Option ObjId) :=
  match get_index_nothrow T name index m with
  | .error e => .error e
  | .ok none => .error (.could_not_get_array_parameter index)
  | .ok (some o) => .ok (some o)

end CSGObject

namespace sgo_details

/-- `get_if_possible<T>(obj, name, GetByNameIndex how)` (SGObject.h
1248-1254); `index` is `how.m_index`. -/
def get_if_possible (T : BaseCategory) (name : String) (index : Int)
    (m : ObjectMemory) : Except ShogunException (Option ObjId) :=
  CSGObject.get_index_nothrow T name index m

/-- `get_dispatch_all_base_types(obj, name, GetByNameIndex how)` (SGObject.h
1256-1272): `if (auto* result = ...) return result;` for the five categories
in turn. -/
def get_dispatch_all_base_types (name : String) (index : Int) (m : ObjectMemory) :
    Except ShogunException (Option ObjId) :=
  match get_if_possible .Kernel name index m with
  | .error e => .error e
  | .ok (some r) => .ok (some r)
  | .ok none =>
  match get_if_possible .Features name index m with
  | .error e => .error e
  | .ok (some r) => .ok (some r)
  | .ok none =>
  match get_if_possible .Machine name index m with
  | .error e => .error e
  | .ok (some r) => .ok (some r)
  | .ok none =>
  match get_if_possible .Labels name index m with
  | .error e => .error e
  | .ok (some r) => .ok (some r)
  | .ok none =>
  match get_if_possible .EvaluationResult name index m with
  | .error e => .error e
  | .ok (some r) => .ok (some r)
  | .ok none => .ok none

end sgo_details

/-- A lambda that only counts how often it is invoked, in either
instantiation. -/
def counting_lambda : ArrayLambda Nat where
  on_array := fun _ n => (.ok (), n + 1)
  on_vector := fun array n => (.ok (), (array, n + 1))

/-- An object with two array parameters: `feature_array`, a pointer to the
`CDynamicObjectArray` at address 10, and `machines`, an empty
`std::vector<CMachine*>`. -/
def array_object : CSGObject :=
  { map :=
      [("feature_array",
          { value := { type := .object_ptr .DynamicObjectArray,
                       value := (some 10 : Option ObjId), cloneable := true },
            properties := plain_properties }),
       ("machines",
          { value := { type := .object_vector .Machine,
                       value := ([] : List (Option ObjId)), cloneable := true },
            properties := plain_properties })],
    m_string_to_enum_map := [] }

/-- The array object in a memory where the array at address 10 holds the
object 20; the object 20 is a features object, 21 a kernel, 22 a machine. -/
def array_memory : ObjectMemory :=
  { self := array_object,
    arrays := fun a => if a = 10 then [some 20] else [],
    dynamic_class := fun o =>
      if o = 20 then .Features else if o = 21 then .Kernel
      else if o = 22 then .Machine else .SGObject }

/-! ## Bound callables -/

/-- Modelled from the spec: the bound callables of an object
(`watch_method`, SGObject.h 909-919: a parameter flagged RUNFUNCTION whose
value is `std::function<bool()>` bound to the object). A callable acts on the
members `σ` of the object and returns its `bool`. -/
structure RunnableObject (σ : Type) where
  functions : List (String × (σ → Bool × σ))

namespace CSGObject

/-- Modelled from the spec: `CSGObject::get_function` (body in `SGObject.cpp`,
not among the sources). Header: "Getter for a class function, identified by a
BaseTag. Throws an exception if the class does not have such a parameter." -/
def get_function {σ : Type} (obj : RunnableObject σ) (_tag : String) :
    Except ShogunException (σ → Bool × σ) :=
  match map_find obj.functions _tag with
  | some f => .ok f
  | none => .error .not_found

/-- `run(name)` (SGObject.h 664-672). `any_cast<bool>` on the value of a bound
callable invokes it (spec §4.2: "invokes a RUNFUNCTION-flagged bound
callable"); what the callable did to the members stays, also when `run`
throws. -/
def run {σ : Type} (obj : RunnableObject σ) (name : String) (s : σ) :
    Except ShogunException Unit × σ :=
  match get_function obj name with
  | .error e => (.error e, s)
  | .ok param =>
    if !(param s).1 then (.error .run_function_failed, (param s).2)
    else (.ok (), (param s).2)

end CSGObject

/-- An object whose members are one counter, with two bound callables:
`train` increments the counter and returns true, `fail` returns false. -/
def runnable_example : RunnableObject Nat :=
  { functions := [("train", fun n => (true, n + 1)), ("fail", fun n => (false, n))] }

/-! ## Observed values -/

/-- `ObservedValueTemplated<T>(step, name, value, properties)`: the fields the
constructor is given (spec §3 ObservedValue). -/
structure ObservedValue where
  step : Int
  name : String
  value : Any
  properties : AnyParameterProperties

/-- The object as the observing members see it: the parameter store, the
member `m_subscriptions` (subscription index to subscription), and two
traces: every `ObservedValue` constructed so far and every one handed to
`observe(ObservedValue*)`, the delivery path, so far. -/
structure ObservableObject where
  self : CSGObject
  m_subscriptions : List (Int × Nat)
  constructed : List ObservedValue
  handed_over : List ObservedValue

namespace CSGObject

/-- `get_num_subscriptions()` (SGObject.h 1056-1059):
`static_cast<index_t>(m_subscriptions.size())`. The width of `index_t`
(`shogun/lib/common.h`) is not among the sources; it is taken to hold the
size. -/
def get_num_subscriptions (s : ObservableObject) : Int :=
  (s.m_subscriptions.length : Int)

/-- Modelled from the spec: `observe(ObservedValue* value)` (body in
`SGObject.cpp`, not among the sources), the delivery path of spec §4.5; the
model records the value it is handed. -/
def observe_value (value : ObservedValue) (s : ObservableObject) : ObservableObject :=
  { s with handed_over := s.handed_over ++ [value] }

/-- `observe<T>(step, name, value, properties)` (SGObject.h 1083-1095).
`clone` stands for `clone_utils::clone` (`shogun/util/clone.h`, not among the
sources). -/
def observe (clone : (T : SGType) → T.interp → T.interp) (T : SGType) (step : Int)
    (name : String) (value : T.interp) (properties : AnyParameterProperties)
    (s : ObservableObject) : ObservableObject :=
  if get_num_subscriptions s = 0 then s
  else
    let obs : ObservedValue :=
      { step := step, name := name, value := make_any T (clone T value),
        properties := properties }
    observe_value obs { s with constructed := s.constructed ++ [obs] }

/-- `observe<T>(step, name)`, the tag form (SGObject.h 1123-1131). -/
def observe_tag (clone : (T : SGType) → T.interp → T.interp) (T : SGType)
    (step : Int) (name : String) (s : ObservableObject) :
    Except ShogunException Unit × ObservableObject :=
  match get_parameter s.self name with
  | .error e => (.error e, s)
  | .ok param =>
    match any_cast T param.value with
    | .error e => (.error e, s)
    | .ok cloned => (.ok (), observe clone T step name (clone T cloned) param.properties s)

end CSGObject

/-- The example object with no subscription and empty traces. -/
def idle_object : ObservableObject :=
  { self := example_object, m_subscriptions := [], constructed := [], handed_over := [] }

/-- The example object with one subscription (index 0) and empty traces. -/
def observing_object : ObservableObject :=
  { self := example_object, m_subscriptions := [(0, 0)], constructed := [],
    handed_over := [] }

/-! ## Reference counting of objects -/

namespace CSGObject

/-- Modelled from the spec: `CSGObject::ref_count` (body in `SGObject.cpp`, not
among the sources). Header: "display reference counter"; spec §4.1: "returns
the current count without mutating it". -/
def ref_count (o : ObjId) (m : Memory) : Int :=
  m.refcount o

/-- Modelled from the spec: `CSGObject::unref` (body in `SGObject.cpp`, not
among the sources), applied to the object at address `o`. Spec §4.1: "unref()
decrements and, if the result is exactly zero, destroys the object and reports
zero; if the sentinel "disabled" state is active, both are no-ops returning
the sentinel"; header: "deallocate object if refcount is zero before or after
decrementing it". The third component tells whether this call destroyed the
object. -/
def unref (o : ObjId) (m : Memory) : Int × Memory × Bool :=
  if m.refcount o = REFCOUNT_DISABLED then (REFCOUNT_DISABLED, m, false)
  else if m.refcount o = 0 ∨ m.refcount o - 1 = 0 then
    (0, { m with refcount := fun x => if x = o then 0 else m.refcount x }, true)
  else
    (m.refcount o - 1,
     { m with refcount := fun x => if x = o then m.refcount o - 1 else m.refcount x },
     false)

/-- `SG_UNREF(x)`: `{ if (x) { if ((x)->unref()==0) (x)=NULL; } }`; returns the
pointer variable, the memory, and whether the object was destroyed. -/
def SG_UNREF (x : Option ObjId) (m : Memory) : Option ObjId × Memory × Bool :=
  match x with
  | some o =>
    if (unref o m).1 = 0 then (none, (unref o m).2.1, (unref o m).2.2)
    else (some o, (unref o m).2.1, (unref o m).2.2)
  | none => (none, m, false)

/-- `SG_UNREF_NO_NULL(x)`: `{ if (x) { (x)->unref(); } }`. -/
def SG_UNREF_NO_NULL (x : Option ObjId) (m : Memory) : Memory × Bool :=
  match x with
  | some o => (unref o m).2
  | none => (m, false)

/-- The values returned by `k` consecutive calls of `ref()` on the object at
`o`, and the memory after them. -/
def ref_times (o : ObjId) : Nat → Memory → List Int × Memory
  | 0, m => ([], m)
  | k + 1, m => ((ref o m).1 :: (ref_times o k (ref o m).2).1,
                 (ref_times o k (ref o m).2).2)

/-- The values returned and the destructions reported by `k` consecutive calls
of `unref()` on the object at `o`, and the memory after them. -/
def unref_times (o : ObjId) : Nat → Memory → List (Int × Bool) × Memory
  | 0, m => ([], m)
  | k + 1, m =>
    (((unref o m).1, (unref o m).2.2) :: (unref_times o k (unref o m).2.1).1,
     (unref_times o k (unref o m).2.1).2)

end CSGObject

/-- A memory in which every object is freshly constructed: all counters 0. -/
def fresh_memory : Memory :=
  { self := example_object, refcount := fun _ => 0 }

/-! ## Reference-counted containers -/

/-- The memory behind the containers derived from `SGReferencedData`: the
value of every `RefCount` cell by address, the address the next
`new RefCount` returns, the address the next data block gets, and the data
blocks that `free_data` has released so far. -/
structure DataHeap where
  refcounts : Nat → Int
  next_refcount : Nat
  next_block : Nat
  freed : List Nat

namespace SGReferencedData

/-- Modelled from the spec: `SGReferencedData::ref`
(`shogun/lib/SGReferencedData.h`, not among the sources) on a container whose
member `m_refcount` is the given pointer, null when counting is disabled.
Spec §4.1: increments and returns the new count; a no-op returning the
sentinel when disabled. -/
def ref (m_refcount : Option Nat) (h : DataHeap) : Int × DataHeap :=
  match m_refcount with
  | none => (REFCOUNT_DISABLED, h)
  | some c =>
    (h.refcounts c + 1,
     { h with refcounts := fun x => if x = c then h.refcounts c + 1 else h.refcounts x })

/-- Modelled from the spec: `SGReferencedData::ref_count`, spec §3: "count
queries must report the sentinel unchanged". -/
def ref_count (m_refcount : Option Nat) (h : DataHeap) : Int :=
  match m_refcount with
  | none => REFCOUNT_DISABLED
  | some c => h.refcounts c

/-- Modelled from the spec: `SGReferencedData::unref` on a container that holds
the data block `data`. Spec §4.1: decrements and, if the result is exactly
zero, destroys (here `free_data()`, which releases the block) and reports
zero; a no-op returning the sentinel when disabled. -/
def unref (m_refcount : Option Nat) (data : Option Nat) (h : DataHeap) :
    Int × DataHeap :=
  match m_refcount with
  | none => (REFCOUNT_DISABLED, h)
  | some c =>
    if h.refcounts c - 1 = 0 then
      (0, { h with refcounts := fun x => if x = c then 0 else h.refcounts x,
                   freed := h.freed ++ data.toList })
    else
      (h.refcounts c - 1,
       { h with refcounts := fun x => if x = c then h.refcounts c - 1
                                      else h.refcounts x })

/-- Modelled from the spec: the constructor `SGReferencedData(bool
ref_counting)`: with counting enabled a new counter cell, starting at zero, is
referenced once; with counting disabled there is no cell. -/
def create (ref_counting : Bool) (h : DataHeap) : Option Nat × DataHeap :=
  if ref_counting then
    (some h.next_refcount,
     (ref (some h.next_refcount)
        { h with refcounts := fun x => if x = h.next_refcount then 0 else h.refcounts x,
                 next_refcount := h.next_refcount + 1 }).2)
  else (none, h)

/-- Modelled from the spec: the copy constructor
`SGReferencedData(const SGReferencedData& orig)`: the copy shares the counter
of the original and takes one reference. -/
def copy (orig : Option Nat) (h : DataHeap) : Option Nat × DataHeap :=
  (orig, (ref orig h).2)

end SGReferencedData

/-- The members of `SGVector<T>` that sharing is about: the counter pointer
inherited from `SGReferencedData`, the address of the data block `vector`,
and `vlen`. -/
structure SGVector where
  m_refcount : Option Nat
  vector : Option Nat
  vlen : Int
  deriving DecidableEq, Repr

/-- The same members of `SGMatrix<T>`. -/
structure SGMatrix where
  m_refcount : Option Nat
  matrix : Option Nat
  num_rows : Int
  num_cols : Int
  deriving DecidableEq, Repr

namespace SGVector

/-- `SGVector(T* v, index_t len, bool ref_counting)` (SGVector.cpp 73-78). -/
def from_pointer (v : Option Nat) (len : Int) (ref_counting : Bool) (h : DataHeap) :
    SGVector × DataHeap :=
  ({ m_refcount := (SGReferencedData.create ref_counting h).1, vector := v, vlen := len },
   (SGReferencedData.create ref_counting h).2)

/-- `SGVector(index_t len, bool ref_counting)` (SGVector.cpp 87-94): the data
block is newly allocated. -/
def allocate (len : Int) (ref_counting : Bool) (h : DataHeap) : SGVector × DataHeap :=
  ({ m_refcount := (SGReferencedData.create ref_counting h).1,
     vector := some h.next_block, vlen := len },
   { (SGReferencedData.create ref_counting h).2 with next_block := h.next_block + 1 })

/-- The copy constructor `SGVector(const SGVector& orig)` (SGVector.cpp
120-124): `SGReferencedData(orig)`, then `copy_data(orig)`. -/
def copy (orig : SGVector) (h : DataHeap) : SGVector × DataHeap :=
  ({ m_refcount := (SGReferencedData.copy orig.m_refcount h).1,
     vector := orig.vector, vlen := orig.vlen },
   (SGReferencedData.copy orig.m_refcount h).2)

/-- The destructor `~SGVector()` (SGVector.cpp 145-149): `unref()`. -/
def destroy (v : SGVector) (h : DataHeap) : DataHeap :=
  (SGReferencedData.unref v.m_refcount v.vector h).2

/-- `ref_count()` of the vector. -/
def ref_count (v : SGVector) (h : DataHeap) : Int :=
  SGReferencedData.ref_count v.m_refcount h

end SGVector

namespace SGMatrix

/-- Modelled from the spec: the constructor `SGMatrix(SGVector<T> vec, index_t
nrows, index_t ncols)` (`SGMatrix.cpp`, not among the sources; the tests
`SGVector_ctor` and `SGVector_ctor_row_col_specified` use it): the matrix
shares the counter and the data block of the vector. -/
def from_vector (vec : SGVector) (nrows ncols : Int) (h : DataHeap) :
    SGMatrix × DataHeap :=
  ({ m_refcount := (SGReferencedData.copy vec.m_refcount h).1,
     matrix := vec.vector, num_rows := nrows, num_cols := ncols },
   (SGReferencedData.copy vec.m_refcount h).2)

/-- Modelled from the spec: the destructor `~SGMatrix()`: `unref()`. -/
def destroy (mat : SGMatrix) (h : DataHeap) : DataHeap :=
  (SGReferencedData.unref mat.m_refcount mat.matrix h).2

end SGMatrix

/-- A container memory with nothing allocated and nothing freed. -/
def empty_heap : DataHeap :=
  { refcounts := fun _ => 0, next_refcount := 0, next_block := 0, freed := [] }

/-! ## Registration -/

/-- One use of the macro `SG_ADD(...)`, which `VARARG` sends to `SG_ADD3`,
`SG_ADD4` or `SG_ADD5` by the number of its arguments. `param` is the Any made
of the pointer to the member, `auto_init` identifies the lazy initializer. -/
inductive Registration
  | add3 (param : Any) (name description : String)
  | add4 (param : Any) (name description : String)
      (param_properties : List ParameterProperties)
  | add5 (param : Any) (name description : String)
      (param_properties : List ParameterProperties) (auto_init : Nat)

/-- Modelled from the spec: what `create_parameter` keeps for one name (spec
§3 AnyParameter: value, properties, optional lazy initializer). -/
structure RegisteredEntry where
  name : String
  parameter : AnyParameter
  auto_init : Option Nat

/-- The members an object fills while it registers its parameters: the lists
`m_parameters`, `m_model_selection_parameters`, `m_gradient_parameters` (by
name, in order of `add`) and the entries of the store `self->map`. -/
structure RegisteringObject where
  m_parameters : List String
  m_model_selection_parameters : List String
  m_gradient_parameters : List String
  entries : List RegisteredEntry

/-- Modelled from the spec: `AnyParameterProperties(description,
param_properties)` (`shogun/base/AnyParameter.h`, not among the sources); the
one-argument form has no flag set. -/
def make_properties (description : String) (param_properties : List ParameterProperties) :
    AnyParameterProperties :=
  { description := description, attributes := param_properties }

/-- Modelled from the spec: `AnyParameterProperties::has_property`, the test
of one flag of the bit-set (spec §3). -/
def AnyParameterProperties.has_property (pprop : AnyParameterProperties)
    (flag : ParameterProperties) : Bool :=
  decide (flag ∈ pprop.attributes)

namespace RegisteringObject

/-- Modelled from the spec: `Parameter::add(param, name, description)`
(`shogun/base/Parameter.h`, not among the sources) on one of the three lists:
the name is appended. -/
def list_add (l : List String) (name : String) : List String :=
  l ++ [name]

/-- Modelled from the spec: `watch_param(name, param, pprop)` and
`watch_param(name, param, auto_init, pprop)` (SGObject.h 818-844), which hand
`AnyParameter(make_any_ref(param), properties[, auto_init])` to
`create_parameter` (body in `SGObject.cpp`, not among the sources; spec §4.2
Registration: "associates a name with an AnyValue, initial properties, and
optional lazy initializer"). -/
def watch_param (obj : RegisteringObject) (name : String) (param : Any)
    (auto_init : Option Nat) (pprop : AnyParameterProperties) : RegisteringObject :=
  { obj with entries := obj.entries ++
      [{ name := name, parameter := { value := param, properties := pprop },
         auto_init := auto_init }] }

/-- `SG_ADD3(param, name, description)` (SGObject.h 83-87). -/
def SG_ADD3 (obj : RegisteringObject) (param : Any) (name description : String) :
    RegisteringObject :=
  watch_param { obj with m_parameters := list_add obj.m_parameters name }
    name param none (make_properties description [])

/-- `SG_ADD4(param, name, description, param_properties)` (SGObject.h 89-103);
`none` is the rejection of the program by the `static_assert`. -/
def SG_ADD4 (obj : RegisteringObject) (param : Any) (name description : String)
    (param_properties : List ParameterProperties) : Option RegisteringObject :=
  if decide (ParameterProperties.AUTO ∈ param_properties) then none
  else
    let pprop := make_properties description param_properties
    let obj1 := watch_param { obj with m_parameters := list_add obj.m_parameters name }
      name param none pprop
    let obj2 :=
      if pprop.has_property .HYPER then
        { obj1 with m_model_selection_parameters :=
            list_add obj1.m_model_selection_parameters name }
      else obj1
    some (if pprop.has_property .GRADIENT then
            { obj2 with m_gradient_parameters := list_add obj2.m_gradient_parameters name }
          else obj2)

/-- `SG_ADD5(param, name, description, param_properties, auto_init)`
(SGObject.h 105-118); `none` is the rejection of the program by the
`static_assert`. -/
def SG_ADD5 (obj : RegisteringObject) (param : Any) (name description : String)
    (param_properties : List ParameterProperties) (auto_init : Nat) :
    Option RegisteringObject :=
  if !decide (ParameterProperties.AUTO ∈ param_properties) then none
  else
    let pprop := make_properties description param_properties
    let obj1 := watch_param { obj with m_parameters := list_add obj.m_parameters name }
      name param (some auto_init) pprop
    let obj2 :=
      if pprop.has_property .HYPER then
        { obj1 with m_model_selection_parameters :=
            list_add obj1.m_model_selection_parameters name }
      else obj1
    some (if pprop.has_property .GRADIENT then
            { obj2 with m_gradient_parameters := list_add obj2.m_gradient_parameters name }
          else obj2)

/-- `SG_ADD(...)` (SGObject.h 120). -/
def SG_ADD (obj : RegisteringObject) : Registration → Option RegisteringObject
  | .add3 param name description => some (SG_ADD3 obj param name description)
  | .add4 param name description param_properties =>
    SG_ADD4 obj param name description param_properties
  | .add5 param name description param_properties auto_init =>
    SG_ADD5 obj param name description param_properties auto_init

/-- The registrations of a constructor, one after the other; `none` when one
of them is rejected. -/
def register_all : List Registration → RegisteringObject → Option RegisteringObject
  | [], obj => some obj
  | r :: rest, obj =>
    match SG_ADD obj r with
    | none => none
    | some obj1 => register_all rest obj1

/-- An object before its constructor has registered anything. -/
def unregistered : RegisteringObject :=
  { m_parameters := [], m_model_selection_parameters := [], m_gradient_parameters := [],
    entries := [] }

end RegisteringObject

/-- The name a registration is made under. -/
def Registration.name : Registration → String
  | .add3 _ name _ => name
  | .add4 _ name _ _ => name
  | .add5 _ name _ _ _ => name

/-- The flags a registration is made with; none in the three-argument form. -/
def Registration.param_properties : Registration → List ParameterProperties
  | .add3 _ _ _ => []
  | .add4 _ _ _ param_properties => param_properties
  | .add5 _ _ _ param_properties _ => param_properties

/-- The lazy initializer a registration supplies, if any. -/
def Registration.auto_init : Registration → Option Nat
  | .add3 _ _ _ => none
  | .add4 _ _ _ _ => none
  | .add5 _ _ _ _ auto_init => some auto_init

/-- The registrations of a small learner: a width that is a hyperparameter
with a gradient, a read-only flag, a plain name, and a seed computed lazily. -/
def example_registrations : List Registration :=
  [.add4 (make_any .int64 (1 : Int)) "width" "kernel width" [.HYPER, .GRADIENT],
   .add4 (make_any .bool true) "fitted" "whether fit ran" [.READONLY],
   .add3 (make_any (.string .std_string) "a") "label" "a label",
   .add5 (make_any .int64 (0 : Int)) "seed" "random seed" [.AUTO, .HYPER] 7]

/-! ## Process-wide objects -/

/-- The log levels `init_from_env` can set. -/
inductive EMessageType
  | MSG_DEBUG
  | MSG_WARN
  | MSG_ERROR
  deriving DecidableEq, Repr

/-- A call that `init_from_env` makes on one of the global objects, or the
warning it prints. -/
inductive Setting
  | set_loglevel (io : ObjId) (level : EMessageType)
  | set_linalg_warnings (linalg : ObjId) (enabled : Bool)
  | set_num_threads (parallel : ObjId) (num_threads : Int)
  | warning_num_threads (value : String)
  deriving DecidableEq, Repr

/-- The environment variables `init_from_env` reads with `getenv`. -/
structure Environment where
  SHOGUN_LOG_LEVEL : Option String
  SHOGUN_GPU_WARNINGS : Option String
  SHOGUN_NUM_THREADS : Option String

/-- The global variables of `init.cpp` and the objects they point to: the
ownership counter of every object, the address the next `new` returns, the
objects destroyed so far, the calls made on the global objects so far, and the
three print handlers. The `float64_t` epsilon is only stored and handed on,
never computed with; a rational stands for it. -/
structure Process where
  sg_parallel : Option ObjId
  sg_io : Option ObjId
  sg_version : Option ObjId
  sg_rand : Option ObjId
  sg_signal : Option ObjId
  sg_linalg : Option ObjId
  sg_fequals_epsilon : ℚ
  sg_fequals_tolerant : Bool
  sg_print : Option (Nat × Nat × Nat)
  refcount : ObjId → Int
  next_object : ObjId
  destroyed : List ObjId
  settings : List Setting

namespace Process

/-- Modelled from the spec: `ref()` of a global object (`SGIO`, `Parallel`,
`Version`, `CRandom`; their bodies are not among the sources), the rule of
spec §4.1, the same as `CSGObject.ref`. -/
def ref (o : ObjId) (p : Process) : Int × Process :=
  if p.refcount o = REFCOUNT_DISABLED then (REFCOUNT_DISABLED, p)
  else (p.refcount o + 1,
        { p with refcount := fun x => if x = o then p.refcount o + 1 else p.refcount x })

/-- Modelled from the spec: `unref()` of a global object, the rule of spec
§4.1 and of the header of `CSGObject::unref`, the same as `CSGObject.unref`;
a destroyed object is appended to `destroyed`. -/
def unref (o : ObjId) (p : Process) : Int × Process :=
  if p.refcount o = REFCOUNT_DISABLED then (REFCOUNT_DISABLED, p)
  else if p.refcount o = 0 ∨ p.refcount o - 1 = 0 then
    (0, { p with refcount := fun x => if x = o then 0 else p.refcount x,
                 destroyed := p.destroyed ++ [o] })
  else
    (p.refcount o - 1,
     { p with refcount := fun x => if x = o then p.refcount o - 1 else p.refcount x })

/-- `SG_REF(x)`: `{ if (x) (x)->ref(); }`. -/
def SG_REF (x : Option ObjId) (p : Process) : Process :=
  match x with
  | some o => (ref o p).2
  | none => p

/-- `SG_UNREF(x)`: `{ if (x) { if ((x)->unref()==0) (x)=NULL; } }`; the first
component is the pointer variable afterwards. -/
def SG_UNREF (x : Option ObjId) (p : Process) : Option ObjId × Process :=
  match x with
  | some o => if (unref o p).1 = 0 then (none, (unref o p).2) else (some o, (unref o p).2)
  | none => (none, p)

/-- `new T()`: a fresh object, with a counter of zero. -/
def new_object (p : Process) : ObjId × Process :=
  (p.next_object,
   { p with refcount := fun x => if x = p.next_object then 0 else p.refcount x,
            next_object := p.next_object + 1 })

end Process

/-- `set_global_io` (init.cpp 119-124). -/
def set_global_io (io : Option ObjId) (p : Process) : Process :=
  let p1 := Process.SG_REF io p
  let r := Process.SG_UNREF p1.sg_io p1
  { { r.2 with sg_io := r.1 } with sg_io := io }

/-- `get_global_io` (init.cpp 126-130). -/
def get_global_io (p : Process) : Option ObjId × Process :=
  ((Process.SG_REF p.sg_io p).sg_io, Process.SG_REF p.sg_io p)

/-- `get_global_fequals_epsilon` (init.cpp 132-135). -/
def get_global_fequals_epsilon (p : Process) : ℚ :=
  p.sg_fequals_epsilon

/-- `set_global_fequals_epsilon` (init.cpp 137-140). -/
def set_global_fequals_epsilon (fequals_epsilon : ℚ) (p : Process) : Process :=
  { p with sg_fequals_epsilon := fequals_epsilon }

/-- `set_global_fequals_tolerant` (init.cpp 142-145). -/
def set_global_fequals_tolerant (fequals_tolerant : Bool) (p : Process) : Process :=
  { p with sg_fequals_tolerant := fequals_tolerant }

/-- `get_global_fequals_tolerant` (init.cpp 147-150). -/
def get_global_fequals_tolerant (p : Process) : Bool :=
  p.sg_fequals_tolerant

/-- `set_global_parallel` (init.cpp 152-157). -/
def set_global_parallel (parallel : Option ObjId) (p : Process) : Process :=
  let p1 := Process.SG_REF parallel p
  let r := Process.SG_UNREF p1.sg_parallel p1
  { { r.2 with sg_parallel := r.1 } with sg_parallel := parallel }

/-- `get_global_parallel` (init.cpp 159-163). -/
def get_global_parallel (p : Process) : Option ObjId × Process :=
  ((Process.SG_REF p.sg_parallel p).sg_parallel, Process.SG_REF p.sg_parallel p)

/-- `set_global_version` (init.cpp 165-170). -/
def set_global_version (version : Option ObjId) (p : Process) : Process :=
  let p1 := Process.SG_REF version p
  let r := Process.SG_UNREF p1.sg_version p1
  { { r.2 with sg_version := r.1 } with sg_version := version }

/-- `get_global_version` (init.cpp 172-176). -/
def get_global_version (p : Process) : Option ObjId × Process :=
  ((Process.SG_REF p.sg_version p).sg_version, Process.SG_REF p.sg_version p)

/-- `set_global_rand` (init.cpp 178-183). -/
def set_global_rand (rand : Option ObjId) (p : Process) : Process :=
  let p1 := Process.SG_REF rand p
  let r := Process.SG_UNREF p1.sg_rand p1
  { { r.2 with sg_rand := r.1 } with sg_rand := rand }

/-- `get_global_rand` (init.cpp 185-189). -/
def get_global_rand (p : Process) : Option ObjId × Process :=
  ((Process.SG_REF p.sg_rand p).sg_rand, Process.SG_REF p.sg_rand p)

/-- `get_global_linalg` (init.cpp 197-200). -/
def get_global_linalg (p : Process) : Option ObjId :=
  p.sg_linalg

/-- `init_from_env` (init.cpp 203-242). `stoi` stands for `std::stoi`, `none`
where it throws; a call through a null pointer ends the function with
`null_dereference`. The locals `io` and `parallel` are the pointers the
getters returned. -/
def init_from_env (env : Environment) (stoi : String → Option Int) (p : Process) :
    Except ShogunException Unit × Process :=
  let io := (get_global_io p).1
  let p1 := (get_global_io p).2
  let log : Except ShogunException Process :=
    match env.SHOGUN_LOG_LEVEL with
    | none => .ok p1
    | some env_log_val =>
      if env_log_val.startsWith "DEBUG" then
        match io with
        | some o => .ok { p1 with settings := p1.settings ++ [.set_loglevel o .MSG_DEBUG] }
        | none => .error .null_dereference
      else if env_log_val.startsWith "WARN" then
        match io with
        | some o => .ok { p1 with settings := p1.settings ++ [.set_loglevel o .MSG_WARN] }
        | none => .error .null_dereference
      else if env_log_val.startsWith "ERROR" then
        match io with
        | some o => .ok { p1 with settings := p1.settings ++ [.set_loglevel o .MSG_ERROR] }
        | none => .error .null_dereference
      else .ok p1
  match log with
  | .error e => (.error e, p1)
  | .ok p2 =>
    let p3 := (Process.SG_UNREF io p2).2
    let linalg := get_global_linalg p3
    let gpu : Except ShogunException Process :=
      match env.SHOGUN_GPU_WARNINGS with
      | none => .ok p3
      | some env_warnings_val =>
        if env_warnings_val.startsWith "off" then
          match linalg with
          | some l =>
            .ok { p3 with settings := p3.settings ++ [.set_linalg_warnings l false] }
          | none => .error .null_dereference
        else .ok p3
    match gpu with
    | .error e => (.error e, p3)
    | .ok p4 =>
      let parallel := (get_global_parallel p4).1
      let p5 := (get_global_parallel p4).2
      match env.SHOGUN_NUM_THREADS with
      | none => (.ok (), p5)
      | some env_thread_val =>
        match stoi env_thread_val with
        | some num_threads =>
          match parallel with
          | some o =>
            (.ok (), { p5 with settings := p5.settings ++ [.set_num_threads o num_threads] })
          | none => (.error .null_dereference, p5)
        | none =>
          (.ok (), { p5 with settings := p5.settings ++ [.warning_num_threads env_thread_val] })

/-- `init_shogun` (init.cpp 59-90); the three handlers are given by number.
The installation of the signal handler acts outside this state. -/
def init_shogun (print_message print_warning print_error : Nat) (env : Environment)
    (stoi : String → Option Int) (p : Process) : Except ShogunException Unit × Process :=
  let p1 := if p.sg_io.isNone then
      { (Process.new_object p).2 with sg_io := some (Process.new_object p).1 } else p
  let p2 := if p1.sg_parallel.isNone then
      { (Process.new_object p1).2 with sg_parallel := some (Process.new_object p1).1 } else p1
  let p3 := if p2.sg_version.isNone then
      { (Process.new_object p2).2 with sg_version := some (Process.new_object p2).1 } else p2
  let p4 := if p3.sg_rand.isNone then
      { (Process.new_object p3).2 with sg_rand := some (Process.new_object p3).1 } else p3
  let p5 := if p4.sg_linalg.isNone then
      { (Process.new_object p4).2 with sg_linalg := some (Process.new_object p4).1 } else p4
  let p6 := if p5.sg_signal.isNone then
      { (Process.new_object p5).2 with sg_signal := some (Process.new_object p5).1 } else p5
  let p7 := Process.SG_REF p6.sg_io p6
  let p8 := Process.SG_REF p7.sg_parallel p7
  let p9 := Process.SG_REF p8.sg_version p8
  let p10 := Process.SG_REF p9.sg_rand p9
  let p11 := { p10 with sg_print := some (print_message, print_warning, print_error) }
  init_from_env env stoi p11

/-- `exit_shogun` (init.cpp 103-117). The three `delete` of the static members
of `CSignal` act outside this state. -/
def exit_shogun (p : Process) : Process :=
  let r1 := Process.SG_UNREF p.sg_rand p
  let p1 := { r1.2 with sg_rand := r1.1 }
  let r2 := Process.SG_UNREF p1.sg_version p1
  let p2 := { r2.2 with sg_version := r2.1 }
  let r3 := Process.SG_UNREF p2.sg_parallel p2
  let p3 := { r3.2 with sg_parallel := r3.1 }
  let r4 := Process.SG_UNREF p3.sg_io p3
  { r4.2 with sg_io := r4.1 }

/-- The process before `init_shogun`: no global object, no object allocated,
the defaults of init.cpp 36-48 (`sg_fequals_tolerant = 0.0` is false). -/
def initial_process : Process :=
  { sg_parallel := none, sg_io := none, sg_version := none, sg_rand := none,
    sg_signal := none, sg_linalg := none, sg_fequals_epsilon := 0,
    sg_fequals_tolerant := false, sg_print := none, refcount := fun _ => 0,
    next_object := 0, destroyed := [], settings := [] }

/-- An environment in which none of the three variables is set. -/
def empty_environment : Environment :=
  { SHOGUN_LOG_LEVEL := none, SHOGUN_GPU_WARNINGS := none, SHOGUN_NUM_THREADS := none }

/-- The process after one `init_shogun` (no environment variable set) and one
`exit_shogun`, started with no global object. -/
def process_after_init_and_exit : Process :=
  exit_shogun (init_shogun 0 0 0 empty_environment (fun _ => none) initial_process).2

/-- The contract of claim C28 for one collaborator: `var` is its global
variable, `set` and `get` its setter and getter. For every object `a` with an
active counter: the getter after the setter returns `a`; the setter leaves the
counter of `a` one higher and the counter of a previously installed other
object `b` (holding at least one reference) one lower, and no other counter
changed; the getter returns the global, leaves the counter of the returned
object one higher and changes nothing else. -/
def GlobalAccessorContract (var : Process → Option ObjId)
    (set : Option ObjId → Process → Process)
    (get : Process → Option ObjId × Process) : Prop :=
  ∀ (p : Process) (a : ObjId), 0 ≤ p.refcount a →
    var (set (some a) p) = some a ∧
    (get (set (some a) p)).1 = some a ∧
    (∀ b, var p = some b → b ≠ a → 1 ≤ p.refcount b →
      (set (some a) p).refcount a = p.refcount a + 1 ∧
      (set (some a) p).refcount b = p.refcount b - 1 ∧
      ∀ x, x ≠ a → x ≠ b → (set (some a) p).refcount x = p.refcount x) ∧
    (var p = none →
      (set (some a) p).refcount a = p.refcount a + 1 ∧
      ∀ x, x ≠ a → (set (some a) p).refcount x = p.refcount x) ∧
    (get p).1 = var p ∧
    (var p = some a →
      (get p).2.refcount a = p.refcount a + 1 ∧
      ∀ x, x ≠ a → (get p).2.refcount x = p.refcount x) ∧
    (get p).2 = { p with refcount := (get p).2.refcount }

/-! ## Vector elements -/

/-- The elements behind the data pointers of the containers: the element
stored at every address, and the address `brk` below which every allocated
element lies. A pointer is an address, `p[i]` is the element at `p + i`. -/
structure VectorMemory (α : Type) where
  cells : Nat → α
  brk : Nat

namespace VectorMemory

/-- The read `p[i]`; a read through the null pointer is undefined and shows as
`none`. -/
def read {α : Type} (mem : VectorMemory α) (p : Option Nat) (i : Nat) : Option α :=
  p.map (fun a => mem.cells (a + i))

/-- The write `p[i] = x`; nothing is written through the null pointer. -/
def write {α : Type} (mem : VectorMemory α) (p : Option Nat) (i : Nat) (x : α) :
    VectorMemory α :=
  match p with
  | none => mem
  | some a => { mem with cells := fun c => if c = a + i then x else mem.cells c }

end VectorMemory

namespace SGVector

/-- The element `vector[i]` of a vector. -/
def element {α : Type} (v : SGVector) (mem : VectorMemory α) (i : Nat) : Option α :=
  mem.read v.vector i

/-- The loop `for (index_t i = 0; i < vlen; ++i) if (!same(vector[i],
other.vector[i])) return false; return true;` of the two forms of `equals`,
from index `i` with `k` iterations to go. -/
def compare_elements {α : Type} (same : Option α → Option α → Bool)
    (this other : SGVector) (mem : VectorMemory α) : Nat → Nat → Bool
  | _, 0 => true
  | i, k + 1 =>
    if !same (this.element mem i) (other.element mem i) then false
    else compare_elements same this other mem (i + 1) k

/-- `SGVector<T>::equals(const SGVector<T>& other)` (SGVector.cpp 405-422), the
form for the element types that are compared with `!=`; `this` is on the
CPU. -/
def equals {α : Type} [DecidableEq α] (this other : SGVector) (mem : VectorMemory α) :
    Bool :=
  if other.vlen ≠ this.vlen then false
  else if this.vector = other.vector then true
  else compare_elements (fun x y => !decide (y ≠ x)) this other mem 0 this.vlen.toNat

/-- `SGVector<real_t>::equals` as `REAL_EQUALS(real_t)` defines it (SGVector.cpp
424-449). `fequals` stands for `CMath::fequals` (`shogun/mathematics/Math.h`,
not among the sources), which may read the process; `numeric_limits_epsilon`
is `std::numeric_limits<real_t>::epsilon()`. A comparison that would read
through the null pointer is undefined and taken as unequal. -/
def equals_real {α : Type} (fequals : Process → α → α → ℚ → Bool)
    (numeric_limits_epsilon : ℚ) (p : Process) (this other : SGVector)
    (mem : VectorMemory α) : Bool :=
  if other.vlen ≠ this.vlen then false
  else if this.vector = other.vector then true
  else
    compare_elements
      (fun x y =>
        match x, y with
        | some a, some b => fequals p a b numeric_limits_epsilon
        | _, _ => false)
      this other mem 0 this.vlen.toNat

/-- `SGVector<T>::clone_vector(const T* vec, int32_t len)` (SGVector.cpp
267-278): the new block is the `len` addresses from `brk` on. -/
def clone_vector {α : Type} (vec : Option Nat) (len : Int) (mem : VectorMemory α) :
    Except ShogunException (Option Nat) × VectorMemory α :=
  match vec with
  | none => (.ok none, mem)
  | some src =>
    if len = 0 then (.ok none, mem)
    else if ¬ (len > 0) then (.error (.requirement_failed len), mem)
    else
      (.ok (some mem.brk),
       { cells := fun c =>
           if mem.brk ≤ c ∧ c < mem.brk + len.toNat then mem.cells (src + (c - mem.brk))
           else mem.cells c,
         brk := mem.brk + len.toNat })

/-- `SGVector<T>::clone()` (SGVector.cpp 258-265) for a vector on the CPU:
`SGVector<T>(clone_vector(vector, vlen), vlen)`, the constructor from a
pointer with its counting enabled. -/
def clone {α : Type} (this : SGVector) (mem : VectorMemory α) (h : DataHeap) :
    Except ShogunException SGVector × VectorMemory α × DataHeap :=
  match clone_vector this.vector this.vlen mem with
  | (.error e, mem1) => (.error e, mem1, h)
  | (.ok data, mem1) =>
    (.ok (from_pointer data this.vlen true h).1, mem1, (from_pointer data this.vlen true h).2)

/-- A vector as its members promise it: a length that is not negative, a null
pointer only with length zero, and all its elements allocated. -/
def valid {α : Type} (v : SGVector) (mem : VectorMemory α) : Prop :=
  0 ≤ v.vlen ∧ (v.vector = none → v.vlen = 0) ∧
    ∀ a, v.vector = some a → a + v.vlen.toNat ≤ mem.brk

end SGVector

/-- A memory of integers holding 1, 2, 3 at the addresses 0, 1, 2 and zeros
above, three elements allocated. -/
def example_cells : VectorMemory Int :=
  { cells := fun c => if c = 0 then 1 else if c = 1 then 2 else if c = 2 then 3 else 0,
    brk := 3 }

/-- The vector of the three elements of `example_cells`. -/
def example_vector : SGVector :=
  { m_refcount := none, vector := some 0, vlen := 3 }

/-- A memory of rationals holding 0 at address 0 and 1 at address 1. -/
def real_cells : VectorMemory ℚ :=
  { cells := fun c => if c = 1 then 1 else 0, brk := 2 }

/-! ## Deep clone and equals -/

/-- An object on the heap: the name of its concrete type (`get_name()`) and
its parameter store. -/
structure HeapObject where
  name : String
  store : CSGObject

/-- The objects reachable through object-pointer parameters: the object at
every address, and the address `next` that the next `new` returns. -/
structure ObjectGraph where
  objects : ObjId → Option HeapObject
  next : ObjId

/-- The graph after `new`: the object `o` is placed at the address `next`. -/
def ObjectGraph.new_object (g : ObjectGraph) (o : HeapObject) : ObjectGraph :=
  { objects := fun a => if a = g.next then some o else g.objects a,
    next := g.next + 1 }

/-- An integer element type: its width in bits and whether it is signed. -/
structure IntegerType where
  bits : Nat
  is_signed : Bool
  deriving DecidableEq, Repr

namespace IntegerType

/-- The value of the type that is congruent to `x` modulo `2 ^ bits`. -/
def wrap (t : IntegerType) (x : Int) : Int :=
  if t.is_signed then (x + 2 ^ (t.bits - 1)) % 2 ^ t.bits - 2 ^ (t.bits - 1)
  else x % 2 ^ t.bits

/-- The sum `a + b` stored into an element of the type (`a += b`). -/
def add (t : IntegerType) (a b : Int) : Int :=
  t.wrap (a + b)

end IntegerType

/-- The type `int32_t`. -/
def int32_t : IntegerType :=
  { bits := 32, is_signed := true }

namespace VectorMemory

/-- The elements `p[0], ..., p[n-1]`. -/
def block {α : Type} (mem : VectorMemory α) (p n : Nat) : List α :=
  (List.range n).map (fun i => mem.cells (p + i))

/-- The memory after `p[0], ..., p[l.length - 1]` were overwritten by the
elements of `l`. -/
def write_block {α : Type} (mem : VectorMemory α) (p : Nat) (l : List α) :
    VectorMemory α :=
  { mem with cells := fun c =>
      if p ≤ c ∧ c < p + l.length then l.getD (c - p) (mem.cells c) else mem.cells c }

/-- `memset(&p[start], 0, count * sizeof(T))` for an element type whose zero
is all bits zero; nothing is written through the null pointer. -/
def memset_zero {α : Type} [Zero α] (mem : VectorMemory α) (p : Option Nat)
    (start count : Nat) : VectorMemory α :=
  match p with
  | none => mem
  | some a =>
    { mem with cells := fun c =>
        if a + start ≤ c ∧ c < a + start + count then 0 else mem.cells c }

/-- Modelled from the spec: `SG_REALLOC(T, ptr, old_len, len)` (macro of
`shogun/lib/memory.h`, not among the sources), with the contract of C
`realloc`: the result is a block of `len` elements whose first
`min(old_len, len)` elements are those of the old block, the other elements
being whatever the memory holds there; a request for no element returns the
null pointer. The new block is the `len` addresses from `brk` on. -/
def SG_REALLOC {α : Type} (mem : VectorMemory α) (ptr : Option Nat) (old_len len : Int) :
    Option Nat × VectorMemory α :=
  if len.toNat = 0 then (none, mem)
  else
    (some mem.brk,
     { cells := fun c =>
         match ptr with
         | some src =>
           if mem.brk ≤ c ∧ c < mem.brk + min old_len.toNat len.toNat then
             mem.cells (src + (c - mem.brk))
           else mem.cells c
         | none => mem.cells c,
       brk := mem.brk + len.toNat })

end VectorMemory

/-- The product of two `index_t` values. `index_t` is `int32_t`: the result
is the 32-bit signed integer congruent to the product modulo `2 ^ 32`. -/
def index_mul (a b : Int) : Int :=
  int32_t.wrap (a * b)

/-- The sum of two `index_t` values, as a 32-bit signed integer. -/
def index_add (a b : Int) : Int :=
  int32_t.wrap (a + b)

/-- The memory after the element at `address` was overwritten by `x`. -/
def VectorMemory.store {α : Type} (mem : VectorMemory α) (address : Nat) (x : α) :
    VectorMemory α :=
  { mem with cells := fun c => if c = address then x else mem.cells c }

/-- One entry of a sparse vector (`SGSparseVectorEntry<T>` of
`shogun/lib/SGSparseVector.h`): `feat_index` is an `index_t`, a signed 32-bit
integer. -/
structure SGSparseVectorEntry (α : Type) where
  feat_index : Int
  entry : α

/-- The members of `SGSparseVector<T>` that `add` reads: the array `features`,
null or holding at least `num_feat_entries` entries, and `num_feat_entries`. -/
structure SGSparseVector (α : Type) where
  features : Option (List (SGSparseVectorEntry α))
  num_feat_entries : Int

namespace SGVector

/-- The elements of a vector, in order. -/
def to_list {α : Type} (v : SGVector) (mem : VectorMemory α) : List α :=
  match v.vector with
  | none => []
  | some a => mem.block a v.vlen.toNat

/-- The loop of `find_position_to_insert`, at index `i` with `k` indices to
go: `for (; i < vlen; ++i) if (vector[i] > element) break;`. `gt x y` is
`x > y` of the element type. A read through the null pointer is undefined and
shows as `none`. -/
def find_position_loop {α : Type} (gt : α → α → Bool) (this : SGVector) (element : α)
    (mem : VectorMemory α) : Nat → Nat → Option Nat
  | i, 0 => some i
  | i, k + 1 =>
    match this.element mem i with
    | none => none
    | some x =>
      if gt x element then some i else find_position_loop gt this element mem (i + 1) k

/-- `SGVector<T>::find_position_to_insert(T element)` (SGVector.cpp 237-248)
for a vector on the CPU; `gt x y` is `x > y` of the element type `T`. -/
def find_position_to_insert {α : Type} (gt : α → α → Bool) (this : SGVector)
    (element : α) (mem : VectorMemory α) : Option Int :=
  (find_position_loop gt this element mem 0 this.vlen.toNat).map Int.ofNat

/-- `SGVector<T>::resize_vector(int32_t n)` (SGVector.cpp 302-311) for a
vector on the CPU. -/
def resize_vector {α : Type} [Zero α] (this : SGVector) (n : Int) (mem : VectorMemory α) :
    SGVector × VectorMemory α :=
  ({ this with vector := (mem.SG_REALLOC this.vector this.vlen n).1, vlen := n },
   if n > this.vlen then
     (mem.SG_REALLOC this.vector this.vlen n).2.memset_zero
       (mem.SG_REALLOC this.vector this.vlen n).1 this.vlen.toNat (n - this.vlen).toNat
   else (mem.SG_REALLOC this.vector this.vlen n).2)

/-- `SGVector(T* m, index_t len, index_t offset)` (SGVector.cpp 80-85):
`SGReferencedData(false)`, `vector(m + offset)`, `vlen(len)`. -/
def from_offset (m : Option Nat) (len offset : Int) : SGVector :=
  { m_refcount := none, vector := m.map (fun a => ((a : Int) + offset).toNat), vlen := len }

/-- `SGVector<T>::slice(index_t l, index_t h)` (SGVector.cpp 313-320) for a
vector on the CPU. -/
def slice (this : SGVector) (l h : Int) : Except ShogunException SGVector :=
  if ¬ (l ≥ 0 ∧ h ≤ this.vlen) then .error .assertion_failed
  else .ok (from_offset this.vector (h - l) l)

/-- `SGVector<T>::add(const SGVector<T> x)` (SGVector.cpp 335-344) for a vector
on the CPU; `plus a b` is the value that `a += b` stores. The loop runs over
the indices in ascending order. -/
def add {α : Type} (plus : α → α → α) (this x : SGVector) (mem : VectorMemory α) :
    Except ShogunException Unit × VectorMemory α :=
  match x.vector, this.vector with
  | some xv, some tv =>
    if x.vlen ≠ this.vlen then (.error (.requirement_failed this.vlen), mem)
    else
      (.ok (),
       (List.range this.vlen.toNat).foldl
         (fun m i => m.write (some tv) i (plus (m.cells (tv + i)) (m.cells (xv + i)))) mem)
  | _, _ => (.error .non_null_required, mem)

/-- `SGVector<T>::operator+ (SGVector<T> x)` (SGVector.cpp 322-333) for a
vector on the CPU. -/
def operator_plus {α : Type} (plus : α → α → α) (this x : SGVector)
    (mem : VectorMemory α) (h : DataHeap) :
    Except ShogunException SGVector × VectorMemory α × DataHeap :=
  match x.vector, this.vector with
  | some _, some _ =>
    if x.vlen ≠ this.vlen then (.error (.requirement_failed this.vlen), mem, h)
    else
      match clone this mem h with
      | (.error e, mem1, h1) => (.error e, mem1, h1)
      | (.ok result, mem1, h1) =>
        match add plus result x mem1 with
        | (.error e, mem2) => (.error e, mem2, h1)
        | (.ok _, mem2) => (.ok result, mem2, h1)
  | _, _ => (.error .non_null_required, mem, h)

/-- The loop of `add(const SGSparseVector<T>&)` over the entries still to be
read: `REQUIRE(idx < vlen, ...)`, then `vector[idx] += x.features[i].entry`. -/
def add_sparse_loop {α : Type} (plus : α → α → α) (this : SGVector) :
    List (SGSparseVectorEntry α) → VectorMemory α →
      Except ShogunException Unit × VectorMemory α
  | [], mem => (.ok (), mem)
  | e :: rest, mem =>
    if ¬ (e.feat_index < this.vlen) then (.error (.requirement_failed this.vlen), mem)
    else
      match this.vector with
      | none => (.error .null_dereference, mem)
      | some a =>
        if (a : Int) + e.feat_index < 0 then (.error .wild_access, mem)
        else
          add_sparse_loop plus this rest
            { mem with
              cells := fun c =>
                if c = ((a : Int) + e.feat_index).toNat then
                  plus (mem.cells (((a : Int) + e.feat_index).toNat)) e.entry
                else mem.cells c }

/-- `SGVector<T>::add(const SGSparseVector<T>& x)` (SGVector.cpp 355-368) for
a vector on the CPU. -/
def add_sparse {α : Type} (plus : α → α → α) (this : SGVector) (x : SGSparseVector α)
    (mem : VectorMemory α) : Except ShogunException Unit × VectorMemory α :=
  match x.features with
  | none => (.ok (), mem)
  | some features =>
    add_sparse_loop plus this (features.take x.num_feat_entries.toNat) mem

/-- `std::sort(output, output + size)` followed by `std::unique(output,
output + size)` on the elements read as a list: the sorted elements with
every run of equal elements reduced to its first. -/
def sorted_unique {α : Type} [LinearOrder α] (l : List α) : List α :=
  (l.insertionSort (fun a b => a ≤ b)).destutter (fun a b => a ≠ b)

/-- `SGVector<T>::unique(T* output, int32_t size)` (SGVector.cpp 750-756). The
elements behind the returned count are those `std::sort` left there. -/
def unique_buffer {α : Type} [LinearOrder α] (output : Option Nat) (size : Int)
    (mem : VectorMemory α) : Int × VectorMemory α :=
  match output with
  | none => (0, mem)
  | some p =>
    (((sorted_unique (mem.block p size.toNat)).length : Nat),
     (mem.write_block p
        ((mem.block p size.toNat).insertionSort (fun a b => a ≤ b))).write_block p
        (sorted_unique (mem.block p size.toNat)))

/-- `SGVector<T>::unique()` (SGVector.cpp 766-773): `result.data()` is the
pointer `vector` of the clone, `result.size()` its `vlen`. -/
def unique {α : Type} [LinearOrder α] [Zero α] (this : SGVector) (mem : VectorMemory α)
    (h : DataHeap) : Except ShogunException SGVector × VectorMemory α × DataHeap :=
  match clone this mem h with
  | (.error e, mem1, h1) => (.error e, mem1, h1)
  | (.ok result, mem1, h1) =>
    ((.ok (resize_vector result (unique_buffer result.vector result.vlen mem1).1
            (unique_buffer result.vector result.vlen mem1).2).1),
     (resize_vector result (unique_buffer result.vector result.vlen mem1).1
        (unique_buffer result.vector result.vlen mem1).2).2, h1)

/-- The assignments of the loops of `convert_to_matrix` in the order they are
made, each as the index written in `matrix` and the index read in `vector`:
`matrix[i] = vector[i]` for `i < ncols * nrows` in Fortran order,
`matrix[i + j * nrows] = vector[j + i * ncols]` for `i < nrows` and
`j < ncols` otherwise. The indices and the loop bound are computed in
`index_t`. -/
def convert_copies (nrows ncols : Int) (fortran_order : Bool) : List (Int × Int) :=
  if fortran_order then
    (List.range (index_mul ncols nrows).toNat).map (fun (i : Nat) => ((i : Int), (i : Int)))
  else
    (List.range nrows.toNat).flatMap (fun (i : Nat) =>
      (List.range ncols.toNat).map (fun (j : Nat) =>
        (index_add (i : Int) (index_mul (j : Int) nrows),
         index_add (j : Int) (index_mul (i : Int) ncols))))

/-- `SGVector<T>::convert_to_matrix(T*& matrix, index_t nrows, index_t ncols,
const T* vector, int32_t vlen, bool fortran_order)` (SGVector.cpp 892-915);
the result is the pointer `matrix` afterwards. `SG_FREE` of the old block
leaves the elements alone. The guard, the number of elements allocated and
the indices are products and sums of `index_t`; an allocation of a negative
number of elements fails, and an access below the first address is
undefined. -/
def convert_to_matrix_raw {α : Type} (_matrix : Option Nat) (nrows ncols : Int)
    (vector : Option Nat) (vlen : Int) (fortran_order : Bool) (mem : VectorMemory α) :
    Except ShogunException (Option Nat) × VectorMemory α :=
  if index_mul nrows ncols > vlen then (.error .dimensions_mismatch, mem)
  else if index_mul nrows ncols < 0 then (.error .allocation_failed, mem)
  else
    match vector with
    | none =>
      if (convert_copies nrows ncols fortran_order).isEmpty then
        (.ok (some mem.brk), { mem with brk := mem.brk + (index_mul nrows ncols).toNat })
      else
        (.error .null_dereference,
         { mem with brk := mem.brk + (index_mul nrows ncols).toNat })
    | some v =>
      if (convert_copies nrows ncols fortran_order).all
          (fun c => decide (0 ≤ (mem.brk : Int) + c.1 ∧ 0 ≤ (v : Int) + c.2)) then
        (.ok (some mem.brk),
         (convert_copies nrows ncols fortran_order).foldl
           (fun m c =>
             m.store ((mem.brk : Int) + c.1).toNat (m.cells (((v : Int) + c.2).toNat)))
           { mem with brk := mem.brk + (index_mul nrows ncols).toNat })
      else
        (.error .wild_access,
         { mem with brk := mem.brk + (index_mul nrows ncols).toNat })

end SGVector

namespace SGMatrix

/-- Modelled from the spec: the constructor `SGMatrix(T* m, index_t nrows,
index_t ncols, bool ref_counting)` with counting enabled (`SGMatrix.cpp`, not
among the sources). -/
def from_pointer (m : Option Nat) (nrows ncols : Int) (h : DataHeap) : SGMatrix × DataHeap :=
  ({ m_refcount := (SGReferencedData.create true h).1, matrix := m,
     num_rows := nrows, num_cols := ncols },
   (SGReferencedData.create true h).2)

/-- Modelled from the spec: the entry `(i, j)` of a matrix (`operator()` of
`shogun/lib/SGMatrix.h`, not among the sources), column-major:
`matrix[i + j * num_rows]`. -/
def entry {α : Type} (mat : SGMatrix) (mem : VectorMemory α) (i j : Nat) : Option α :=
  mem.read mat.matrix (i + j * mat.num_rows.toNat)

end SGMatrix

namespace SGVector

/-- `SGVector<T>::convert_to_matrix(SGVector<T> vector, index_t nrows, index_t
ncols, bool fortran_order)` (SGVector.cpp 878-890); `vector.size()` is
`vlen`. -/
def convert_to_matrix {α : Type} (vector : SGVector) (nrows ncols : Int)
    (fortran_order : Bool) (mem : VectorMemory α) (h : DataHeap) :
    Except ShogunException SGMatrix × VectorMemory α × DataHeap :=
  if index_mul nrows ncols > vector.vlen then (.error .dimensions_mismatch, mem, h)
  else
    match convert_to_matrix_raw none nrows ncols vector.vector vector.vlen fortran_order
        mem with
    | (.error e, mem1) => (.error e, mem1, h)
    | (.ok data, mem1) =>
      (.ok (SGMatrix.from_pointer data nrows ncols h).1, mem1,
       (SGMatrix.from_pointer data nrows ncols h).2)

end SGVector

/-- A value of a floating-point element type (`float32_t`, `float64_t`,
`floatmax_t`; `SGVector` is instantiated for them, SGVector.cpp 965-967) as
far as its comparisons see it: not-a-number, or a number. -/
inductive FloatValue
  | nan
  | finite (q : ℚ)
  deriving DecidableEq

namespace FloatValue

/-- `x > y` of a floating-point type: false when either side is not-a-number. -/
def gt : FloatValue → FloatValue → Bool
  | finite x, finite y => decide (x > y)
  | _, _ => false

/-- `x <= y` of a floating-point type: false when either side is
not-a-number. -/
def le : FloatValue → FloatValue → Bool
  | finite x, finite y => decide (x ≤ y)
  | _, _ => false

end FloatValue

/-- A memory of floating-point elements holding not-a-number at the address 0
and 1.0 at the address 1. -/
def nan_cells : VectorMemory FloatValue :=
  { cells := fun c => if c = 0 then .nan else .finite 1, brk := 2 }

/-- The vector [NaN, 1.0] of `nan_cells`. -/
def nan_vector : SGVector :=
  { m_refcount := none, vector := some 0, vlen := 2 }

/-- The process after one `init_shogun` with no environment variable set,
started with no global object. -/
def process_after_init : Process :=
  (init_shogun 0 0 0 empty_environment (fun _ => none) initial_process).2

/-- A memory of integers holding 10, 20, 30 at the addresses 0, 1, 2 and
1, 2, 3 at the addresses 3, 4, 5, six elements allocated. -/
def two_vector_cells : VectorMemory Int :=
  { cells := fun c =>
      if c = 0 then 10 else if c = 1 then 20 else if c = 2 then 30
      else if c = 3 then 1 else if c = 4 then 2 else if c = 5 then 3 else 0,
    brk := 6 }

/-- The vector [10, 20, 30] of `two_vector_cells`. -/
def first_vector : SGVector :=
  { m_refcount := none, vector := some 0, vlen := 3 }

/-- The vector [1, 2, 3] of `two_vector_cells`. -/
def second_vector : SGVector :=
  { m_refcount := none, vector := some 3, vlen := 3 }

/-! ## Lemmas on the store and on the overloads -/

theorem map_find_map_update_self (f : AnyParameter → AnyParameter)
    (l : List (String × AnyParameter)) (key : String) :
    map_find (map_update f l key) key = (map_find l key).map f := by
  induction l with
  | nil => rfl
  | cons e rest ih =>
    obtain ⟨k, p⟩ := e
    by_cases hk : k = key
    · simp [map_update, map_find, hk]
    · simp [map_update, map_find, hk, ih]

theorem map_find_map_update_other (f : AnyParameter → AnyParameter)
    (l : List (String × AnyParameter)) (key other : String) (hne : other ≠ key) :
    map_find (map_update f l key) other = map_find l other := by
  induction l with
  | nil => rfl
  | cons e rest ih =>
    obtain ⟨k, p⟩ := e
    by_cases hk : k = key
    · have hko : ¬ k = other := fun h => hne (h ▸ hk)
      rw [map_update, if_pos hk, map_find, if_neg hko, map_find, if_neg hko]
    · rw [map_update, if_neg hk]
      by_cases hko : k = other
      · rw [map_find, if_pos hko, map_find, if_pos hko]
      · rw [map_find, if_neg hko, map_find, if_neg hko, ih]

theorem map_find_mem {β : Type} (l : List (String × β)) (key : String) (b : β)
    (h : map_find l key = some b) : (key, b) ∈ l := by
  induction l with
  | nil => simp [map_find] at h
  | cons e rest ih =>
    obtain ⟨k, x⟩ := e
    by_cases hk : k = key
    · simp [map_find, hk] at h
      simp [hk, h]
    · simp [map_find, hk] at h
      exact List.mem_cons_of_mem _ (ih h)

theorem any_cast_same (p : Any) (T : SGType) (h : p.type = T) :
    any_cast T p = .ok (h ▸ p.value) := by
  simp [any_cast, h]

theorem any_cast_other (p : Any) (T : SGType) (h : p.type ≠ T) :
    any_cast T p = .error (.type_mismatch p.type T) := by
  simp [any_cast, h]

theorem any_cast_make_any (T : SGType) (v : T.interp) (c : Bool) :
    any_cast T { make_any T v with cloneable := c } = .ok v := by
  simp [any_cast, make_any]

namespace CSGObject

theorem ref_value_self (T : SGType) (v : T.interp) (m : Memory) :
    (ref_value T v m).self = m.self := by
  cases T <;> try rfl
  rename_i c
  cases v with
  | none => rfl
  | some o =>
    simp only [ref_value, SG_REF, ref]
    split <;> rfl

theorem ref_value_not_object (T : SGType) (hT : T.is_object_ptr = false)
    (v : T.interp) (m : Memory) : ref_value T v m = m := by
  cases T <;> first | rfl | simp [SGType.is_object_ptr] at hT

theorem put_not_string (T : SGType) (hT : T.is_string = false) (n : String)
    (v : T.interp) (m : Memory) : put T n v m = put_value T n v m := by
  cases T <;> first | rfl | simp [SGType.is_string] at hT

theorem get_not_string (T : SGType) (hT : T.is_string = false) (self : CSGObject)
    (n : String) : get T self n = get_value T self n := by
  cases T <;> first | rfl | simp [SGType.is_string] at hT

theorem put_value_not_found (T : SGType) (n : String) (v : T.interp) (m : Memory)
    (hreg : map_find m.self.map n = none) :
    put_value T n v m = (.error .not_found, m) := by
  simp [put_value, has_parameter, hreg]

theorem put_value_not_cloneable (T : SGType) (n : String) (v : T.interp) (m : Memory)
    (p : AnyParameter) (hreg : map_find m.self.map n = some p)
    (hcl : p.value.cloneable = false) :
    put_value T n v m = (.error .not_cloneable, m) := by
  simp [put_value, has_parameter, get_parameter, hreg, hcl]

theorem put_value_type_mismatch (T : SGType) (n : String) (v : T.interp) (m : Memory)
    (p : AnyParameter) (hreg : map_find m.self.map n = some p)
    (hcl : p.value.cloneable = true) (hty : p.value.type ≠ T) :
    put_value T n v m = (.error (.type_mismatch p.value.type T), m) := by
  simp [put_value, has_parameter, get_parameter, hreg, hcl, any_cast_other _ _ hty]

theorem put_value_ok (T : SGType) (n : String) (v : T.interp) (m : Memory)
    (p : AnyParameter) (hreg : map_find m.self.map n = some p)
    (hcl : p.value.cloneable = true) (hty : p.value.type = T) :
    put_value T n v m =
      (.ok (), { ref_value T v m with
                 self := update_parameter (ref_value T v m).self n (make_any T v) }) := by
  simp [put_value, has_parameter, get_parameter, hreg, hcl, any_cast_same _ _ hty]

theorem get_value_after_update (T : SGType) (self : CSGObject) (n : String)
    (v : T.interp) (p : AnyParameter) (hreg : map_find self.map n = some p) :
    get_value T (update_parameter self n (make_any T v)) n = .ok v := by
  simp [get_value, get_parameter, update_parameter, map_find_map_update_self, hreg,
    any_cast_make_any]

theorem put_value_fails_or_stores (T : SGType) (n : String) (v : T.interp)
    (m : Memory) :
    (∃ e, put_value T n v m = (.error e, m)) ∨
    put_value T n v m =
      (.ok (), { ref_value T v m with
                 self := update_parameter (ref_value T v m).self n (make_any T v) }) := by
  cases hreg : map_find m.self.map n with
  | none => exact Or.inl ⟨_, put_value_not_found T n v m hreg⟩
  | some p =>
    cases hcl : p.value.cloneable with
    | false => exact Or.inl ⟨_, put_value_not_cloneable T n v m p hreg hcl⟩
    | true =>
      by_cases hty : p.value.type = T
      · exact Or.inr (put_value_ok T n v m p hreg hcl hty)
      · exact Or.inl ⟨_, put_value_type_mismatch T n v m p hreg hcl hty⟩

theorem put_string_fails_or_puts_code (n s : String) (m : Memory) :
    (∃ e, put_string n s m = (.error e, m)) ∨
    ∃ code : Int, put_string n s m = put_value .machine_int n code m := by
  cases h1 : map_find m.self.m_string_to_enum_map n with
  | none => exact Or.inl ⟨.no_options, by simp [put_string, h1]⟩
  | some table =>
    cases h2 : map_find table s with
    | none => exact Or.inl ⟨.illegal_option s, by simp [put_string, h1, h2]⟩
    | some code => exact Or.inr ⟨code, by simp [put_string, h1, h2]⟩

theorem put_fails_or_stores (T : SGType) (n : String) (v : T.interp) (m : Memory) :
    (∃ e, put T n v m = (.error e, m)) ∨
    ((put T n v m).1 = .ok () ∧
      (T.is_object_ptr = false → (put T n v m).2.refcount = m.refcount)) := by
  by_cases hT : T.is_string = false
  · rw [put_not_string T hT]
    rcases put_value_fails_or_stores T n v m with h | h
    · exact Or.inl h
    · refine Or.inr ⟨by rw [h], fun hobj => ?_⟩
      rw [h, ref_value_not_object T hobj]
  · cases T <;> simp [SGType.is_string] at hT
    rename_i k
    have hput : put (.string k) n v m = put_string n v m := rfl
    rw [hput]
    rcases put_string_fails_or_puts_code n v m with h | ⟨code, h⟩
    · exact Or.inl h
    · rw [h]
      rcases put_value_fails_or_stores .machine_int n code m with ⟨e, he⟩ | h2
      · exact Or.inl ⟨e, he⟩
      · refine Or.inr ⟨by rw [h2], fun _ => ?_⟩
        rw [h2]
        rfl

theorem ref_value_counts (c : BaseCategory) (o : ObjId) (m : Memory)
    (henabled : m.refcount o ≠ REFCOUNT_DISABLED) :
    (ref_value (.object_ptr c) (some o) m).refcount o = m.refcount o + 1 ∧
    ∀ x, x ≠ o → (ref_value (.object_ptr c) (some o) m).refcount x = m.refcount x := by
  constructor
  · simp [ref_value, SG_REF, ref, henabled]
  · intro x hx
    simp [ref_value, SG_REF, ref, henabled, hx]

theorem find_code_of_unique (table : List (String × Int)) (s : String) (code : Int)
    (hopt : map_find table s = some code)
    (huniq : ∀ e ∈ table, e.2 = code → e.1 = s) :
    ∃ e, table.find? (fun e => decide (e.2 = code)) = some e ∧ e.1 = s := by
  have hmem := map_find_mem table s code hopt
  cases hfind : table.find? (fun e => decide (e.2 = code)) with
  | none =>
    rw [List.find?_eq_none] at hfind
    exact absurd (hfind (s, code) hmem) (by simp)
  | some e =>
    refine ⟨e, rfl, huniq e (List.mem_of_find?_eq_some hfind) ?_⟩
    simpa using List.find?_some hfind

/-! ## Typed put and get -/

/-- C1 (counterexample): `frozen` is registered with stored type `int64_t`,
yet `put(Tag<int64_t>("frozen"), 2)` throws the not-cloneable error, and the
following `get` still returns the old value 1, not 2. -/
theorem put_get_fails_on_non_cloneable :
    has .int64 example_object "frozen" = .ok true ∧
    (put .int64 "frozen" (2 : Int) example_memory).1 = .error .not_cloneable ∧
    get .int64 (put .int64 "frozen" (2 : Int) example_memory).2.self "frozen"
      = .ok (1 : Int) ∧
    ¬ ((put .int64 "frozen" (2 : Int) example_memory).1 = .ok () ∧
       get .int64 (put .int64 "frozen" (2 : Int) example_memory).2.self "frozen"
         = .ok (2 : Int)) := by
  refine ⟨rfl, rfl, rfl, ?_⟩
  rintro ⟨h, -⟩
  exact absurd h (by simp [put, put_value, has_parameter, get_parameter, map_find,
    example_memory, example_object])

/-- C1 (amended): for a parameter registered under `n` whose value is cloneable
and has the non-string stored type `T`, `put(Tag<T>(n), v)` succeeds and a
following `get(Tag<T>(n))` returns `v`. -/
theorem put_then_get (T : SGType) (hT : T.is_string = false) (m : Memory)
    (n : String) (v : T.interp) (p : AnyParameter)
    (hreg : map_find m.self.map n = some p) (hcl : p.value.cloneable = true)
    (hty : p.value.type = T) :
    (put T n v m).1 = .ok () ∧ get T (put T n v m).2.self n = .ok v := by
  rw [put_not_string T hT, get_not_string T hT, put_value_ok T n v m p hreg hcl hty]
  refine ⟨rfl, ?_⟩
  simp only [ref_value_self]
  exact get_value_after_update T m.self n v p hreg

/-- Witness of `put_then_get`: `max_iterations` of the example object. -/
theorem put_then_get_witness :
    (put .int64 "max_iterations" (7 : Int) example_memory).1 = .ok () ∧
    get .int64 (put .int64 "max_iterations" (7 : Int) example_memory).2.self
      "max_iterations" = .ok (7 : Int) :=
  put_then_get .int64 rfl example_memory "max_iterations" (7 : Int)
    { value := { type := .int64, value := (100 : Int), cloneable := true },
      properties := plain_properties } rfl rfl rfl

/-- C2 (counterexample): `frozen` is registered with stored type `int64_t`;
`put(Tag<bool>("frozen"), true)` supplies a value of another type, and the
error it throws is the not-cloneable one, not the type mismatch. -/
theorem wrong_type_put_on_non_cloneable :
    has .int64 example_object "frozen" = .ok true ∧
    (put .bool "frozen" true example_memory).1 = .error .not_cloneable ∧
    (put .bool "frozen" true example_memory).1
      ≠ .error (.type_mismatch .int64 .bool) := by
  refine ⟨rfl, rfl, ?_⟩
  simp [put, put_value, has_parameter, get_parameter, map_find, example_memory,
    example_object]

/-- C2 (amended): for a parameter registered under `n` whose value is cloneable
and has stored type `T`, and a value `v` of a non-string type `U` different
from `T`, `put(Tag<U>(n), v)` throws the type mismatch (actual `T`, expected
`U`) and leaves the whole memory as it was, so `get(Tag<T>(n))` returns the
same as before. -/
theorem put_wrong_type (T U : SGType) (hU : U.is_string = false) (hne : U ≠ T)
    (m : Memory) (n : String) (v : U.interp) (p : AnyParameter)
    (hreg : map_find m.self.map n = some p) (hcl : p.value.cloneable = true)
    (hty : p.value.type = T) :
    put U n v m = (.error (.type_mismatch T U), m) ∧
    get T (put U n v m).2.self n = get T m.self n := by
  have hmis : p.value.type ≠ U := fun h => hne (h.symm.trans hty)
  have hput := put_value_type_mismatch U n v m p hreg hcl hmis
  rw [put_not_string U hU, hput, hty]
  exact ⟨rfl, rfl⟩

/-- Witness of `put_wrong_type`: a `bool` put into the `int64_t` parameter
`max_iterations`. -/
theorem put_wrong_type_witness :
    put .bool "max_iterations" true example_memory
      = (.error (.type_mismatch .int64 .bool), example_memory) ∧
    get .int64 (put .bool "max_iterations" true example_memory).2.self
      "max_iterations" = get .int64 example_memory.self "max_iterations" :=
  put_wrong_type .int64 .bool rfl (by decide) example_memory "max_iterations" true
    { value := { type := .int64, value := (100 : Int), cloneable := true },
      properties := plain_properties } rfl rfl rfl

/-- C3 (counterexample): for `T = std::string` the overload taken is the
string-option one (SGObject.h 411-436). `label` is registered, cloneable and
of the stored type `std::string`, yet `put<std::string>("label", "b")` fails;
on the unregistered name `missing` the failure is "There are no options", not
not-found; and on `kernel_type`, whose stored type is `machine_int_t` and not
`std::string`, the put succeeds. -/
theorem string_put_breaks_the_typed_rule :
    has (.string .std_string) example_object "label" = .ok true ∧
    (example_object.get_parameter "label").map (fun p => p.value.cloneable) = .ok true ∧
    (put (.string .std_string) "label" "b" example_memory).1 = .error .no_options ∧
    has_parameter example_object "missing" = false ∧
    (put (.string .std_string) "missing" "b" example_memory).1 = .error .no_options ∧
    has (.string .std_string) example_object "kernel_type" = .ok false ∧
    has .machine_int example_object "kernel_type" = .ok true ∧
    (put (.string .std_string) "kernel_type" "GAUSSIAN" example_memory).1 = .ok () :=
  ⟨rfl, rfl, rfl, rfl, rfl, rfl, rfl, rfl⟩

/-- C3 (amended): for a non-string `T`, the overload of SGObject.h 368-402,
`put(Tag<T>(n), v)` succeeds if and only if a parameter is registered under
`n`, its value is cloneable and its stored type is `T`; it throws not-found
for an unregistered name and not-cloneable for a registered value that is not
cloneable; and whenever it does not succeed the memory, hence every entry of
the store, is exactly what it was. -/
theorem put_succeeds_iff (T : SGType) (hT : T.is_string = false) (m : Memory)
    (n : String) (v : T.interp) :
    ((put T n v m).1 = .ok () ↔
      ∃ p, map_find m.self.map n = some p ∧ p.value.cloneable = true ∧
        p.value.type = T) ∧
    (map_find m.self.map n = none → (put T n v m).1 = .error .not_found) ∧
    (∀ p, map_find m.self.map n = some p → p.value.cloneable = false →
      (put T n v m).1 = .error .not_cloneable) ∧
    ((put T n v m).1 ≠ .ok () → (put T n v m).2 = m) := by
  rw [put_not_string T hT]
  cases hreg : map_find m.self.map n with
  | none =>
    rw [put_value_not_found T n v m hreg]
    simp
  | some p =>
    cases hcl : p.value.cloneable with
    | false =>
      rw [put_value_not_cloneable T n v m p hreg hcl]
      simp [hcl]
    | true =>
      by_cases hty : p.value.type = T
      · rw [put_value_ok T n v m p hreg hcl hty]
        simp [hcl, hty]
      · rw [put_value_type_mismatch T n v m p hreg hcl hty]
        simp [hty, hcl]

/-- Witness of `put_succeeds_iff`: a typed put on the example object. -/
theorem put_succeeds_iff_witness :
    ((put .int64 "max_iterations" (7 : Int) example_memory).1 = .ok () ↔
      ∃ p, map_find example_memory.self.map "max_iterations" = some p ∧
        p.value.cloneable = true ∧ p.value.type = .int64) ∧
    (map_find example_memory.self.map "max_iterations" = none →
      (put .int64 "max_iterations" (7 : Int) example_memory).1 = .error .not_found) ∧
    (∀ p, map_find example_memory.self.map "max_iterations" = some p →
      p.value.cloneable = false →
      (put .int64 "max_iterations" (7 : Int) example_memory).1
        = .error .not_cloneable) ∧
    ((put .int64 "max_iterations" (7 : Int) example_memory).1 ≠ .ok () →
      (put .int64 "max_iterations" (7 : Int) example_memory).2 = example_memory) :=
  put_succeeds_iff .int64 rfl example_memory "max_iterations" (7 : Int)

/-- C4: `has<T>(n)` never throws, and it is true if and only if a parameter is
registered under `n` and its stored runtime type is exactly `T`: false for an
unregistered name, false for a registered name of another type, and
`has<T>(n)` implies `has(n)`. -/
theorem has_iff_registered_with_type (T : SGType) (self : CSGObject) (n : String) :
    (∃ b, has T self n = .ok b) ∧
    (has T self n = .ok true ↔
      ∃ p, map_find self.map n = some p ∧ p.value.type = T) ∧
    (map_find self.map n = none → has T self n = .ok false) ∧
    (∀ p, map_find self.map n = some p → p.value.type ≠ T →
      has T self n = .ok false) ∧
    (has T self n = .ok true → has_name self n = true) := by
  cases hreg : map_find self.map n with
  | none => simp [has, has_name, has_parameter, hreg]
  | some p =>
    by_cases hty : p.value.type = T
    · simp [has, has_name, has_parameter, get_parameter, hreg, Any.has_type, hty]
    · simp [has, has_name, has_parameter, get_parameter, hreg, Any.has_type, hty]

/-- C5: for a non-string `T`, `get(Tag<T>(n))` succeeds exactly when
`has<T>(n)` is true and then returns the stored value; it throws the type
mismatch when `n` is registered with another stored type, and throws
(not-found) when nothing is registered under `n`. The getter is a `const`
member: it has no memory to change. -/
theorem get_succeeds_iff_has (T : SGType) (hT : T.is_string = false)
    (self : CSGObject) (n : String) :
    ((∃ v, get T self n = .ok v) ↔ has T self n = .ok true) ∧
    (∀ (v : T.interp) (c : Bool) (props : AnyParameterProperties),
      map_find self.map n
          = some { value := { type := T, value := v, cloneable := c },
                   properties := props } →
      get T self n = .ok v) ∧
    (∀ p, map_find self.map n = some p → p.value.type ≠ T →
      get T self n = .error (.type_mismatch p.value.type T)) ∧
    (map_find self.map n = none → get T self n = .error .not_found) := by
  rw [get_not_string T hT]
  refine ⟨?_, ?_, ?_, ?_⟩
  · cases hreg : map_find self.map n with
    | none => simp [get_value, has, has_parameter, get_parameter, hreg]
    | some p =>
      by_cases hty : p.value.type = T
      · simp [get_value, has, has_parameter, get_parameter, hreg, Any.has_type, hty,
          any_cast_same _ _ hty]
      · simp [get_value, has, has_parameter, get_parameter, hreg, Any.has_type, hty,
          any_cast_other _ _ hty]
  · intro v c props hreg
    simp [get_value, get_parameter, hreg, any_cast]
  · intro p hreg hty
    simp [get_value, get_parameter, hreg, any_cast_other _ _ hty]
  · intro hreg
    simp [get_value, get_parameter, hreg]

/-- Witness of `get_succeeds_iff_has`: the `int64_t` getter on the example
object. -/
theorem get_succeeds_iff_has_witness :
    ((∃ v, get .int64 example_object "max_iterations" = .ok v) ↔
      has .int64 example_object "max_iterations" = .ok true) ∧
    (∀ (v : SGType.int64.interp) (c : Bool) (props : AnyParameterProperties),
      map_find example_object.map "max_iterations"
          = some { value := { type := .int64, value := v, cloneable := c },
                   properties := props } →
      get .int64 example_object "max_iterations" = .ok v) ∧
    (∀ p, map_find example_object.map "max_iterations" = some p →
      p.value.type ≠ .int64 →
      get .int64 example_object "max_iterations"
        = .error (.type_mismatch p.value.type .int64)) ∧
    (map_find example_object.map "max_iterations" = none →
      get .int64 example_object "max_iterations" = .error .not_found) :=
  get_succeeds_iff_has .int64 rfl example_object "max_iterations"

/-! ## String options -/

/-- C6 (counterexample): `solver` has a string-option table and is registered
with the integer code type, but its value is not cloneable:
`put("solver", "NEWTON")` with the option NEWTON = 0 throws not-cloneable and
`get<machine_int_t>("solver")` still returns the old code 1, not 0. -/
theorem option_put_fails_on_non_cloneable :
    map_find option_object.m_string_to_enum_map "solver"
      = some [("NEWTON", 0), ("LBFGS", 1)] ∧
    has .machine_int option_object "solver" = .ok true ∧
    (put (.string .std_string) "solver" "NEWTON" option_memory).1
      = .error .not_cloneable ∧
    get .machine_int (put (.string .std_string) "solver" "NEWTON" option_memory).2.self
      "solver" = .ok (1 : Int) :=
  ⟨rfl, rfl, rfl, rfl⟩

/-- C6 (amended): for a parameter `n` that has a string-option table, is
registered with the integer code type and whose value is cloneable:
`put(n, s)` with an option name `s` of the table succeeds and stores the code
`table[s]`, which `get<machine_int_t>(n)` then returns; `put(n, s)` with a
string that is not an option throws the illegal-option error and leaves the
whole memory as it was (this second part needs neither the registration nor
cloneability). -/
theorem put_option_stores_code (k : StringType) (m : Memory) (n : String)
    (table : List (String × Int)) (p : AnyParameter)
    (htab : map_find m.self.m_string_to_enum_map n = some table)
    (hreg : map_find m.self.map n = some p) (hcl : p.value.cloneable = true)
    (hty : p.value.type = .machine_int) :
    (∀ (s : String) (code : Int), map_find table s = some code →
      (put (.string k) n s m).1 = .ok () ∧
      get .machine_int (put (.string k) n s m).2.self n = .ok code) ∧
    (∀ s : String, map_find table s = none →
      put (.string k) n s m = (.error (.illegal_option s), m)) := by
  constructor
  · intro s code hopt
    have hput : put (.string k) n s m = put_value .machine_int n code m := by
      show put_string n s m = _
      simp [put_string, htab, hopt]
    rw [hput, put_value_ok .machine_int n code m p hreg hcl hty]
    exact ⟨rfl, get_value_after_update .machine_int m.self n code p hreg⟩
  · intro s hopt
    show put_string n s m = _
    simp [put_string, htab, hopt]

/-- Witness of `put_option_stores_code`: `kernel_type` of the example object. -/
theorem put_option_stores_code_witness :
    (∀ (s : String) (code : Int),
      map_find [("GAUSSIAN", (0 : Int)), ("LINEAR", 1)] s = some code →
      (put (.string .std_string) "kernel_type" s example_memory).1 = .ok () ∧
      get .machine_int
        (put (.string .std_string) "kernel_type" s example_memory).2.self
        "kernel_type" = .ok code) ∧
    (∀ s : String, map_find [("GAUSSIAN", (0 : Int)), ("LINEAR", 1)] s = none →
      put (.string .std_string) "kernel_type" s example_memory
        = (.error (.illegal_option s), example_memory)) :=
  put_option_stores_code .std_string example_memory "kernel_type"
    [("GAUSSIAN", 0), ("LINEAR", 1)]
    { value := { type := .machine_int, value := (1 : Int), cloneable := true },
      properties := plain_properties } rfl rfl rfl rfl

/-- C7 (counterexample): three parameters with a string-option table for which
`put(n, s)` with an option `s` followed by `get<string>(n)` does not return
`s`. `solver` is not cloneable: the put throws and the getter returns the old
option LBFGS. The table of `loss` gives the code 0 to L2 and to SQUARED: the
put of SQUARED succeeds and the getter returns L2. `mode` is registered as
`int64_t`: put and get both throw the type mismatch. -/
theorem option_roundtrip_fails :
    ((put (.string .std_string) "solver" "NEWTON" option_memory).1
        = .error .not_cloneable ∧
      get (.string .std_string)
        (put (.string .std_string) "solver" "NEWTON" option_memory).2.self "solver"
        = .ok "LBFGS") ∧
    (map_find option_object.m_string_to_enum_map "loss"
        = some [("L2", 0), ("SQUARED", 0), ("L1", 1)] ∧
      (put (.string .std_string) "loss" "SQUARED" option_memory).1 = .ok () ∧
      get (.string .std_string)
        (put (.string .std_string) "loss" "SQUARED" option_memory).2.self "loss"
        = .ok "L2") ∧
    ((put (.string .std_string) "mode" "FAST" option_memory).1
        = .error (.type_mismatch .int64 .machine_int) ∧
      get (.string .std_string)
        (put (.string .std_string) "mode" "FAST" option_memory).2.self "mode"
        = .error (.type_mismatch .int64 .machine_int)) :=
  ⟨⟨rfl, rfl⟩, ⟨rfl, rfl, rfl⟩, ⟨rfl, rfl⟩⟩

/-- C7 (amended): for a parameter `n` that has a string-option table, is
registered with the integer code type and whose value is cloneable, and for an
option name `s` of the table whose code no other option of the table carries:
`put(n, s)` succeeds and a following `get<string>(n)` returns `s`. -/
theorem put_option_then_get_string (k k2 : StringType) (m : Memory) (n s : String)
    (table : List (String × Int)) (code : Int) (p : AnyParameter)
    (htab : map_find m.self.m_string_to_enum_map n = some table)
    (hopt : map_find table s = some code)
    (huniq : ∀ e ∈ table, e.2 = code → e.1 = s)
    (hreg : map_find m.self.map n = some p) (hcl : p.value.cloneable = true)
    (hty : p.value.type = .machine_int) :
    (put (.string k) n s m).1 = .ok () ∧
    get (.string k2) (put (.string k) n s m).2.self n = .ok s := by
  have hput : put (.string k) n s m = put_value .machine_int n code m := by
    show put_string n s m = _
    simp [put_string, htab, hopt]
  rw [hput, put_value_ok .machine_int n code m p hreg hcl hty]
  refine ⟨rfl, ?_⟩
  have hm : ref_value .machine_int code m = m := rfl
  rw [hm]
  obtain ⟨e, hfind, he⟩ := find_code_of_unique table s code hopt huniq
  show get_string k2 _ n = _
  have hcode := get_value_after_update .machine_int m.self n code p hreg
  have htab2 : map_find
      (update_parameter m.self n (make_any .machine_int code)).m_string_to_enum_map n
      = some table := htab
  simp only [get_string, string_enum_reverse_lookup, htab2, hcode, hfind, he]

/-- Witness of `put_option_then_get_string`: GAUSSIAN put into `kernel_type`
of the example object and read back as a string. -/
theorem put_option_then_get_string_witness :
    (put (.string .std_string) "kernel_type" "GAUSSIAN" example_memory).1 = .ok () ∧
    get (.string .std_string)
      (put (.string .std_string) "kernel_type" "GAUSSIAN" example_memory).2.self
      "kernel_type" = .ok "GAUSSIAN" :=
  put_option_then_get_string .std_string .std_string example_memory "kernel_type"
    "GAUSSIAN" [("GAUSSIAN", 0), ("LINEAR", 1)] 0
    { value := { type := .machine_int, value := (1 : Int), cloneable := true },
      properties := plain_properties } rfl rfl (by decide) rfl rfl rfl

/-- C8 (counterexample): `label` is registered with the type `std::string`,
is cloneable and has no string-option table, yet `put("label", "b")` throws
"There are no options for parameter" and the stored string is still "a". -/
theorem string_put_without_table_fails :
    map_find example_object.m_string_to_enum_map "label" = none ∧
    has (.string .std_string) example_object "label" = .ok true ∧
    (put (.string .std_string) "label" "b" example_memory).1 = .error .no_options ∧
    get (.string .std_string)
      (put (.string .std_string) "label" "b" example_memory).2.self "label"
      = .ok "a" :=
  ⟨rfl, rfl, rfl, rfl⟩

/-- C8 (amended): for a parameter name `n` that has no string-option table,
`put(n, s)` with a string value `s` does not reach the typed put: whatever is
registered under `n`, it throws the no-options error and leaves the whole
memory as it was. -/
theorem put_string_without_table (k : StringType) (m : Memory) (n s : String)
    (htab : map_find m.self.m_string_to_enum_map n = none) :
    put (.string k) n s m = (.error .no_options, m) := by
  show put_string n s m = _
  simp [put_string, htab]

/-- Witness of `put_string_without_table`: `label` of the example object. -/
theorem put_string_without_table_witness :
    put (.string .std_string) "label" "b" example_memory
      = (.error .no_options, example_memory) :=
  put_string_without_table .std_string example_memory "label" "b" rfl

/-- C9: for a parameter name `n` that has no string-option table,
`get<string>(n)` is the ordinary typed get at the requested string type (no
reverse lookup takes part): it returns the stored string when the stored type
is the requested string type and throws the type mismatch when the parameter
has another stored type. -/
theorem get_string_without_table (k : StringType) (self : CSGObject) (n : String)
    (htab : map_find self.m_string_to_enum_map n = none) :
    get (.string k) self n = get_value (.string k) self n ∧
    (∀ (v : String) (c : Bool) (props : AnyParameterProperties),
      map_find self.map n
          = some { value := { type := .string k, value := v, cloneable := c },
                   properties := props } →
      get (.string k) self n = .ok v) ∧
    (∀ p, map_find self.map n = some p → p.value.type ≠ .string k →
      get (.string k) self n = .error (.type_mismatch p.value.type (.string k))) := by
  have hget : get (.string k) self n = get_value (.string k) self n := by
    show get_string k self n = _
    cases hq : get_parameter self n with
    | error e => simp [get_string, htab, get_value, hq]
    | ok q =>
      cases hc : any_cast (.string k) q.value <;>
        simp [get_string, htab, get_value, hq, hc]
  rw [hget]
  refine ⟨rfl, ?_, ?_⟩
  · intro v c props hreg
    simp [get_value, get_parameter, hreg, any_cast]
  · intro p hreg hty
    simp [get_value, get_parameter, hreg, any_cast_other _ _ hty]

/-- Witness of `get_string_without_table`: `label` of the example object. -/
theorem get_string_without_table_witness :
    get (.string .std_string) example_object "label"
      = get_value (.string .std_string) example_object "label" ∧
    (∀ (v : String) (c : Bool) (props : AnyParameterProperties),
      map_find example_object.map "label"
          = some { value := { type := .string .std_string, value := v, cloneable := c },
                   properties := props } →
      get (.string .std_string) example_object "label" = .ok v) ∧
    (∀ p, map_find example_object.map "label" = some p →
      p.value.type ≠ .string .std_string →
      get (.string .std_string) example_object "label"
        = .error (.type_mismatch p.value.type (.string .std_string))) :=
  get_string_without_table .std_string example_object "label" rfl

/-! ## The reference taken by put -/

/-- C10: let `o` be a non-null object whose ownership counter is active (not the
"disabled" sentinel). A successful `put` of the pointer to `o` leaves the
counter of `o` exactly one higher and every other counter as it was; a `put`
of it that fails leaves the counter of `o` unchanged; and a `put` of a value
of a type that is not an object pointer changes no counter at all. -/
theorem put_takes_one_reference (c : BaseCategory) (n : String) (o : ObjId)
    (m : Memory) (T : SGType) (v : T.interp)
    (henabled : m.refcount o ≠ REFCOUNT_DISABLED) :
    ((put (.object_ptr c) n (some o) m).1 = .ok () →
      (put (.object_ptr c) n (some o) m).2.refcount o = m.refcount o + 1 ∧
      ∀ x, x ≠ o → (put (.object_ptr c) n (some o) m).2.refcount x = m.refcount x) ∧
    ((put (.object_ptr c) n (some o) m).1 ≠ .ok () →
      (put (.object_ptr c) n (some o) m).2.refcount o = m.refcount o) ∧
    (T.is_object_ptr = false → (put T n v m).2.refcount = m.refcount) := by
  refine ⟨?_, ?_, ?_⟩
  · intro hok
    have hput : put (.object_ptr c) n (some o) m
        = put_value (.object_ptr c) n (some o) m := rfl
    rw [hput] at hok ⊢
    rcases put_value_fails_or_stores (.object_ptr c) n (some o) m with ⟨e, he⟩ | h
    · rw [he] at hok
      cases hok
    · rw [h]
      exact ref_value_counts c o m henabled
  · intro hfail
    rcases put_fails_or_stores (.object_ptr c) n (some o) m with ⟨e, he⟩ | ⟨hok, -⟩
    · rw [he]
    · exact absurd hok hfail
  · intro hobj
    rcases put_fails_or_stores T n v m with ⟨e, he⟩ | ⟨-, h⟩
    · rw [he]
    · exact h hobj

/-- Witness of `put_takes_one_reference`: the object at address 3, with one
owner, put into `kernel` of the example object; the counter becomes 2. -/
theorem put_takes_one_reference_witness :
    (put (.object_ptr .Kernel) "kernel" (some 3) example_memory).1 = .ok () ∧
    (put (.object_ptr .Kernel) "kernel" (some 3) example_memory).2.refcount 3 = 2 ∧
    (put .int64 "max_iterations" (7 : Int) example_memory).2.refcount
      = example_memory.refcount :=
  have h := put_takes_one_reference .Kernel "kernel" 3 example_memory .int64 (7 : Int)
    (by decide)
  ⟨rfl, (h.1 rfl).1, h.2.2 rfl⟩

/-! ## Object arrays: lemmas -/

theorem has_of_find (T : SGType) (obj : CSGObject) (n : String) (p : AnyParameter)
    (h : map_find obj.map n = some p) :
    has T obj n = .ok (decide (p.value.type = T)) := by
  simp [has, has_parameter, get_parameter, h, Any.has_type]

theorem get_of_find (T : SGType) (hT : T.is_string = false) (obj : CSGObject)
    (n : String) (v : T.interp) (c : Bool) (props : AnyParameterProperties)
    (h : map_find obj.map n
      = some { value := { type := T, value := v, cloneable := c },
               properties := props }) :
    get T obj n = .ok v := by
  rw [get_not_string T hT]
  simp [get_value, get_parameter, h, any_cast]

theorem dispatch_on_array {σ : Type} (T1 : BaseCategory) (obj : CSGObject)
    (name : String) (lam : ArrayLambda σ) (s : σ) (a : Option ObjId) (c : Bool)
    (props : AnyParameterProperties)
    (h : map_find obj.map name
      = some { value := { type := .object_ptr .DynamicObjectArray, value := a,
                          cloneable := c },
               properties := props }) :
    sgo_details.dispatch_array_type T1 obj name lam s =
      ((lam.on_array a s).1.map (fun _ => true), (lam.on_array a s).2) := by
  have hhas := has_of_find (.object_ptr .DynamicObjectArray) obj name _ h
  have hget := get_of_find (.object_ptr .DynamicObjectArray) rfl obj name a c props h
  simp only [decide_True] at hhas
  simp only [sgo_details.dispatch_array_type, hhas, hget]
  rcases hl : lam.on_array a s with ⟨r, s1⟩
  cases r <;> rfl

theorem dispatch_on_vector {σ : Type} (T1 : BaseCategory) (obj : CSGObject)
    (name : String) (lam : ArrayLambda σ) (s : σ) (v : List (Option ObjId))
    (c : Bool) (props : AnyParameterProperties)
    (h : map_find obj.map name
      = some { value := { type := .object_vector T1, value := v, cloneable := c },
               properties := props }) :
    sgo_details.dispatch_array_type T1 obj name lam s =
      ((lam.on_vector v s).1.map (fun _ => true), (lam.on_vector v s).2.2) := by
  have hhas := has_of_find (.object_ptr .DynamicObjectArray) obj name _ h
  have hhas2 := has_of_find (.object_vector T1) obj name _ h
  have hget := get_of_find (.object_vector T1) rfl obj name v c props h
  simp only [decide_True] at hhas2
  have hne : decide (SGType.object_vector T1 = SGType.object_ptr .DynamicObjectArray)
      = false := by simp
  rw [hne] at hhas
  simp only [sgo_details.dispatch_array_type, hhas, hhas2, hget]
  rcases hl : lam.on_vector v s with ⟨r, v1, s1⟩
  cases r <;> rfl

theorem dispatch_on_neither {σ : Type} (T1 : BaseCategory) (obj : CSGObject)
    (name : String) (lam : ArrayLambda σ) (s : σ)
    (harr : has (.object_ptr .DynamicObjectArray) obj name = .ok false)
    (hvec : has (.object_vector T1) obj name = .ok false) :
    sgo_details.dispatch_array_type T1 obj name lam s = (.ok false, s) := by
  simp only [sgo_details.dispatch_array_type, harr, hvec]

theorem as_ok (T : BaseCategory) (o : ObjId) (m : ObjectMemory)
    (r : Option ObjId) (h : as T o m = .ok r) :
    r = some o ∧ derives_from (m.dynamic_class o) T = true := by
  unfold as at h
  split at h
  · rename_i hd
    cases h
    exact ⟨rfl, hd⟩
  · cases h

theorem get_index_nothrow_some (T : BaseCategory) (name : String) (index : Int)
    (m : ObjectMemory) (o : ObjId)
    (h : get_index_nothrow T name index m = .ok (some o)) :
    derives_from (m.dynamic_class o) T = true := by
  unfold get_index_nothrow at h
  split at h
  · cases h
  · split at h
    · cases h
    · obtain ⟨hr, hd⟩ := as_ok T _ m _ h
      cases hr
      exact hd
  · cases h

/-- On an array parameter backed by a `CDynamicObjectArray`, `add` appends to
the array object itself, and the indexed getter then finds the element at the
former length. -/
theorem add_then_get_on_dynamic_array (T : BaseCategory) (name : String)
    (o a : ObjId) (m : ObjectMemory) (c : Bool) (props : AnyParameterProperties)
    (h : map_find m.self.map name
      = some { value := { type := .object_ptr .DynamicObjectArray, value := some a,
                          cloneable := c },
               properties := props })
    (hT : derives_from (m.dynamic_class o) T = true) :
    (add T name (some o) m).1 = .ok () ∧
    get_index T name (m.arrays a).length (add T name (some o) m).2 = .ok (some o) := by
  have hadd : add T name (some o) m
      = (.ok (), { m with arrays := fun x => if x = a then m.arrays a ++ [some o]
                                               else m.arrays x }) := by
    simp only [add, dispatch_on_array T m.self name _ m (some a) c props h,
      push_back_lambda]
    rfl
  rw [hadd]
  refine ⟨rfl, ?_⟩
  simp only [get_index, get_index_nothrow]
  rw [dispatch_on_array T m.self name _ none (some a) c props h]
  simp [get_lambda, element_at, as, hT, Except.map]

/-! ## Object arrays: claims -/

/-- C11 (the code at the failing input): `machines` is registered as an empty
`std::vector<CMachine*>`. `add("machines", obj22)` returns normally, but the
element went into the copy of the vector that `get` returned: the stored
vector is still empty, the whole memory is what it was, and
`get<CMachine>("machines", 0)` throws `std::out_of_range` instead of
returning the object. -/
theorem add_to_vector_is_lost :
    has (.object_vector .Machine) array_object "machines" = .ok true ∧
    (add .Machine "machines" (some 22) array_memory).1 = .ok () ∧
    get (.object_vector .Machine)
      (add .Machine "machines" (some 22) array_memory).2.self "machines" = .ok [] ∧
    get_index .Machine "machines" 0 (add .Machine "machines" (some 22) array_memory).2
      = .error (.out_of_range 0) :=
  ⟨rfl, rfl, rfl, rfl⟩

/-- C12: when `name` is registered neither as a `CDynamicObjectArray*` nor as
a `std::vector<T*>`, `add<T>(name, v)` with a non-null `v` throws and leaves
the memory as it was, `get<T>(name, index)` throws, and the nothrow variant
returns null without throwing; the lambda is not invoked at all. Conversely,
when one of the two representations is registered, `dispatch_array_type`
returns what a single invocation of the lambda on it leaves behind: a lambda
that counts its invocations ends one higher. -/
theorem dispatch_without_array_parameter (T : BaseCategory) (name : String)
    (index : Int) (o : ObjId) (m : ObjectMemory)
    (harr : has (.object_ptr .DynamicObjectArray) m.self name = .ok false)
    (hvec : has (.object_vector T) m.self name = .ok false) :
    (add T name (some o) m = (.error .cannot_add_to_array, m) ∧
      get_index T name index m = .error (.could_not_get_array_parameter index) ∧
      get_index_nothrow T name index m = .ok none ∧
      ∀ n : Nat, sgo_details.dispatch_array_type T m.self name counting_lambda n
        = (.ok false, n)) ∧
    (∀ (obj : CSGObject) (a : Option ObjId) (c : Bool) (props : AnyParameterProperties),
      map_find obj.map name
        = some { value := { type := .object_ptr .DynamicObjectArray, value := a,
                            cloneable := c },
                 properties := props } →
      (∀ (σ : Type) (lam : ArrayLambda σ) (s : σ),
        sgo_details.dispatch_array_type T obj name lam s
          = ((lam.on_array a s).1.map (fun _ => true), (lam.on_array a s).2)) ∧
      ∀ n : Nat, sgo_details.dispatch_array_type T obj name counting_lambda n
        = (.ok true, n + 1)) ∧
    (∀ (obj : CSGObject) (v : List (Option ObjId)) (c : Bool)
        (props : AnyParameterProperties),
      map_find obj.map name
        = some { value := { type := .object_vector T, value := v, cloneable := c },
                 properties := props } →
      (∀ (σ : Type) (lam : ArrayLambda σ) (s : σ),
        sgo_details.dispatch_array_type T obj name lam s
          = ((lam.on_vector v s).1.map (fun _ => true), (lam.on_vector v s).2.2)) ∧
      ∀ n : Nat, sgo_details.dispatch_array_type T obj name counting_lambda n
        = (.ok true, n + 1)) := by
  refine ⟨⟨?_, ?_, ?_, ?_⟩, ?_, ?_⟩
  · simp only [add, dispatch_on_neither T m.self name _ m harr hvec]
  · simp only [get_index, get_index_nothrow,
      dispatch_on_neither T m.self name _ none harr hvec]
  · simp only [get_index_nothrow, dispatch_on_neither T m.self name _ none harr hvec]
  · intro n
    exact dispatch_on_neither T m.self name _ n harr hvec
  · intro obj a c props h
    refine ⟨fun σ lam s => dispatch_on_array T obj name lam s a c props h, fun n => ?_⟩
    rw [dispatch_on_array T obj name _ n a c props h]
    rfl
  · intro obj v c props h
    refine ⟨fun σ lam s => dispatch_on_vector T obj name lam s v c props h, fun n => ?_⟩
    rw [dispatch_on_vector T obj name _ n v c props h]
    rfl

/-- Witness of `dispatch_without_array_parameter`: `label` of the example
object is a string, not an array in either representation. -/
theorem dispatch_without_array_parameter_witness :
    add .Kernel "label" (some 21)
        { array_memory with self := example_object }
      = (.error .cannot_add_to_array, { array_memory with self := example_object }) ∧
    get_index .Kernel "label" 0 { array_memory with self := example_object }
      = .error (.could_not_get_array_parameter 0) ∧
    get_index_nothrow .Kernel "label" 0 { array_memory with self := example_object }
      = .ok none :=
  have h := (dispatch_without_array_parameter .Kernel "label" 0 21
    { array_memory with self := example_object } rfl rfl).1
  ⟨h.1, h.2.1, h.2.2.1⟩

/-- C13: when `name` is a heterogeneous array (a `CDynamicObjectArray`) and its
element at position `index` cannot be narrowed to the requested category `T`,
`get<T>(name, index)` throws the conversion error of `as<T>`; and whatever the
parameter is, a value that `get<T>(name, index)` returns is never null and is
always an object of category `T`. -/
theorem get_index_is_checked (T : BaseCategory) (name : String) (index : Int)
    (m : ObjectMemory) :
    (∀ (a e : ObjId) (c : Bool) (props : AnyParameterProperties),
      map_find m.self.map name
        = some { value := { type := .object_ptr .DynamicObjectArray, value := some a,
                            cloneable := c },
                 properties := props } →
      element_at (m.arrays a) index = some (some e) →
      derives_from (m.dynamic_class e) T = false →
      get_index T name index m = .error (.cannot_convert (m.dynamic_class e) T)) ∧
    (∀ r, get_index T name index m = .ok r →
      ∃ o, r = some o ∧ derives_from (m.dynamic_class o) T = true) := by
  constructor
  · intro a e c props h hel hd
    simp only [get_index, get_index_nothrow]
    rw [dispatch_on_array T m.self name _ none (some a) c props h]
    simp [get_lambda, hel, as, hd, Except.map]
  · intro r hr
    unfold get_index at hr
    split at hr
    · cases hr
    · cases hr
    · rename_i o hn
      cases hr
      exact ⟨o, rfl, get_index_nothrow_some T name index m o hn⟩

/-- C14 (the code at the failing input): `feature_array` is a heterogeneous
array whose element 0 is the features object 20. The typed getter for its own
category returns it, but `get_dispatch_all_base_types(obj, "feature_array",
GetByNameIndex(0))` tries `CKernel` first, and `as<CKernel>` throws inside the
nothrow getter: the dispatch ends with that exception and never tries
`CFeatures`. -/
theorem dispatch_all_base_types_throws_on_features :
    array_memory.dynamic_class 20 = .Features ∧
    get_index .Features "feature_array" 0 array_memory = .ok (some 20) ∧
    sgo_details.get_if_possible .Kernel "feature_array" 0 array_memory
      = .error (.cannot_convert .Features .Kernel) ∧
    sgo_details.get_dispatch_all_base_types "feature_array" 0 array_memory
      = .error (.cannot_convert .Features .Kernel) :=
  ⟨rfl, rfl, rfl, rfl⟩

/-! ## Bound callables and observed values: claims -/

/-- C15: for a name registered as a bound callable, `run(name)` invokes the
callable once, completes without error if and only if the callable returns
true, and throws the run-function failure if and only if it returns false. -/
theorem run_succeeds_iff_true {σ : Type} (obj : RunnableObject σ) (name : String)
    (f : σ → Bool × σ) (s : σ) (hreg : map_find obj.functions name = some f) :
    ((run obj name s).1 = .ok () ↔ (f s).1 = true) ∧
    ((run obj name s).1 = .error .run_function_failed ↔ (f s).1 = false) ∧
    (run obj name s).2 = (f s).2 := by
  cases hf : (f s).1 <;> simp [run, get_function, hreg, hf]

/-- Witness of `run_succeeds_iff_true`: `train` of the runnable example. -/
theorem run_succeeds_iff_true_witness :
    ((run runnable_example "train" 0).1 = .ok () ↔ true = true) ∧
    (run runnable_example "train" 0).2 = 1 :=
  have h := run_succeeds_iff_true runnable_example "train" (fun n => (true, n + 1)) 0 rfl
  ⟨h.1, h.2.2⟩

theorem observe_without_subscribers (clone : (T : SGType) → T.interp → T.interp)
    (T : SGType) (step : Int) (name : String) (value : T.interp)
    (properties : AnyParameterProperties) (s : ObservableObject)
    (h : s.m_subscriptions = []) :
    observe clone T step name value properties s = s := by
  simp [observe, get_num_subscriptions, h]

/-- C17 (counterexample): the idle object has no subscription, yet the tag form
`observe<int64_t>(0, "missing")` throws because no parameter is registered
under the name, and `observe<bool>(0, "max_iterations")` throws the type
mismatch because the parameter is an `int64_t`. -/
theorem observe_tag_throws_without_subscribers :
    idle_object.m_subscriptions = [] ∧
    (observe_tag (fun _ v => v) .int64 0 "missing" idle_object).1 = .error .not_found ∧
    (observe_tag (fun _ v => v) .bool 0 "max_iterations" idle_object).1
      = .error (.type_mismatch .int64 .bool) :=
  ⟨rfl, rfl, rfl⟩

/-- C17 (amended): for an object with zero subscriptions, the tag form
`observe<T>(step, name)` does nothing and raises no error when `name` is
registered with stored type `T`; it throws not-found when nothing is
registered under `name` and the type mismatch when the stored type is not
`T`. In every case nothing is constructed or delivered and the object is left
as it was. -/
theorem observe_tag_without_subscribers
    (clone : (T : SGType) → T.interp → T.interp) (T : SGType) (step : Int)
    (name : String) (s : ObservableObject) (h : s.m_subscriptions = []) :
    (∀ (v : T.interp) (c : Bool) (props : AnyParameterProperties),
      map_find s.self.map name
          = some { value := { type := T, value := v, cloneable := c },
                   properties := props } →
      observe_tag clone T step name s = (.ok (), s)) ∧
    (map_find s.self.map name = none →
      observe_tag clone T step name s = (.error .not_found, s)) ∧
    (∀ p, map_find s.self.map name = some p → p.value.type ≠ T →
      observe_tag clone T step name s
        = (.error (.type_mismatch p.value.type T), s)) := by
  refine ⟨?_, ?_, ?_⟩
  · intro v c props hreg
    simp [observe_tag, get_parameter, hreg, any_cast,
      observe_without_subscribers clone T step name _ _ s h]
  · intro hreg
    simp [observe_tag, get_parameter, hreg]
  · intro p hreg hty
    simp [observe_tag, get_parameter, hreg, any_cast_other _ _ hty]

/-- Witness of `observe_tag_without_subscribers`: the idle object and its
`int64_t` parameter `max_iterations`. -/
theorem observe_tag_without_subscribers_witness :
    observe_tag (fun _ v => v) .int64 5 "max_iterations" idle_object
      = (.ok (), idle_object) :=
  (observe_tag_without_subscribers (fun _ v => v) .int64 5 "max_iterations"
    idle_object rfl).1 (100 : Int) true plain_properties rfl

/-! ## Reference counting: claims -/

theorem ref_times_from (o : ObjId) (k : Nat) :
    ∀ (m : Memory) (c : Int), m.refcount o = c → 0 ≤ c →
      (ref_times o k m).1 = (List.range k).map (fun (i : Nat) => c + (i : Int) + 1) ∧
      (ref_times o k m).2.refcount o = c + k := by
  induction k with
  | zero =>
    intro m c hc _
    simp [ref_times, hc]
  | succ k ih =>
    intro m c hc hpos
    have hne : c ≠ REFCOUNT_DISABLED := by
      rw [REFCOUNT_DISABLED]
      omega
    have hr1 : (ref o m).1 = c + 1 := by
      simp [ref, hne, hc]
    have hr2 : (ref o m).2.refcount o = c + 1 := by
      simp [ref, hne, hc]
    obtain ⟨h1, h2⟩ := ih (ref o m).2 (c + 1) hr2 (by omega)
    refine ⟨?_, ?_⟩
    · simp only [ref_times, h1, hr1, List.range_succ_eq_map, List.map_cons, List.map_map]
      simp only [Nat.cast_zero, add_zero, List.cons.injEq, true_and]
      apply List.map_congr_left
      intro i _
      simp only [Function.comp, Nat.cast_succ]
      ring
    · simp only [ref_times, h2]
      push_cast
      ring

theorem unref_above_one (o : ObjId) (m : Memory) (h : 2 ≤ m.refcount o) :
    (unref o m).1 = m.refcount o - 1 ∧ (unref o m).2.2 = false ∧
    (unref o m).2.1.refcount o = m.refcount o - 1 := by
  have h1 : m.refcount o ≠ REFCOUNT_DISABLED := by
    rw [REFCOUNT_DISABLED]
    omega
  have h2 : ¬ (m.refcount o = 0 ∨ m.refcount o - 1 = 0) := by omega
  simp [unref, h1, h2]

theorem unref_at_one (o : ObjId) (m : Memory) (h : m.refcount o = 1) :
    (unref o m).1 = 0 ∧ (unref o m).2.2 = true ∧ (unref o m).2.1.refcount o = 0 := by
  simp [unref, h, REFCOUNT_DISABLED]

/-- C18: on an object whose counter is zero (freshly constructed, counting
enabled) the k-th consecutive `ref()` returns k; after three `ref()` calls
three `unref()` calls return 2, 1, 0 in that order and only the last one
destroys the object; `ref_count()` reads the counter and returns nothing else;
a call of `unref()` that destroys the object returns 0 and happens only at a
count of at most one, never while further references remain; and `SG_UNREF`
on the last reference destroys the object and nulls the pointer. -/
theorem ref_unref_sequence (o : ObjId) (m : Memory) (hfresh : m.refcount o = 0) :
    (∀ k : Nat, (ref_times o k m).1
      = (List.range k).map (fun (i : Nat) => (i : Int) + 1)) ∧
    (unref_times o 3 (ref_times o 3 m).2).1 = [(2, false), (1, false), (0, true)] ∧
    (∀ m2 : Memory, ref_count o m2 = m2.refcount o) ∧
    (∀ m2 : Memory, (unref o m2).2.2 = true →
      (unref o m2).1 = 0 ∧ m2.refcount o ≤ 1) ∧
    (∀ m2 : Memory, m2.refcount o = 1 →
      (SG_UNREF (some o) m2).1 = none ∧ (SG_UNREF (some o) m2).2.2 = true) := by
  refine ⟨?_, ?_, fun _ => rfl, ?_, ?_⟩
  · intro k
    have h := (ref_times_from o k m 0 hfresh (le_refl 0)).1
    simpa using h
  · have h3 : (ref_times o 3 m).2.refcount o = 3 := by
      have h := (ref_times_from o 3 m 0 hfresh (le_refl 0)).2
      simpa using h
    obtain ⟨a1, a2, a3⟩ := unref_above_one o (ref_times o 3 m).2 (by omega)
    rw [h3] at a1 a3
    obtain ⟨b1, b2, b3⟩ := unref_above_one o (unref o (ref_times o 3 m).2).2.1 (by omega)
    rw [a3] at b1 b3
    obtain ⟨c1, c2, -⟩ := unref_at_one o
      (unref o (unref o (ref_times o 3 m).2).2.1).2.1 (by rw [b3]; norm_num)
    simp only [unref_times, a1, a2, b1, b2, c1, c2]
    norm_num
  · intro m2 hd
    unfold unref at hd ⊢
    split_ifs at hd ⊢ with h1 h2
    · refine ⟨rfl, ?_⟩
      rcases h2 with h2 | h2 <;> omega
  · intro m2 h1
    obtain ⟨c1, c2, -⟩ := unref_at_one o m2 h1
    simp [SG_UNREF, c1, c2]

/-- Witness of `ref_unref_sequence`: the object at address 7 of the fresh
memory. -/
theorem ref_unref_sequence_witness :
    (ref_times 7 3 fresh_memory).1 = [1, 2, 3] ∧
    (unref_times 7 3 (ref_times 7 3 fresh_memory).2).1
      = [(2, false), (1, false), (0, true)] :=
  have h := ref_unref_sequence 7 fresh_memory rfl
  ⟨by simpa [List.range_succ] using h.1 3, h.2.1⟩

end CSGObject

/-! ## Reference-counted containers: claims -/

/-- C19: a vector constructed with counting enabled has `ref_count()` 1; a copy
of it, or a matrix constructed from it, raises `ref_count()` to 2, and
destroying that sharer brings it back to 1 without releasing the data block.
In general, for a counted vector with at least one reference, creating a
sharer raises the count by exactly one and destroying the sharer lowers it by
exactly one and frees nothing. -/
theorem shared_vector_ref_count (len nrows ncols : Int) (h : DataHeap) :
    SGVector.ref_count (SGVector.allocate len true h).1 (SGVector.allocate len true h).2
      = 1 ∧
    (∀ (v : SGVector) (h1 : DataHeap) (c : Nat), v.m_refcount = some c →
      1 ≤ h1.refcounts c →
      (SGVector.ref_count v (SGVector.copy v h1).2 = SGVector.ref_count v h1 + 1 ∧
        SGVector.ref_count v
          (SGVector.destroy (SGVector.copy v h1).1 (SGVector.copy v h1).2)
          = SGVector.ref_count v h1 ∧
        (SGVector.destroy (SGVector.copy v h1).1 (SGVector.copy v h1).2).freed
          = h1.freed) ∧
      (SGVector.ref_count v (SGMatrix.from_vector v nrows ncols h1).2
          = SGVector.ref_count v h1 + 1 ∧
        SGVector.ref_count v
          (SGMatrix.destroy (SGMatrix.from_vector v nrows ncols h1).1
            (SGMatrix.from_vector v nrows ncols h1).2)
          = SGVector.ref_count v h1 ∧
        (SGMatrix.destroy (SGMatrix.from_vector v nrows ncols h1).1
            (SGMatrix.from_vector v nrows ncols h1).2).freed
          = h1.freed)) := by
  constructor
  · simp [SGVector.ref_count, SGVector.allocate, SGReferencedData.create,
      SGReferencedData.ref, SGReferencedData.ref_count]
  · intro v h1 c hc hpos
    have hne : ¬ (h1.refcounts c = 0) := by omega
    constructor
    · simp [SGVector.ref_count, SGVector.copy, SGVector.destroy, SGReferencedData.copy,
        SGReferencedData.ref, SGReferencedData.unref, SGReferencedData.ref_count, hc, hne]
    · simp [SGVector.ref_count, SGMatrix.from_vector, SGMatrix.destroy,
        SGReferencedData.copy, SGReferencedData.ref, SGReferencedData.unref,
        SGReferencedData.ref_count, hc, hne]

/-- C20: a vector constructed over caller-owned memory with
`ref_counting = false` reports the sentinel -1; it still reports -1 after a
copy or a matrix sharing its data is created and after that sharer is
destroyed; creating and destroying the sharer, `ref()` and `unref()` leave the
whole container memory as it was, so no data block is ever released. -/
theorem disabled_vector_ref_count (p : Option Nat) (len nrows ncols : Int)
    (h : DataHeap) :
    (SGVector.from_pointer p len false h).2 = h ∧
    SGVector.ref_count (SGVector.from_pointer p len false h).1 h = -1 ∧
    (SGMatrix.from_vector (SGVector.from_pointer p len false h).1 nrows ncols h).2 = h ∧
    SGMatrix.destroy
      (SGMatrix.from_vector (SGVector.from_pointer p len false h).1 nrows ncols h).1 h
      = h ∧
    (SGVector.copy (SGVector.from_pointer p len false h).1 h).2 = h ∧
    SGVector.destroy (SGVector.copy (SGVector.from_pointer p len false h).1 h).1 h = h ∧
    SGReferencedData.ref (SGVector.from_pointer p len false h).1.m_refcount h = (-1, h) ∧
    SGReferencedData.unref (SGVector.from_pointer p len false h).1.m_refcount p h
      = (-1, h) :=
  ⟨rfl, rfl, rfl, rfl, rfl, rfl, rfl, rfl⟩

/-! ## Registration: claims -/

namespace RegisteringObject

theorem SG_ADD_appends (obj obj1 : RegisteringObject) (r : Registration)
    (h : SG_ADD obj r = some obj1) :
    obj1.m_parameters = obj.m_parameters ++ [r.name] ∧
    obj1.entries.map (fun e => e.name) = obj.entries.map (fun e => e.name) ++ [r.name] ∧
    obj1.m_model_selection_parameters
      = obj.m_model_selection_parameters ++
          (if decide (ParameterProperties.HYPER ∈ r.param_properties) then [r.name] else []) ∧
    obj1.m_gradient_parameters
      = obj.m_gradient_parameters ++
          (if decide (ParameterProperties.GRADIENT ∈ r.param_properties) then [r.name]
           else []) := by
  cases r with
  | add3 param name description =>
    simp only [SG_ADD, Option.some.injEq] at h
    subst h
    simp [SG_ADD3, watch_param, list_add, Registration.name, Registration.param_properties]
  | add4 param name description props =>
    simp only [SG_ADD, SG_ADD4] at h
    split at h
    · cases h
    · simp only [Option.some.injEq] at h
      subst h
      by_cases h1 : ParameterProperties.HYPER ∈ props <;>
      by_cases h2 : ParameterProperties.GRADIENT ∈ props <;>
      simp [watch_param, list_add, Registration.name, Registration.param_properties,
        make_properties, AnyParameterProperties.has_property, h1, h2]
  | add5 param name description props auto_init =>
    simp only [SG_ADD, SG_ADD5] at h
    split at h
    · cases h
    · simp only [Option.some.injEq] at h
      subst h
      by_cases h1 : ParameterProperties.HYPER ∈ props <;>
      by_cases h2 : ParameterProperties.GRADIENT ∈ props <;>
      simp [watch_param, list_add, Registration.name, Registration.param_properties,
        make_properties, AnyParameterProperties.has_property, h1, h2]

theorem register_all_appends (regs : List Registration) :
    ∀ (obj obj1 : RegisteringObject), register_all regs obj = some obj1 →
      obj1.m_parameters = obj.m_parameters ++ regs.map Registration.name ∧
      obj1.entries.map (fun e => e.name)
        = obj.entries.map (fun e => e.name) ++ regs.map Registration.name ∧
      obj1.m_model_selection_parameters
        = obj.m_model_selection_parameters ++
            (regs.filter (fun r => decide (ParameterProperties.HYPER ∈ r.param_properties))).map
              Registration.name ∧
      obj1.m_gradient_parameters
        = obj.m_gradient_parameters ++
            (regs.filter
              (fun r => decide (ParameterProperties.GRADIENT ∈ r.param_properties))).map
              Registration.name := by
  induction regs with
  | nil =>
    intro obj obj1 h
    simp only [register_all, Option.some.injEq] at h
    subst h
    simp
  | cons r rest ih =>
    intro obj obj1 h
    simp only [register_all] at h
    cases hr : SG_ADD obj r with
    | none => simp [hr] at h
    | some obj2 =>
      simp only [hr] at h
      obtain ⟨a1, a2, a3, a4⟩ := SG_ADD_appends obj obj2 r hr
      obtain ⟨b1, b2, b3, b4⟩ := ih obj2 obj1 h
      refine ⟨?_, ?_, ?_, ?_⟩
      · rw [b1, a1]
        simp
      · rw [b2, a2]
        simp
      · rw [b3, a3]
        by_cases h1 : ParameterProperties.HYPER ∈ r.param_properties <;>
          simp [List.filter_cons, h1]
      · rw [b4, a4]
        by_cases h2 : ParameterProperties.GRADIENT ∈ r.param_properties <;>
          simp [List.filter_cons, h2]

/-- C24: after the registrations of a constructor, made through `SG_ADD`, every
registered name is in the main parameter list and in the store; the
model-selection view holds exactly the names registered with HYPER and the
gradient view exactly those registered with GRADIENT, in order of
registration; and the three-argument form touches neither view. -/
theorem registration_views (regs : List Registration) (obj : RegisteringObject)
    (h : register_all regs unregistered = some obj) :
    obj.m_parameters = regs.map Registration.name ∧
    obj.entries.map (fun e => e.name) = regs.map Registration.name ∧
    obj.m_model_selection_parameters
      = (regs.filter (fun r => decide (ParameterProperties.HYPER ∈ r.param_properties))).map
          Registration.name ∧
    obj.m_gradient_parameters
      = (regs.filter (fun r => decide (ParameterProperties.GRADIENT ∈ r.param_properties))).map
          Registration.name ∧
    (∀ (o : RegisteringObject) (param : Any) (name description : String),
      (SG_ADD3 o param name description).m_model_selection_parameters
        = o.m_model_selection_parameters ∧
      (SG_ADD3 o param name description).m_gradient_parameters
        = o.m_gradient_parameters ∧
      (SG_ADD3 o param name description).m_parameters = o.m_parameters ++ [name]) := by
  obtain ⟨h1, h2, h3, h4⟩ := register_all_appends regs unregistered obj h
  refine ⟨?_, ?_, ?_, ?_, fun o param name description => ⟨rfl, rfl, rfl⟩⟩
  · simpa [unregistered] using h1
  · simpa [unregistered] using h2
  · simpa [unregistered] using h3
  · simpa [unregistered] using h4

/-- Witness of `registration_views`: the example registrations; `width` and
`seed` are in the model-selection view, `width` alone in the gradient view. -/
theorem registration_views_witness :
    ∃ obj, register_all example_registrations unregistered = some obj ∧
      obj.m_parameters = ["width", "fitted", "label", "seed"] ∧
      obj.m_model_selection_parameters = ["width", "seed"] ∧
      obj.m_gradient_parameters = ["width"] :=
  ⟨(register_all example_registrations unregistered).get rfl, by simp,
    ((registration_views example_registrations _ (by simp)).1).trans rfl,
    ((registration_views example_registrations _ (by simp)).2.2.1).trans (by decide),
    ((registration_views example_registrations _ (by simp)).2.2.2.1).trans (by decide)⟩

theorem SG_ADD_keeps_auto_rule (obj obj1 : RegisteringObject) (r : Registration)
    (h : SG_ADD obj r = some obj1)
    (hobj : ∀ e ∈ obj.entries,
      (ParameterProperties.AUTO ∈ e.parameter.properties.attributes ↔ e.auto_init.isSome)) :
    ∀ e ∈ obj1.entries,
      (ParameterProperties.AUTO ∈ e.parameter.properties.attributes ↔ e.auto_init.isSome) := by
  cases r with
  | add3 param name description =>
    simp only [SG_ADD, Option.some.injEq] at h
    subst h
    intro e he
    simp only [SG_ADD3, watch_param, List.mem_append, List.mem_singleton] at he
    rcases he with he | he
    · exact hobj e he
    · subst he
      simp [make_properties]
  | add4 param name description props =>
    simp only [SG_ADD, SG_ADD4] at h
    split at h
    · cases h
    · rename_i hauto
      simp only [Option.some.injEq] at h
      subst h
      intro e he
      have he2 : e ∈ obj.entries ++
          [{ name := name,
             parameter := { value := param, properties := make_properties description props },
             auto_init := none }] := by
        revert he
        simp only [watch_param]
        split_ifs <;> exact id
      simp only [List.mem_append, List.mem_singleton] at he2
      rcases he2 with he2 | he2
      · exact hobj e he2
      · subst he2
        simpa [make_properties] using hauto
  | add5 param name description props auto_init =>
    simp only [SG_ADD, SG_ADD5] at h
    split at h
    · cases h
    · rename_i hauto
      simp only [Option.some.injEq] at h
      subst h
      intro e he
      have he2 : e ∈ obj.entries ++
          [{ name := name,
             parameter := { value := param, properties := make_properties description props },
             auto_init := some auto_init }] := by
        revert he
        simp only [watch_param]
        split_ifs <;> exact id
      simp only [List.mem_append, List.mem_singleton] at he2
      rcases he2 with he2 | he2
      · exact hobj e he2
      · subst he2
        simpa [make_properties] using hauto

theorem register_all_keeps_auto_rule (regs : List Registration) :
    ∀ (obj obj1 : RegisteringObject), register_all regs obj = some obj1 →
      (∀ e ∈ obj.entries,
        (ParameterProperties.AUTO ∈ e.parameter.properties.attributes ↔ e.auto_init.isSome)) →
      ∀ e ∈ obj1.entries,
        (ParameterProperties.AUTO ∈ e.parameter.properties.attributes ↔ e.auto_init.isSome) := by
  induction regs with
  | nil =>
    intro obj obj1 h hobj
    simp only [register_all, Option.some.injEq] at h
    subst h
    exact hobj
  | cons r rest ih =>
    intro obj obj1 h hobj
    simp only [register_all] at h
    cases hr : SG_ADD obj r with
    | none => simp [hr] at h
    | some obj2 =>
      simp only [hr] at h
      exact ih obj2 obj1 h (SG_ADD_keeps_auto_rule obj obj2 r hr hobj)

/-- C25: the four-argument `SG_ADD` is rejected (by its `static_assert`) if and
only if the property set contains AUTO, the five-argument `SG_ADD` if and only
if it does not; hence in every object whose registrations were all accepted,
an entry has the AUTO flag exactly when it has a lazy initializer. -/
theorem auto_needs_initializer :
    (∀ (obj : RegisteringObject) (param : Any) (name description : String)
        (props : List ParameterProperties),
      SG_ADD obj (.add4 param name description props) = none
        ↔ ParameterProperties.AUTO ∈ props) ∧
    (∀ (obj : RegisteringObject) (param : Any) (name description : String)
        (props : List ParameterProperties) (auto_init : Nat),
      SG_ADD obj (.add5 param name description props auto_init) = none
        ↔ ParameterProperties.AUTO ∉ props) ∧
    (∀ (regs : List Registration) (obj : RegisteringObject),
      register_all regs unregistered = some obj →
      ∀ e ∈ obj.entries,
        (ParameterProperties.AUTO ∈ e.parameter.properties.attributes
          ↔ e.auto_init.isSome)) := by
  refine ⟨?_, ?_, ?_⟩
  · intro obj param name description props
    by_cases h : ParameterProperties.AUTO ∈ props <;> simp [SG_ADD, SG_ADD4, h]
  · intro obj param name description props auto_init
    by_cases h : ParameterProperties.AUTO ∈ props <;> simp [SG_ADD, SG_ADD5, h]
  · intro regs obj h
    exact register_all_keeps_auto_rule regs unregistered obj h (by simp [unregistered])

end RegisteringObject

/-! ## Invariants of the store -/

namespace CSGObject

theorem map_find_update_parameter_other (self : CSGObject) (n n2 : String) (a : Any)
    (hn : n2 ≠ n) :
    map_find (update_parameter self n a).map n2 = map_find self.map n2 :=
  map_find_map_update_other _ self.map n n2 hn

theorem map_find_update_parameter_self (self : CSGObject) (n : String) (a : Any) :
    map_find (update_parameter self n a).map n
      = (map_find self.map n).map
          (fun p => { p with value := { a with cloneable := p.value.cloneable } }) :=
  map_find_map_update_self _ self.map n

theorem has_after_update (U T : SGType) (self : CSGObject) (n n2 : String)
    (v : T.interp) (p : AnyParameter) (hreg : map_find self.map n = some p)
    (hty : p.value.type = T) :
    has U (update_parameter self n (make_any T v)) n2 = has U self n2 := by
  by_cases hn : n2 = n
  · subst hn
    simp only [has, has_parameter, get_parameter, map_find_update_parameter_self, hreg]
    simp [Any.has_type, make_any, hty]
  · simp only [has, has_parameter, get_parameter,
      map_find_update_parameter_other self n n2 _ hn]

theorem has_after_put_value (U T : SGType) (n n2 : String) (v : T.interp) (m : Memory) :
    has U (put_value T n v m).2.self n2 = has U m.self n2 := by
  cases hreg : map_find m.self.map n with
  | none => rw [put_value_not_found T n v m hreg]
  | some p =>
    cases hcl : p.value.cloneable with
    | false => rw [put_value_not_cloneable T n v m p hreg hcl]
    | true =>
      by_cases hty : p.value.type = T
      · rw [put_value_ok T n v m p hreg hcl hty]
        simp only [ref_value_self]
        exact has_after_update U T m.self n n2 v p hreg hty
      · rw [put_value_type_mismatch T n v m p hreg hcl hty]

/-- C27: for every name `n2` and every type `U`, `has<U>(n2)` gives the same
answer before and after any `put`, typed or string-option, on any name, with
any value, whether the `put` succeeds or fails: the runtime type of a
registered parameter never changes. -/
theorem put_keeps_types (U T : SGType) (n n2 : String) (v : T.interp) (m : Memory) :
    has U (put T n v m).2.self n2 = has U m.self n2 := by
  by_cases hT : T.is_string = false
  · rw [put_not_string T hT]
    exact has_after_put_value U T n n2 v m
  · cases T <;> simp [SGType.is_string] at hT
    rename_i k
    have hput : put (.string k) n v m = put_string n v m := rfl
    rw [hput]
    rcases put_string_fails_or_puts_code n v m with ⟨e, he⟩ | ⟨code, h⟩
    · rw [he]
    · rw [h]
      exact has_after_put_value U .machine_int n n2 code m

end CSGObject

/-! ## Process-wide objects: claims -/

namespace Process

theorem SG_REF_fields (x : Option ObjId) (p : Process) :
    SG_REF x p = { p with refcount := (SG_REF x p).refcount } := by
  cases x with
  | none => rfl
  | some o =>
    simp only [SG_REF, ref]
    split <;> rfl

theorem SG_REF_count (a : ObjId) (p : Process) (ha : 0 ≤ p.refcount a) :
    (SG_REF (some a) p).refcount
      = fun x => if x = a then p.refcount a + 1 else p.refcount x := by
  have hne : p.refcount a ≠ REFCOUNT_DISABLED := by
    rw [REFCOUNT_DISABLED]
    omega
  simp [SG_REF, ref, hne]

theorem SG_UNREF_count (b : ObjId) (q : Process) (hb : 1 ≤ q.refcount b) :
    (SG_UNREF (some b) q).2.refcount
      = fun x => if x = b then q.refcount b - 1 else q.refcount x := by
  have hne : q.refcount b ≠ REFCOUNT_DISABLED := by
    rw [REFCOUNT_DISABLED]
    omega
  have h0 : q.refcount b ≠ 0 := by omega
  by_cases h1 : q.refcount b - 1 = 0
  · funext x
    simp only [SG_UNREF, unref, hne, h0, h1, or_true, if_true, if_false]
  · funext x
    simp only [SG_UNREF, unref, hne, h0, h1, or_self, if_false]

theorem accessor_contract (var : Process → Option ObjId)
    (set : Option ObjId → Process → Process) (get : Process → Option ObjId × Process)
    (hvar : ∀ (p : Process) (f : ObjId → Int), var { p with refcount := f } = var p)
    (hset_var : ∀ x p, var (set x p) = x)
    (hset_count : ∀ x p,
      (set x p).refcount = (SG_UNREF (var (SG_REF x p)) (SG_REF x p)).2.refcount)
    (hget : ∀ p, get p = (var (SG_REF (var p) p), SG_REF (var p) p)) :
    GlobalAccessorContract var set get := by
  intro p a ha
  have hvr : ∀ x q, var (SG_REF x q) = var q := by
    intro x q
    rw [SG_REF_fields x q]
    exact hvar q _
  have hgetp : ∀ q, get q = (var q, SG_REF (var q) q) := by
    intro q
    rw [hget q, hvr]
  refine ⟨hset_var _ _, ?_, ?_, ?_, ?_, ?_, ?_⟩
  · rw [hgetp, hset_var]
  · intro b hb hne hcount
    rw [hset_count, hvr, hb]
    have hb1 : 1 ≤ (SG_REF (some a) p).refcount b := by
      rw [SG_REF_count a p ha]
      simp [hne, hcount]
    rw [SG_UNREF_count b _ hb1, SG_REF_count a p ha]
    refine ⟨?_, ?_, ?_⟩
    · simp [Ne.symm hne]
    · simp [hne]
    · intro x hxa hxb
      simp [hxa, hxb]
  · intro hnone
    rw [hset_count, hvr, hnone]
    simp only [SG_UNREF]
    rw [SG_REF_count a p ha]
    refine ⟨by simp, ?_⟩
    intro x hxa
    simp [hxa]
  · rw [hgetp]
  · intro hsome
    rw [hgetp, hsome, SG_REF_count a p ha]
    refine ⟨by simp, ?_⟩
    intro x hxa
    simp [hxa]
  · rw [hgetp]
    exact SG_REF_fields _ p

end Process

/-- C28: each of the four setter/getter pairs of `init.cpp` (IO, parallel,
version, random) meets the contract `GlobalAccessorContract`: the getter after
`set_global_X(x)` returns `x`; the setter leaves the counter of `x` one higher
and that of the previously installed object one lower, and no other counter
changed; the getter returns the global, leaves the counter of the returned
object one higher and changes nothing else. -/
theorem global_accessors_keep_contract :
    GlobalAccessorContract (fun p => p.sg_io) set_global_io get_global_io ∧
    GlobalAccessorContract (fun p => p.sg_parallel) set_global_parallel
      get_global_parallel ∧
    GlobalAccessorContract (fun p => p.sg_version) set_global_version
      get_global_version ∧
    GlobalAccessorContract (fun p => p.sg_rand) set_global_rand get_global_rand := by
  refine ⟨?_, ?_, ?_, ?_⟩ <;>
  · apply Process.accessor_contract
    · intro p f
      rfl
    · intro x p
      rfl
    · intro x p
      rfl
    · intro p
      rfl

/-- C29 (the code at the failing input): started with no global object, one
`init_shogun` followed by one `exit_shogun` destroys the random, version and
IO objects (addresses 3, 2, 0) and nulls their pointers, but the Parallel
object (address 1) still has a reference count of 1, is not destroyed, and
`sg_parallel` still points to it: `init_from_env` took a reference through
`get_global_parallel()` that nothing releases. -/
theorem init_exit_leaks_parallel :
    (init_shogun 0 0 0 empty_environment (fun _ => none) initial_process).1 = .ok () ∧
    (init_shogun 0 0 0 empty_environment (fun _ => none) initial_process).2.sg_parallel
      = some 1 ∧
    (init_shogun 0 0 0 empty_environment (fun _ => none) initial_process).2.refcount 1
      = 2 ∧
    (init_shogun 0 0 0 empty_environment (fun _ => none) initial_process).2.refcount 0
      = 1 ∧
    process_after_init_and_exit.sg_io = none ∧
    process_after_init_and_exit.sg_version = none ∧
    process_after_init_and_exit.sg_rand = none ∧
    process_after_init_and_exit.destroyed = [3, 2, 0] ∧
    process_after_init_and_exit.sg_parallel = some 1 ∧
    process_after_init_and_exit.refcount 1 = 1 :=
  ⟨rfl, rfl, rfl, rfl, rfl, rfl, rfl, rfl, rfl, rfl⟩

/-! ## Vector elements: claims -/

namespace SGVector

theorem compare_elements_iff {α : Type} (same : Option α → Option α → Bool)
    (this other : SGVector) (mem : VectorMemory α) (k : Nat) :
    ∀ i : Nat, compare_elements same this other mem i k = true ↔
      ∀ j, i ≤ j → j < i + k → same (this.element mem j) (other.element mem j) = true := by
  induction k with
  | zero =>
    intro i
    simp only [compare_elements, true_iff]
    intro j h1 h2
    omega
  | succ k ih =>
    intro i
    simp only [compare_elements]
    by_cases hs : same (this.element mem i) (other.element mem i) = true
    · simp only [hs, Bool.not_true, Bool.false_eq_true, if_false, ih (i + 1)]
      constructor
      · intro h j h1 h2
        by_cases hj : j = i
        · rw [hj]
          exact hs
        · exact h j (by omega) (by omega)
      · intro h j h1 h2
        exact h j (by omega) (by omega)
    · have hs2 : same (this.element mem i) (other.element mem i) = false := by
        simpa using hs
      simp only [hs2, Bool.not_false, if_true, Bool.false_eq_true, false_iff]
      intro h
      exact hs (h i (le_refl i) (by omega))

/-- C30 (counterexample): the process-wide epsilon is set to 5 and `equals`
is called for `float64_t` on the vectors [0] and [1]. In place of
`CMath::fequals` stands a probe that answers whether the tolerance handed to
it is the process-wide epsilon: `equals` is false, so it is not. With the
probe that answers whether the tolerance is the machine epsilon `2^-52`,
`equals` is true. The same holds with the default process-wide epsilon 0. -/
theorem real_equals_passes_machine_epsilon :
    get_global_fequals_epsilon (set_global_fequals_epsilon 5 initial_process) = 5 ∧
    equals_real (fun p _ _ t => decide (t = get_global_fequals_epsilon p))
      (1 / 4503599627370496) (set_global_fequals_epsilon 5 initial_process)
      { m_refcount := none, vector := some 0, vlen := 1 }
      { m_refcount := none, vector := some 1, vlen := 1 } real_cells = false ∧
    equals_real (fun _ _ _ t => decide (t = 1 / 4503599627370496))
      (1 / 4503599627370496) (set_global_fequals_epsilon 5 initial_process)
      { m_refcount := none, vector := some 0, vlen := 1 }
      { m_refcount := none, vector := some 1, vlen := 1 } real_cells = true ∧
    get_global_fequals_epsilon initial_process = 0 ∧
    equals_real (fun p _ _ t => decide (t = get_global_fequals_epsilon p))
      (1 / 4503599627370496) initial_process
      { m_refcount := none, vector := some 0, vlen := 1 }
      { m_refcount := none, vector := some 1, vlen := 1 } real_cells = false := by
  refine ⟨rfl, ?_, ?_, rfl, ?_⟩
  · simp [equals_real, compare_elements, element, VectorMemory.read,
      get_global_fequals_epsilon, set_global_fequals_epsilon, initial_process]
    norm_num
  · simp [equals_real, compare_elements, element, VectorMemory.read]
  · simp [equals_real, compare_elements, element, VectorMemory.read,
      get_global_fequals_epsilon, initial_process]

/-- C30 (amended): whatever the leaf comparison `fequals` is, also one that
reads the process, `SGVector<real_t>::equals` is true exactly when the lengths
agree and either the data pointers are equal or the leaf comparison accepts
every element pair when handed `std::numeric_limits<real_t>::epsilon()` as its
tolerance: that is the tolerance argument `equals` passes, for every value of
the process-wide epsilon. The process-wide epsilon is 0 by default, is what
`get_global_fequals_epsilon` returns, is set by `set_global_fequals_epsilon`
and is left alone by the other setters. -/
theorem real_equals_tolerance {α : Type} (fequals : Process → α → α → ℚ → Bool)
    (numeric_limits_epsilon : ℚ) (p : Process) (this other : SGVector)
    (mem : VectorMemory α) :
    (equals_real fequals numeric_limits_epsilon p this other mem = true ↔
      other.vlen = this.vlen ∧
        (this.vector = other.vector ∨
          ∀ i, i < this.vlen.toNat →
            ∃ a b, this.element mem i = some a ∧ other.element mem i = some b ∧
              fequals p a b numeric_limits_epsilon = true)) ∧
    get_global_fequals_epsilon initial_process = 0 ∧
    (∀ e, get_global_fequals_epsilon (set_global_fequals_epsilon e p) = e) ∧
    (∀ t, get_global_fequals_epsilon (set_global_fequals_tolerant t p)
      = get_global_fequals_epsilon p) ∧
    (∀ x, get_global_fequals_epsilon (set_global_io x p)
      = get_global_fequals_epsilon p) := by
  refine ⟨?_, rfl, fun e => rfl, fun t => rfl, ?_⟩
  · by_cases hlen : other.vlen = this.vlen
    · by_cases hptr : this.vector = other.vector
      · simp [equals_real, hlen, hptr]
      · simp only [equals_real, hlen, ne_eq, not_true_eq_false, if_false, hptr,
          compare_elements_iff, true_and, false_or]
        constructor
        · intro h i hi
          have hi1 := h i (Nat.zero_le _) (by omega)
          cases ha : this.element mem i with
          | none => simp [ha] at hi1
          | some a =>
            cases hb : other.element mem i with
            | none => simp [ha, hb] at hi1
            | some b =>
              rw [ha, hb] at hi1
              exact ⟨a, b, rfl, rfl, hi1⟩
        · intro h j _ hj
          obtain ⟨a, b, ha, hb, hf⟩ := h j (by omega)
          rw [ha, hb]
          exact hf
    · simp [equals_real, hlen]
  · intro x
    simp only [get_global_fequals_epsilon, set_global_io]
    cases x with
    | none =>
      simp only [Process.SG_REF]
      cases p.sg_io with
      | none => rfl
      | some o =>
        simp only [Process.SG_UNREF, Process.unref]
        split_ifs <;> rfl
    | some a =>
      have h1 := Process.SG_REF_fields (some a) p
      cases hio : (Process.SG_REF (some a) p).sg_io with
      | none =>
        simp only [Process.SG_UNREF]
        rw [h1]
      | some o =>
        simp only [Process.SG_UNREF, Process.unref]
        split_ifs <;> rw [h1]

theorem equals_iff {α : Type} [DecidableEq α] (a b : SGVector) (mem : VectorMemory α) :
    equals a b mem = true ↔
      a.vlen = b.vlen ∧ ∀ i, i < a.vlen.toNat → a.element mem i = b.element mem i := by
  unfold equals
  by_cases hlen : b.vlen = a.vlen
  · simp only [hlen, ne_eq, not_true_eq_false, if_false, true_and]
    by_cases hp : a.vector = b.vector
    · simp only [hp, if_true, true_iff]
      intro i _
      simp [element, hp]
    · simp only [hp, if_false, compare_elements_iff]
      constructor
      · intro h i hi
        have := h i (Nat.zero_le i) (by omega)
        simpa [eq_comm] using this
      · intro h j _ hj
        have := h j (by omega)
        simpa [eq_comm] using this
  · have hlen2 : ¬ a.vlen = b.vlen := fun h => hlen h.symm
    simp [hlen, hlen2]

/-- C23: for an element type compared with `!=`, `equals(a, b)` is true if and
only if the two vectors have the same length and the same element at every
index below it. Hence `equals` is reflexive and symmetric, two empty vectors
are equal, vectors of different length are not, and overwriting one element
of a vector equal to `a`, held in other storage, by a different value makes
it unequal. -/
theorem equals_is_elementwise {α : Type} [DecidableEq α] (a b : SGVector)
    (mem : VectorMemory α) :
    (equals a b mem = true ↔
      a.vlen = b.vlen ∧ ∀ i, i < a.vlen.toNat → a.element mem i = b.element mem i) ∧
    equals a a mem = true ∧
    equals a b mem = equals b a mem ∧
    (a.vlen = 0 → b.vlen = 0 → equals a b mem = true) ∧
    (a.vlen ≠ b.vlen → equals a b mem = false) ∧
    (∀ (i : Nat) (x : α) (pb : Nat), b.vector = some pb → i < b.vlen.toNat →
      equals a b mem = true →
      (∀ pa j, a.vector = some pa → j < a.vlen.toNat → pa + j ≠ pb + i) →
      b.element mem i ≠ some x →
      equals a b (mem.write b.vector i x) = false) := by
  refine ⟨equals_iff a b mem, ?_, ?_, ?_, ?_, ?_⟩
  · rw [equals_iff]
    exact ⟨rfl, fun _ _ => rfl⟩
  · have h1 := equals_iff a b mem
    have h2 := equals_iff b a mem
    cases hab : equals a b mem with
    | true =>
      obtain ⟨hl, he⟩ := h1.mp hab
      exact (h2.mpr ⟨hl.symm, fun i hi => (he i (by rw [hl]; exact hi)).symm⟩).symm
    | false =>
      cases hba : equals b a mem with
      | false => rfl
      | true =>
        obtain ⟨hl, he⟩ := h2.mp hba
        have := h1.mpr ⟨hl.symm, fun i hi => (he i (by rw [hl]; exact hi)).symm⟩
        rw [hab] at this
        exact this
  · intro ha hb
    rw [equals_iff]
    refine ⟨by rw [ha, hb], fun i hi => ?_⟩
    rw [ha] at hi
    simp at hi
  · intro hne
    cases hab : equals a b mem with
    | false => rfl
    | true => exact absurd ((equals_iff a b mem).mp hab).1 hne
  · intro i x pb hpb hi hab hsep hx
    obtain ⟨hl, he⟩ := (equals_iff a b mem).mp hab
    cases hw : equals a b (mem.write b.vector i x) with
    | false => rfl
    | true =>
      obtain ⟨-, he2⟩ := (equals_iff a b (mem.write b.vector i x)).mp hw
      have hia : i < a.vlen.toNat := by rw [hl]; exact hi
      have h1 := he2 i hia
      have h0 := he i hia
      have hbw : b.element (mem.write b.vector i x) i = some x := by
        simp [element, VectorMemory.read, VectorMemory.write, hpb]
      have haw : a.element (mem.write b.vector i x) i = a.element mem i := by
        cases hpa : a.vector with
        | none => simp [element, VectorMemory.read, hpa]
        | some pa =>
          have hne : ¬ (pa + i = pb + i) := hsep pa i hpa hia
          simp only [element, VectorMemory.read, VectorMemory.write, hpb, hpa,
            Option.map_some', hne, if_false]
      rw [hbw, haw, h0] at h1
      exact absurd h1 hx

theorem clone_vector_copies {α : Type} (src : Nat) (len : Int) (mem : VectorMemory α)
    (hpos : 0 < len) :
    (clone_vector (some src) len mem).1 = .ok (some mem.brk) ∧
    (∀ i, i < len.toNat →
      (clone_vector (some src) len mem).2.cells (mem.brk + i) = mem.cells (src + i)) ∧
    (∀ c, c < mem.brk → (clone_vector (some src) len mem).2.cells c = mem.cells c) ∧
    (clone_vector (some src) len mem).2.brk = mem.brk + len.toNat := by
  have h0 : ¬ len = 0 := by omega
  have h1 : ¬ ¬ (len > 0) := by omega
  simp only [clone_vector, h0, h1, if_false]
  refine ⟨by first | rfl | trivial, ?_, ?_, by first | rfl | trivial⟩
  · intro i hi
    have : mem.brk ≤ mem.brk + i ∧ mem.brk + i < mem.brk + len.toNat := by omega
    simp [this]
  · intro c hc
    have : ¬ (mem.brk ≤ c ∧ c < mem.brk + len.toNat) := by omega
    simp [this]

end SGVector

/-! ## Deep clone and equals -/

namespace CSGObject

end CSGObject

/-! ## Installing the current global again -/

namespace Process

theorem SG_UNREF_after_SG_REF (a : ObjId) (p : Process) (ha : 1 ≤ p.refcount a) :
    SG_UNREF (some a) (SG_REF (some a) p) = (some a, p) := by
  have hne : p.refcount a ≠ REFCOUNT_DISABLED := by
    rw [REFCOUNT_DISABLED]
    omega
  have h1 : ¬ (p.refcount a + 1 = REFCOUNT_DISABLED) := by
    rw [REFCOUNT_DISABLED]
    omega
  have h0 : ¬ (p.refcount a + 1 = 0) := by omega
  have h3 : ¬ (p.refcount a + 1 - 1 = 0) := by omega
  have hf : (fun x => if x = a then p.refcount a + 1 - 1
      else if x = a then p.refcount a + 1 else p.refcount x) = p.refcount := by
    funext x
    by_cases hx : x = a
    · simp [hx]
    · simp [hx]
  simp only [SG_UNREF, SG_REF, ref, unref, hne, if_false, if_true, h1, h0, h3, or_false, hf]

end Process

/-- C32: each of the four setters, called with the object that already is the
current global and holds at least one reference, returns the process exactly
as it was: the object is still installed, its counter has its old value and
nothing was destroyed. In between, the counter is one above its old value
after `SG_REF` and `unref` returns the old value, which is not zero. -/
theorem set_current_global_changes_nothing (p : Process) (a : ObjId)
    (ha : 1 ≤ p.refcount a) :
    (p.sg_io = some a → set_global_io (some a) p = p) ∧
    (p.sg_parallel = some a → set_global_parallel (some a) p = p) ∧
    (p.sg_version = some a → set_global_version (some a) p = p) ∧
    (p.sg_rand = some a → set_global_rand (some a) p = p) ∧
    (Process.SG_REF (some a) p).refcount a = p.refcount a + 1 ∧
    (Process.unref a (Process.SG_REF (some a) p)).1 = p.refcount a ∧
    (Process.unref a (Process.SG_REF (some a) p)).1 ≠ 0 ∧
    (Process.unref a (Process.SG_REF (some a) p)).2.destroyed = p.destroyed := by
  have hsr := Process.SG_UNREF_after_SG_REF a p ha
  have hne : p.refcount a ≠ REFCOUNT_DISABLED := by
    rw [REFCOUNT_DISABLED]
    omega
  have h1 : ¬ (p.refcount a + 1 = REFCOUNT_DISABLED) := by
    rw [REFCOUNT_DISABLED]
    omega
  have h0 : ¬ (p.refcount a + 1 = 0 ∨ p.refcount a = 0) := by omega
  have h4 : ¬ (p.refcount a = 0) := by omega
  have hfield : (Process.SG_REF (some a) p).sg_io = p.sg_io ∧
      (Process.SG_REF (some a) p).sg_parallel = p.sg_parallel ∧
      (Process.SG_REF (some a) p).sg_version = p.sg_version ∧
      (Process.SG_REF (some a) p).sg_rand = p.sg_rand := by
    simp [Process.SG_REF, Process.ref, hne]
  have h6 : (Process.unref a (Process.SG_REF (some a) p)).1 = p.refcount a := by
    simp [Process.SG_REF, Process.ref, Process.unref, hne, h1, h0]
  refine ⟨?_, ?_, ?_, ?_, ?_, ?_, ?_, ?_⟩
  · intro h
    simp only [set_global_io, hfield.1, h, hsr]
    rw [← h]
  · intro h
    simp only [set_global_parallel, hfield.2.1, h, hsr]
    rw [← h]
  · intro h
    simp only [set_global_version, hfield.2.2.1, h, hsr]
    rw [← h]
  · intro h
    simp only [set_global_rand, hfield.2.2.2, h, hsr]
    rw [← h]
  · simp [Process.SG_REF, Process.ref, hne]
  · exact h6
  · rw [h6]
    exact h4
  · simp [Process.SG_REF, Process.ref, Process.unref, hne, h1, h0]

/-- Witness of `set_current_global_changes_nothing`: after `init_shogun` the IO
object (address 0) is installed with one reference, and installing it again
leaves the process as it is. -/
theorem set_current_global_changes_nothing_witness :
    1 ≤ process_after_init.refcount 0 ∧ process_after_init.sg_io = some 0 ∧
    set_global_io (some 0) process_after_init = process_after_init :=
  ⟨by decide, rfl,
   (set_current_global_changes_nothing process_after_init 0 (by decide)).1 rfl⟩

/-! ## The algorithms of `SGVector` -/

theorem sorted_insert_at {α : Type} [LinearOrder α] (l : List α) (r : Nat) (e : α)
    (hs : l.Sorted (fun a b => a ≤ b)) (hbefore : ∀ x ∈ l.take r, x ≤ e)
    (hafter : ∀ x ∈ l.drop r, e ≤ x) :
    (l.take r ++ e :: l.drop r).Sorted (fun a b => a ≤ b) := by
  have hsplit : (l.take r ++ l.drop r).Pairwise (fun a b => a ≤ b) := by
    rw [List.take_append_drop]
    exact hs
  rw [List.pairwise_append] at hsplit
  obtain ⟨h1, h2, h3⟩ := hsplit
  unfold List.Sorted
  rw [List.pairwise_append]
  refine ⟨h1, List.pairwise_cons.mpr ⟨hafter, h2⟩, ?_⟩
  intro a ha b hb
  rcases List.mem_cons.mp hb with hbe | hbd
  · rw [hbe]
    exact hbefore a ha
  · exact h3 a ha b hbd

theorem block_length {α : Type} (mem : VectorMemory α) (p n : Nat) :
    (mem.block p n).length = n := by
  simp [VectorMemory.block]

theorem block_getElem {α : Type} (mem : VectorMemory α) (p n i : Nat)
    (h : i < (mem.block p n).length) : (mem.block p n)[i] = mem.cells (p + i) := by
  simp [VectorMemory.block]

theorem mem_block {α : Type} (mem : VectorMemory α) (p n : Nat) (x : α) :
    x ∈ mem.block p n ↔ ∃ i, i < n ∧ mem.cells (p + i) = x := by
  simp [VectorMemory.block]

theorem mem_take_block {α : Type} (mem : VectorMemory α) (p n r : Nat) (x : α)
    (hx : x ∈ (mem.block p n).take r) : ∃ i, i < r ∧ i < n ∧ mem.cells (p + i) = x := by
  obtain ⟨i, hi, hxi⟩ := List.mem_iff_getElem.mp hx
  have hlen : i < r ∧ i < (mem.block p n).length := by
    simpa [List.length_take] using hi
  refine ⟨i, hlen.1, by simpa [block_length] using hlen.2, ?_⟩
  rw [← hxi]
  simp [VectorMemory.block]

theorem mem_drop_block {α : Type} (mem : VectorMemory α) (p n r : Nat) (x : α)
    (hx : x ∈ (mem.block p n).drop r) : ∃ i, r ≤ i ∧ i < n ∧ mem.cells (p + i) = x := by
  obtain ⟨i, hi, hxi⟩ := List.mem_iff_getElem.mp hx
  have hlen : r + i < n := by
    have := hi
    simp only [List.length_drop, block_length] at this
    omega
  refine ⟨r + i, by omega, hlen, ?_⟩
  rw [← hxi]
  simp [VectorMemory.block]

namespace SGVector

theorem find_position_loop_spec {α : Type} (gt : α → α → Bool) (this : SGVector)
    (a : Nat) (hp : this.vector = some a) (e : α) (mem : VectorMemory α) :
    ∀ k i, ∃ r, find_position_loop gt this e mem i k = some r ∧ i ≤ r ∧ r ≤ i + k ∧
      (∀ j, i ≤ j → j < r → gt (mem.cells (a + j)) e = false) ∧
      (r < i + k → gt (mem.cells (a + r)) e = true) := by
  intro k
  induction k with
  | zero =>
    intro i
    exact ⟨i, rfl, Nat.le_refl _, Nat.le_refl _, fun j h1 h2 => absurd h2 (by omega),
      fun h => absurd h (by omega)⟩
  | succ k ih =>
    intro i
    cases hgt : gt (mem.cells (a + i)) e with
    | true =>
      refine ⟨i, ?_, Nat.le_refl _, by omega, fun j h1 h2 => absurd h2 (by omega),
        fun _ => hgt⟩
      simp [find_position_loop, element, VectorMemory.read, hp, hgt]
    | false =>
      obtain ⟨r, hr, h1, h2, h3, h4⟩ := ih (i + 1)
      refine ⟨r, ?_, by omega, by omega, ?_, fun h => h4 (by omega)⟩
      · simp only [find_position_loop, element, VectorMemory.read, hp, Option.map_some',
          hgt, Bool.false_eq_true, if_false]
        exact hr
      · intro j hj1 hj2
        by_cases hji : j = i
        · rw [hji]
          exact hgt
        · exact h3 j (by omega) hj2

/-- C33 (counterexample): on the `float64_t` vector [NaN, 1.0]
`find_position_to_insert(0.5)` returns 1, the smallest index holding a greater
element, but the element before that index is NaN, and `NaN <= 0.5` is
false. -/
theorem find_position_skips_nan :
    find_position_to_insert FloatValue.gt nan_vector (.finite (1 / 2)) nan_cells = some 1 ∧
    nan_vector.element nan_cells 0 = some .nan ∧
    nan_vector.element nan_cells 1 = some (.finite 1) ∧
    FloatValue.gt .nan (.finite (1 / 2)) = false ∧
    FloatValue.gt (.finite 1) (.finite (1 / 2)) = true ∧
    FloatValue.le .nan (.finite (1 / 2)) = false := by
  refine ⟨?_, rfl, rfl, rfl, ?_, rfl⟩
  · simp [find_position_to_insert, find_position_loop, element, VectorMemory.read,
      nan_vector, nan_cells, FloatValue.gt]
    norm_num
  · simp [FloatValue.gt]
    norm_num

/-- C33 (amended): on a valid vector `find_position_to_insert(element)` returns
an index `r` with `0 <= r <= vlen` such that no element before `r` is
`> element` and, if `r < vlen`, the element at `r` is `> element`: the
smallest index holding a greater element, or `vlen` if there is none. For an
element type whose `>` is that of a linear order, every element before `r` is
`<= element`, and for a vector sorted in ascending order the elements with
`element` inserted at `r` are sorted. -/
theorem find_position_to_insert_is_insertion_point {α : Type} (gt : α → α → Bool)
    (v : SGVector) (mem : VectorMemory α) (e : α) (hv : v.valid mem) :
    ∃ r : Nat, find_position_to_insert gt v e mem = some (r : Int) ∧
      (r : Int) ≤ v.vlen ∧
      (∀ i, i < r → ∃ x, v.element mem i = some x ∧ gt x e = false) ∧
      ((r : Int) < v.vlen → ∃ x, v.element mem r = some x ∧ gt x e = true) ∧
      (∀ [LinearOrder α], (∀ x y : α, gt x y = decide (x > y)) →
        (∀ i, i < r → ∃ x, v.element mem i = some x ∧ x ≤ e) ∧
        ((v.to_list mem).Sorted (fun a b => a ≤ b) →
          ((v.to_list mem).take r ++ e :: (v.to_list mem).drop r).Sorted
            (fun a b => a ≤ b))) := by
  obtain ⟨hnonneg, hnull, -⟩ := hv
  cases hp : v.vector with
  | none =>
    have hz := hnull hp
    refine ⟨0, ?_, by omega, fun i hi => absurd hi (by omega), fun h => by omega, ?_⟩
    · simp [find_position_to_insert, find_position_loop, hz]
    · intro _ _
      refine ⟨fun i hi => absurd hi (by omega), fun _ => ?_⟩
      simp [to_list, hp]
  | some a =>
    obtain ⟨r, hr, -, h2, h3, h4⟩ :=
      find_position_loop_spec gt v a hp e mem v.vlen.toNat 0
    refine ⟨r, ?_, by omega, ?_, ?_, ?_⟩
    · simp [find_position_to_insert, hr]
    · intro i hi
      exact ⟨mem.cells (a + i), by simp [element, VectorMemory.read, hp],
        h3 i (Nat.zero_le _) hi⟩
    · intro hlt
      exact ⟨mem.cells (a + r), by simp [element, VectorMemory.read, hp],
        h4 (by omega)⟩
    · intro _ hgt
      have hle : ∀ j, j < r → mem.cells (a + j) ≤ e := by
        intro j hj
        have := h3 j (Nat.zero_le _) hj
        rw [hgt] at this
        exact not_lt.mp (of_decide_eq_false this)
      have hlt : r < 0 + v.vlen.toNat → e < mem.cells (a + r) := by
        intro hr1
        have := h4 hr1
        rw [hgt] at this
        exact of_decide_eq_true this
      refine ⟨fun i hi => ⟨mem.cells (a + i), by simp [element, VectorMemory.read, hp],
        hle i hi⟩, ?_⟩
      intro hs
      have hl : v.to_list mem = mem.block a v.vlen.toNat := by simp [to_list, hp]
      rw [hl] at hs ⊢
      apply sorted_insert_at _ _ _ hs
      · intro x hx
        obtain ⟨i, hi1, -, hi3⟩ := mem_take_block mem a _ r x hx
        rw [← hi3]
        exact hle i hi1
      · intro x hx
        obtain ⟨i, hi1, hi2, hi3⟩ := mem_drop_block mem a _ r x hx
        have hrlt : r < 0 + v.vlen.toNat := by omega
        have her := hlt hrlt
        rcases Nat.eq_or_lt_of_le hi1 with heq | hlt1
        · rw [← hi3, ← heq]
          exact le_of_lt her
        · have hpair := List.pairwise_iff_getElem.mp hs r i
            (by rw [block_length]; omega) (by rw [block_length]; omega) hlt1
          rw [block_getElem, block_getElem] at hpair
          rw [← hi3]
          exact le_trans (le_of_lt her) hpair

/-- Witness of `find_position_to_insert_is_insertion_point`: in the sorted
vector [1, 2, 3] of integers the element 2 goes to the index 2. -/
theorem find_position_to_insert_is_insertion_point_witness :
    example_vector.valid example_cells ∧
    find_position_to_insert (fun x y : Int => decide (x > y)) example_vector 2
      example_cells = some 2 ∧
    ∃ r : Nat,
      find_position_to_insert (fun x y : Int => decide (x > y)) example_vector 2
        example_cells = some (r : Int) ∧
      (r : Int) ≤ example_vector.vlen ∧
      (∀ i, i < r → ∃ x, example_vector.element example_cells i = some x ∧ x ≤ 2) ∧
      ((r : Int) < example_vector.vlen →
        ∃ x, example_vector.element example_cells r = some x ∧ 2 < x) ∧
      ((example_vector.to_list example_cells).Sorted (fun a b => a ≤ b) →
        ((example_vector.to_list example_cells).take r ++
          2 :: (example_vector.to_list example_cells).drop r).Sorted
          (fun a b => a ≤ b)) :=
  have hv : example_vector.valid example_cells :=
    ⟨by decide, fun h => by simp [example_vector] at h,
     fun a h => by
      simp only [example_vector, Option.some.injEq] at h
      subst h
      decide⟩
  match find_position_to_insert_is_insertion_point (fun x y : Int => decide (x > y))
      example_vector example_cells 2 hv with
  | ⟨r, h1, h2, _, h4, h5⟩ =>
    ⟨hv, by decide, r, h1, h2, (h5 (fun _ _ => rfl)).1,
     fun hlt => (h4 hlt).imp (fun _ hx => ⟨hx.1, of_decide_eq_true hx.2⟩),
     (h5 (fun _ _ => rfl)).2⟩

end SGVector

namespace SGVector

/-- C38: after `resize_vector(n)` with `n >= 0` on a valid vector of length
`m`, the length is `n`, the elements at the indices below `min(m, n)` are
those the vector had, and when `n > m` the elements at the indices `m` to
`n - 1` are zero. -/
theorem resize_vector_keeps_and_zero_fills {α : Type} [Zero α] (v : SGVector)
    (mem : VectorMemory α) (n : Int) (hv : v.valid mem) (hn : 0 ≤ n) :
    (resize_vector v n mem).1.vlen = n ∧
    (∀ i : Nat, (i : Int) < min v.vlen n →
      (resize_vector v n mem).1.element (resize_vector v n mem).2 i = v.element mem i) ∧
    (n > v.vlen → ∀ i : Nat, v.vlen ≤ (i : Int) → (i : Int) < n →
      (resize_vector v n mem).1.element (resize_vector v n mem).2 i = some 0) := by
  obtain ⟨hnonneg, hnull, halloc⟩ := hv
  refine ⟨rfl, ?_, ?_⟩
  · intro i hi
    have hi1 : (i : Int) < v.vlen := lt_of_lt_of_le hi (min_le_left _ _)
    have hi2 : (i : Int) < n := lt_of_lt_of_le hi (min_le_right _ _)
    have hn0 : ¬ (n.toNat = 0) := by omega
    cases hp : v.vector with
    | none =>
      have := hnull hp
      omega
    | some src =>
      have hrange : mem.brk ≤ mem.brk + i ∧
          mem.brk + i < mem.brk + min v.vlen.toNat n.toNat := by
        constructor
        · omega
        · have : i < min v.vlen.toNat n.toNat := by
            rw [lt_min_iff]
            omega
          omega
      by_cases hgt : n > v.vlen
      · have hnot : ¬ (mem.brk + v.vlen.toNat ≤ mem.brk + i ∧
            mem.brk + i < mem.brk + v.vlen.toNat + (n - v.vlen).toNat) := by omega
        simp only [resize_vector, VectorMemory.SG_REALLOC, hn0, if_false, hp, hgt, if_true,
          VectorMemory.memset_zero, element, VectorMemory.read, Option.map_some', hnot,
          hrange, and_self, Nat.add_sub_cancel_left]
      · simp only [resize_vector, VectorMemory.SG_REALLOC, hn0, if_false, hp, hgt,
          element, VectorMemory.read, Option.map_some', hrange, and_self, if_true,
          Nat.add_sub_cancel_left]
  · intro hgt i hi1 hi2
    have hn0 : ¬ (n.toNat = 0) := by omega
    have hin : mem.brk + v.vlen.toNat ≤ mem.brk + i ∧
        mem.brk + i < mem.brk + v.vlen.toNat + (n - v.vlen).toNat := by omega
    simp only [resize_vector, VectorMemory.SG_REALLOC, hn0, if_false, hgt, if_true,
      VectorMemory.memset_zero, element, VectorMemory.read, Option.map_some', hin,
      and_self]

/-- Witness of `resize_vector_keeps_and_zero_fills`: the vector [1, 2, 3]
resized to five elements. -/
theorem resize_vector_keeps_and_zero_fills_witness :
    example_vector.valid example_cells ∧ (0 : Int) ≤ 5 ∧
    (resize_vector example_vector 5 example_cells).1.to_list
        (resize_vector example_vector 5 example_cells).2 = [1, 2, 3, 0, 0] ∧
    (resize_vector example_vector 5 example_cells).1.vlen = 5 ∧
    (∀ i : Nat, (i : Int) < min example_vector.vlen 5 →
      (resize_vector example_vector 5 example_cells).1.element
        (resize_vector example_vector 5 example_cells).2 i
        = example_vector.element example_cells i) ∧
    ((5 : Int) > example_vector.vlen → ∀ i : Nat, example_vector.vlen ≤ (i : Int) →
      (i : Int) < 5 →
      (resize_vector example_vector 5 example_cells).1.element
        (resize_vector example_vector 5 example_cells).2 i = some 0) :=
  have hv : example_vector.valid example_cells :=
    ⟨by decide, fun h => by simp [example_vector] at h,
     fun a h => by
      simp only [example_vector, Option.some.injEq] at h
      subst h
      decide⟩
  ⟨hv, by decide, by decide,
   resize_vector_keeps_and_zero_fills example_vector example_cells 5 hv (by decide)⟩

end SGVector

namespace SGVector

/-- C37 (the code at the failing input): on the vector [1, 2, 3] the call
`slice(2, 1)` passes the check `l >= 0 && h <= vlen` and returns a view of
length -1, and `slice(5, 3)` passes it and returns a view of length -2 that
starts two elements behind the end of the vector. For the accepted pairs with
`l <= h` the view is not owning, has the length `h - l` and its element `i` is
the element `l + i` of the source. -/
theorem slice_accepts_reversed_bounds :
    slice example_vector 2 1 = .ok { m_refcount := none, vector := some 2, vlen := -1 } ∧
    slice example_vector 5 3 = .ok { m_refcount := none, vector := some 5, vlen := -2 } ∧
    (∀ (v : SGVector) (l h : Int), 0 ≤ l → l ≤ h → h ≤ v.vlen →
      ∃ s, slice v l h = .ok s ∧ s.vlen = h - l ∧ 0 ≤ s.vlen ∧ s.m_refcount = none ∧
        ∀ (mem : VectorMemory Int) (i : Nat), (i : Int) < h - l →
          s.element mem i = v.element mem (l.toNat + i) ∧ (l.toNat + i : Int) < v.vlen) := by
  refine ⟨rfl, rfl, ?_⟩
  intro v l h hl hlh hh
  have hcond : ¬ ¬ (l ≥ 0 ∧ h ≤ v.vlen) := not_not.mpr ⟨hl, hh⟩
  refine ⟨from_offset v.vector (h - l) l, ?_, rfl, by simp [from_offset]; omega, rfl, ?_⟩
  · simp only [slice, hcond, if_false]
  · intro mem i hi
    refine ⟨?_, by omega⟩
    cases hp : v.vector with
    | none => simp [from_offset, element, VectorMemory.read, hp]
    | some a =>
      have hcast : ((a : Int) + l).toNat = a + l.toNat := by omega
      simp [from_offset, element, VectorMemory.read, hp, hcast, Nat.add_assoc]

/-- C36 (the code at the failing input): the vector [1, 2, 3] lies at the
addresses 3 to 5, behind the vector [10, 20, 30]. `add` of the sparse vector
with the single entry (feat_index = -1, entry = 5) passes `REQUIRE(idx <
vlen)`, returns normally and adds 5 to the element at the address 2, which is
the last element of the other vector. An entry with `feat_index >= vlen` makes
the call fail without a write. -/
theorem add_sparse_writes_before_the_vector :
    (add_sparse int32_t.add second_vector
      { features := some [{ feat_index := -1, entry := 5 }], num_feat_entries := 1 }
      two_vector_cells).1 = .ok () ∧
    first_vector.to_list two_vector_cells = [10, 20, 30] ∧
    first_vector.to_list
      (add_sparse int32_t.add second_vector
        { features := some [{ feat_index := -1, entry := 5 }], num_feat_entries := 1 }
        two_vector_cells).2 = [10, 20, 35] ∧
    second_vector.to_list
      (add_sparse int32_t.add second_vector
        { features := some [{ feat_index := -1, entry := 5 }], num_feat_entries := 1 }
        two_vector_cells).2 = [1, 2, 3] ∧
    (∀ (plus : Int → Int → Int) (this : SGVector) (e : SGSparseVectorEntry Int)
        (rest : List (SGSparseVectorEntry Int)) (mem : VectorMemory Int),
      this.vlen ≤ e.feat_index →
      add_sparse_loop plus this (e :: rest) mem
        = (.error (.requirement_failed this.vlen), mem)) := by
  refine ⟨rfl, by decide, by decide, by decide, ?_⟩
  intro plus this e rest mem hge
  have hnot : ¬ (e.feat_index < this.vlen) := by omega
  simp [add_sparse_loop, hnot]

end SGVector

namespace SGVector

end SGVector

namespace SGVector

end SGVector

theorem mem_destutter_ne_aux {α : Type} [DecidableEq α] (l : List α) :
    ∀ (a x : α), x ∈ a :: l → x ∈ l.destutter' (fun a b => a ≠ b) a := by
  induction l with
  | nil =>
    intro a x hx
    simpa using hx
  | cons b rest ih =>
    intro a x hx
    by_cases hab : a ≠ b
    · rw [List.destutter'_cons_pos _ hab]
      rcases List.mem_cons.mp hx with h | h
      · rw [h]
        exact List.mem_cons_self _ _
      · exact List.mem_cons_of_mem _ (ih b x h)
    · rw [List.destutter'_cons_neg _ hab]
      have hba : b = a := (not_not.mp hab).symm
      apply ih a x
      rcases List.mem_cons.mp hx with h | h
      · rw [h]
        exact List.mem_cons_self _ _
      · rcases List.mem_cons.mp h with h1 | h1
        · rw [h1, hba]
          exact List.mem_cons_self _ _
        · exact List.mem_cons_of_mem _ h1

theorem mem_sorted_unique {α : Type} [LinearOrder α] (l : List α) (x : α) :
    x ∈ SGVector.sorted_unique l ↔ x ∈ l := by
  unfold SGVector.sorted_unique
  constructor
  · intro hx
    exact (List.perm_insertionSort _ l).subset ((List.destutter_sublist _ _).subset hx)
  · intro hx
    have hs : x ∈ l.insertionSort (fun a b => a ≤ b) :=
      (List.perm_insertionSort _ l).symm.subset hx
    cases hsl : l.insertionSort (fun a b => a ≤ b) with
    | nil =>
      rw [hsl] at hs
      simp at hs
    | cons a rest =>
      rw [hsl] at hs
      rw [List.destutter_cons']
      exact mem_destutter_ne_aux rest a x hs

theorem chain_lt_of_le_of_ne {α : Type} [LinearOrder α] (l : List α)
    (hle : l.Chain' (fun a b => a ≤ b)) (hne : l.Chain' (fun a b => a ≠ b)) :
    l.Chain' (fun a b => a < b) := by
  induction l with
  | nil => exact List.chain'_nil
  | cons x rest ih =>
    cases rest with
    | nil => exact List.chain'_singleton x
    | cons y tail =>
      rw [List.chain'_cons] at hle hne ⊢
      exact ⟨lt_of_le_of_ne hle.1 hne.1, ih hle.2 hne.2⟩

theorem sorted_unique_sorted {α : Type} [LinearOrder α] (l : List α) :
    (SGVector.sorted_unique l).Sorted (fun a b => a < b) := by
  unfold SGVector.sorted_unique
  have hs : (l.insertionSort (fun a b => a ≤ b)).Sorted (fun a b => a ≤ b) :=
    List.sorted_insertionSort _ l
  have hle : ((l.insertionSort (fun a b => a ≤ b)).destutter (fun a b => a ≠ b)).Pairwise
      (fun a b => a ≤ b) := List.Pairwise.sublist (List.destutter_sublist _ _) hs
  have hne : ((l.insertionSort (fun a b => a ≤ b)).destutter (fun a b => a ≠ b)).Chain'
      (fun a b => a ≠ b) := List.destutter_is_chain' _ _
  have hlt : ((l.insertionSort (fun a b => a ≤ b)).destutter (fun a b => a ≠ b)).Chain'
      (fun a b => a < b) := by
    have hle2 := (List.chain'_iff_pairwise (R := fun (a b : α) => a ≤ b)).mpr hle
    exact chain_lt_of_le_of_ne _ hle2 hne
  exact (List.chain'_iff_pairwise (R := fun (a b : α) => a < b)).mp hlt

theorem sorted_unique_length {α : Type} [LinearOrder α] (l : List α) :
    (SGVector.sorted_unique l).length = l.toFinset.card := by
  have hnodup : (SGVector.sorted_unique l).Nodup :=
    (sorted_unique_sorted l).imp (fun h => ne_of_lt h)
  rw [← List.toFinset_card_of_nodup hnodup]
  congr 1
  ext x
  simp [mem_sorted_unique]

theorem sorted_unique_length_le {α : Type} [LinearOrder α] (l : List α) :
    (SGVector.sorted_unique l).length ≤ l.length := by
  unfold SGVector.sorted_unique
  have := (List.destutter_sublist (fun (a b : α) => a ≠ b)
    (l.insertionSort (fun a b => a ≤ b))).length_le
  rw [List.length_insertionSort] at this
  exact this

theorem write_block_inside {α : Type} (mem : VectorMemory α) (p : Nat) (l : List α)
    (j : Nat) (hj : j < l.length) : (mem.write_block p l).cells (p + j) = l[j] := by
  have hin : p ≤ p + j ∧ p + j < p + l.length := by omega
  simp [VectorMemory.write_block, hin, List.getElem?_eq_getElem hj]

theorem write_block_outside {α : Type} (mem : VectorMemory α) (p : Nat) (l : List α)
    (c : Nat) (hc : c < p ∨ p + l.length ≤ c) : (mem.write_block p l).cells c = mem.cells c := by
  have hout : ¬ (p ≤ c ∧ c < p + l.length) := by omega
  simp [VectorMemory.write_block, hout]

namespace SGVector

theorem clone_of_empty {α : Type} (v : SGVector) (mem : VectorMemory α) (h : DataHeap)
    (he : v.vector = none ∨ v.vlen = 0) :
    clone v mem h
      = (.ok (from_pointer none v.vlen true h).1, mem, (from_pointer none v.vlen true h).2) := by
  cases hp : v.vector with
  | none => simp [clone, clone_vector, hp]
  | some src =>
    rcases he with he | he
    · rw [hp] at he
      simp at he
    · simp [clone, clone_vector, hp, he]

theorem clone_of_nonempty {α : Type} (v : SGVector) (mem : VectorMemory α) (h : DataHeap)
    (src : Nat) (hp : v.vector = some src) (hpos : 0 < v.vlen) :
    clone v mem h
      = (.ok (from_pointer (some mem.brk) v.vlen true h).1,
         (clone_vector (some src) v.vlen mem).2,
         (from_pointer (some mem.brk) v.vlen true h).2) := by
  obtain ⟨c1, -, -, -⟩ := clone_vector_copies src v.vlen mem hpos
  have hcv : clone_vector (some src) v.vlen mem
      = (.ok (some mem.brk), (clone_vector (some src) v.vlen mem).2) := by
    rw [← c1]
  simp only [clone, hp]
  rw [hcv]

theorem resize_vector_shrink {α : Type} [Zero α] (c : SGVector) (p : Nat)
    (hc : c.vector = some p) (mem : VectorMemory α) (u : List α)
    (hk : (u.length : Int) ≤ c.vlen) (hk0 : 0 < u.length)
    (hcells : ∀ j (hj : j < u.length), mem.cells (p + j) = u[j]) :
    (resize_vector c (u.length : Int) mem).1.to_list (resize_vector c (u.length : Int) mem).2
      = u ∧
    (∀ x, x < mem.brk → (resize_vector c (u.length : Int) mem).2.cells x = mem.cells x) ∧
    (resize_vector c (u.length : Int) mem).1.vlen = (u.length : Int) := by
  have hn0 : ¬ (((u.length : Nat) : Int).toNat = 0) := by omega
  have hgt : ¬ ((u.length : Int) > c.vlen) := by omega
  refine ⟨?_, ?_, rfl⟩
  · simp only [resize_vector, VectorMemory.SG_REALLOC, hn0, if_false, hgt, to_list, hc]
    apply List.ext_getElem
    · simp [VectorMemory.block]
    · intro j hj1 hj2
      have hin : mem.brk ≤ mem.brk + j ∧
          mem.brk + j < mem.brk + min c.vlen.toNat ((u.length : Nat) : Int).toNat := by
        constructor
        · omega
        · have : j < min c.vlen.toNat ((u.length : Nat) : Int).toNat := by
            rw [lt_min_iff]
            omega
          omega
      simp only [VectorMemory.block, List.getElem_map, List.getElem_range, hin, and_self,
        if_true, Nat.add_sub_cancel_left]
      exact hcells j hj2
  · intro x hx
    have hout : ¬ (mem.brk ≤ x ∧
        x < mem.brk + min c.vlen.toNat ((u.length : Nat) : Int).toNat) := by omega
    simp only [resize_vector, VectorMemory.SG_REALLOC, hn0, if_false, hgt, hc, hout]

end SGVector

namespace SGVector

theorem unique_buffer_spec {α : Type} [LinearOrder α] (p : Nat) (size : Int)
    (mem : VectorMemory α) :
    (unique_buffer (some p) size mem).1
      = ((sorted_unique (mem.block p size.toNat)).length : Nat) ∧
    (∀ j (hj : j < (sorted_unique (mem.block p size.toNat)).length),
      (unique_buffer (some p) size mem).2.cells (p + j)
        = (sorted_unique (mem.block p size.toNat))[j]) ∧
    (∀ c, c < p → (unique_buffer (some p) size mem).2.cells c = mem.cells c) ∧
    (unique_buffer (some p) size mem).2.brk = mem.brk := by
  refine ⟨rfl, ?_, ?_, rfl⟩
  · intro j hj
    simp only [unique_buffer]
    exact write_block_inside _ p _ j hj
  · intro c hc
    simp only [unique_buffer]
    rw [write_block_outside _ p _ c (Or.inl hc), write_block_outside _ p _ c (Or.inl hc)]

/-- C34: `unique()` on a valid vector returns a new vector whose elements are
strictly increasing and are exactly the values that occur in the source; its
length is the number of distinct values of the source, which is the value
`unique(buffer, size)` returned on the clone, and the elements of the source
are as before. On any buffer `unique(buffer, size)` returns the number of
distinct values of the buffer. -/
theorem unique_is_the_sorted_set {α : Type} [LinearOrder α] [Zero α] (v : SGVector)
    (mem : VectorMemory α) (h : DataHeap) (hv : v.valid mem) :
    ∃ (r : SGVector) (mem1 : VectorMemory α) (h1 : DataHeap),
      unique v mem h = (.ok r, mem1, h1) ∧
      (r.to_list mem1).Sorted (fun a b => a < b) ∧
      (∀ x, x ∈ r.to_list mem1 ↔ x ∈ v.to_list mem) ∧
      r.vlen = ((v.to_list mem).toFinset.card : Nat) ∧
      (r.to_list mem1).length = (v.to_list mem).toFinset.card ∧
      v.to_list mem1 = v.to_list mem ∧
      (∀ (p : Nat) (size : Int) (m : VectorMemory α),
        (unique_buffer (some p) size m).1 = ((m.block p size.toNat).toFinset.card : Nat)) := by
  have hbuf : ∀ (p : Nat) (size : Int) (m : VectorMemory α),
      (unique_buffer (some p) size m).1 = ((m.block p size.toNat).toFinset.card : Nat) := by
    intro p size m
    rw [(unique_buffer_spec p size m).1, sorted_unique_length]
  obtain ⟨hnonneg, hnull, halloc⟩ := hv
  by_cases he : v.vector = none ∨ v.vlen = 0
  · have hclone := clone_of_empty v mem h he
    have hlist : v.to_list mem = [] := by
      rcases he with he | he
      · simp [to_list, he]
      · cases hp : v.vector <;> simp [to_list, hp, he, VectorMemory.block]
    have hres : unique v mem h
        = (.ok { (from_pointer none v.vlen true h).1 with vector := none, vlen := 0 }, mem,
           (from_pointer none v.vlen true h).2) := by
      simp only [unique, hclone]
      have hz : ¬ ((0 : Int) > v.vlen) := by omega
      simp [unique_buffer, from_pointer, resize_vector, VectorMemory.SG_REALLOC, hz]
    refine ⟨_, _, _, hres, ?_, ?_, ?_, ?_, hlist.symm ▸ hlist, hbuf⟩
    · simp [to_list]
    · intro x
      rw [hlist]
      simp [to_list]
    · rw [hlist]
      simp
    · rw [hlist]
      simp [to_list]
  · have hsome : ∃ src, v.vector = some src := by
      cases hp : v.vector with
      | none => exact absurd (Or.inl hp) he
      | some src => exact ⟨src, rfl⟩
    obtain ⟨src, hp⟩ := hsome
    have hpos : 0 < v.vlen := by
      have : v.vlen ≠ 0 := fun hz => he (Or.inr hz)
      omega
    have hal := halloc src hp
    obtain ⟨-, c2, c3, c4⟩ := clone_vector_copies src v.vlen mem hpos
    have hclone := clone_of_nonempty v mem h src hp hpos
    have hblock : (clone_vector (some src) v.vlen mem).2.block mem.brk v.vlen.toNat
        = mem.block src v.vlen.toNat := by
      apply List.ext_getElem
      · simp [VectorMemory.block]
      · intro j hj1 hj2
        have hj : j < v.vlen.toNat := by simpa [VectorMemory.block] using hj1
        simp only [VectorMemory.block, List.getElem_map, List.getElem_range]
        exact c2 j hj
    have hlist : v.to_list mem = mem.block src v.vlen.toNat := by simp [to_list, hp]
    obtain ⟨b1, b2, b3, b4⟩ :=
      unique_buffer_spec mem.brk v.vlen (clone_vector (some src) v.vlen mem).2
    rw [hblock] at b1 b2
    have hne : 0 < (sorted_unique (mem.block src v.vlen.toNat)).length := by
      rw [sorted_unique_length, Finset.card_pos]
      refine ⟨mem.cells (src + 0), ?_⟩
      rw [List.mem_toFinset, mem_block]
      exact ⟨0, by omega, rfl⟩
    have hle : ((sorted_unique (mem.block src v.vlen.toNat)).length : Int) ≤ v.vlen := by
      have := sorted_unique_length_le (mem.block src v.vlen.toNat)
      rw [block_length] at this
      omega
    obtain ⟨r1, r2, r3⟩ := resize_vector_shrink
      (from_pointer (some mem.brk) v.vlen true h).1 mem.brk rfl
      (unique_buffer (some mem.brk) v.vlen (clone_vector (some src) v.vlen mem).2).2
      (sorted_unique (mem.block src v.vlen.toNat)) hle hne b2
    have hres : unique v mem h
        = (.ok (resize_vector (from_pointer (some mem.brk) v.vlen true h).1
              ((sorted_unique (mem.block src v.vlen.toNat)).length : Int)
              (unique_buffer (some mem.brk) v.vlen
                (clone_vector (some src) v.vlen mem).2).2).1,
           (resize_vector (from_pointer (some mem.brk) v.vlen true h).1
              ((sorted_unique (mem.block src v.vlen.toNat)).length : Int)
              (unique_buffer (some mem.brk) v.vlen
                (clone_vector (some src) v.vlen mem).2).2).2,
           (from_pointer (some mem.brk) v.vlen true h).2) := by
      simp only [unique, hclone]
      have hvec : (from_pointer (some mem.brk) v.vlen true h).1.vector = some mem.brk := rfl
      have hlen : (from_pointer (some mem.brk) v.vlen true h).1.vlen = v.vlen := rfl
      rw [hvec, hlen, b1]
    refine ⟨_, _, _, hres, ?_, ?_, ?_, ?_, ?_, hbuf⟩
    · rw [r1]
      exact sorted_unique_sorted _
    · intro x
      rw [r1, hlist]
      exact mem_sorted_unique _ x
    · rw [r3, hlist, sorted_unique_length]
    · rw [r1, hlist, sorted_unique_length]
    · have htl : ∀ m : VectorMemory α, v.to_list m = m.block src v.vlen.toNat :=
        fun m => by simp [to_list, hp]
      rw [htl, htl]
      apply List.ext_getElem
      · simp [VectorMemory.block]
      · intro j hj1 hj2
        have hj : j < v.vlen.toNat := by simpa [VectorMemory.block] using hj2
        rw [block_getElem, block_getElem, r2 (src + j) (by rw [b4, c4]; omega),
          b3 (src + j) (by omega), c3 (src + j) (by omega)]

/-- Witness of `unique_is_the_sorted_set`: `unique()` of the vector
[10, 20, 30] of `two_vector_cells`. -/
theorem unique_is_the_sorted_set_witness :
    first_vector.valid two_vector_cells ∧
    ∃ (r : SGVector) (mem1 : VectorMemory Int) (h1 : DataHeap),
      unique first_vector two_vector_cells empty_heap = (.ok r, mem1, h1) ∧
      (r.to_list mem1).Sorted (fun a b => a < b) ∧
      (∀ x, x ∈ r.to_list mem1 ↔ x ∈ first_vector.to_list two_vector_cells) ∧
      r.vlen = ((first_vector.to_list two_vector_cells).toFinset.card : Nat) ∧
      (r.to_list mem1).length = (first_vector.to_list two_vector_cells).toFinset.card ∧
      first_vector.to_list mem1 = first_vector.to_list two_vector_cells ∧
      (∀ (p : Nat) (size : Int) (m : VectorMemory Int),
        (unique_buffer (some p) size m).1 = ((m.block p size.toNat).toFinset.card : Nat)) :=
  have hv : first_vector.valid two_vector_cells :=
    ⟨by decide, fun h => by simp [first_vector] at h,
     fun a h => by
      simp only [first_vector, Option.some.injEq] at h
      subst h
      decide⟩
  ⟨hv, unique_is_the_sorted_set first_vector two_vector_cells empty_heap hv⟩

end SGVector

namespace SGVector

theorem copies_foldl_spec {α : Type} (b v : Nat) (W : List (Nat × Nat)) :
    ∀ (m : VectorMemory α), (∀ c ∈ W, v + c.2 < b) →
      (∀ x, x < b →
        (W.foldl (fun m c => m.write (some b) c.1 (m.cells (v + c.2))) m).cells x
          = m.cells x) ∧
      (∀ x, (∀ c ∈ W, b + c.1 ≠ x) →
        (W.foldl (fun m c => m.write (some b) c.1 (m.cells (v + c.2))) m).cells x
          = m.cells x) ∧
      ((∀ c ∈ W, ∀ c1 ∈ W, c.1 = c1.1 → c.2 = c1.2) →
        ∀ c ∈ W,
          (W.foldl (fun m c => m.write (some b) c.1 (m.cells (v + c.2))) m).cells (b + c.1)
            = m.cells (v + c.2)) ∧
      (W.foldl (fun m c => m.write (some b) c.1 (m.cells (v + c.2))) m).brk = m.brk := by
  induction W with
  | nil =>
    intro m _
    exact ⟨fun _ _ => rfl, fun _ _ => rfl, fun _ c hc => absurd hc (List.not_mem_nil c), rfl⟩
  | cons c0 rest ih =>
    intro m hread
    have hrest : ∀ c ∈ rest, v + c.2 < b := fun c hc => hread c (List.mem_cons_of_mem _ hc)
    obtain ⟨i1, i2, i3, i4⟩ := ih (m.write (some b) c0.1 (m.cells (v + c0.2))) hrest
    have hwrite : ∀ x, x ≠ b + c0.1 →
        (m.write (some b) c0.1 (m.cells (v + c0.2))).cells x = m.cells x := by
      intro x hx
      simp [VectorMemory.write, hx]
    simp only [List.foldl_cons]
    refine ⟨?_, ?_, ?_, ?_⟩
    · intro x hx
      rw [i1 x hx, hwrite x (by omega)]
    · intro x hx
      rw [i2 x (fun c hc => hx c (List.mem_cons_of_mem _ hc)),
        hwrite x (fun h => hx c0 (List.mem_cons_self _ _) h.symm)]
    · intro hfun c hc
      have hfun_rest : ∀ c ∈ rest, ∀ c1 ∈ rest, c.1 = c1.1 → c.2 = c1.2 :=
        fun c hc c1 hc1 => hfun c (List.mem_cons_of_mem _ hc) c1 (List.mem_cons_of_mem _ hc1)
      have hlater : ∀ c1 ∈ rest,
          (rest.foldl (fun m c => m.write (some b) c.1 (m.cells (v + c.2)))
            (m.write (some b) c0.1 (m.cells (v + c0.2)))).cells (b + c1.1)
            = m.cells (v + c1.2) := by
        intro c1 hc1
        rw [i3 hfun_rest c1 hc1, hwrite _ (by have := hrest c1 hc1; omega)]
      rcases List.mem_cons.mp hc with heq | hin
      · by_cases hex : ∃ c1 ∈ rest, c1.1 = c.1
        · obtain ⟨c1, hc1, h11⟩ := hex
          have h2 : c1.2 = c.2 :=
            hfun c1 (List.mem_cons_of_mem _ hc1) c hc h11
          rw [← h11, hlater c1 hc1, h2]
        · have hno : ∀ c1 ∈ rest, b + c1.1 ≠ b + c.1 := by
            intro c1 hc1 h
            exact hex ⟨c1, hc1, by omega⟩
          rw [i2 _ hno, heq]
          simp [VectorMemory.write]
      · exact hlater c hin
    · rw [i4]
      simp [VectorMemory.write]

end SGVector

theorem index_bound (i j R C : Nat) (hi : i < R) (hj : j < C) : i + j * R < C * R := by
  have h := Nat.mul_le_mul_right R (Nat.succ_le_of_lt hj)
  rw [Nat.succ_mul] at h
  omega

theorem int32_wrap_of_fits (x : Int) (h0 : 0 ≤ x) (h1 : x ≤ 2147483647) :
    int32_t.wrap x = x := by
  have hpow1 : (2 : Int) ^ (32 - 1) = 2147483648 := by norm_num
  have hpow2 : (2 : Int) ^ 32 = 4294967296 := by norm_num
  simp only [IntegerType.wrap, int32_t, if_true, hpow1, hpow2]
  rw [Int.emod_eq_of_lt (by omega) (by omega)]
  omega

theorem index_mul_of_fits (a b : Nat) (h : a * b ≤ 2147483647) :
    index_mul (a : Int) (b : Int) = ((a * b : Nat) : Int) := by
  unfold index_mul
  rw [← Nat.cast_mul]
  exact int32_wrap_of_fits _ (Int.ofNat_nonneg _) (by omega)

theorem index_add_of_fits (a b : Nat) (h : a + b ≤ 2147483647) :
    index_add (a : Int) (b : Int) = ((a + b : Nat) : Int) := by
  unfold index_add
  rw [← Nat.cast_add]
  exact int32_wrap_of_fits _ (Int.ofNat_nonneg _) (by omega)

theorem index_of_fits (i j R C : Nat) (hi : i < R) (hj : j < C)
    (hfit : C * R ≤ 2147483647) :
    index_add (i : Int) (index_mul (j : Int) (R : Int)) = ((i + j * R : Nat) : Int) := by
  have hb := index_bound i j R C hi hj
  rw [index_mul_of_fits j R (by omega), index_add_of_fits i (j * R) (by omega)]

theorem foldl_congr_mem {σ β : Type} (f g : σ → β → σ) (l : List β) :
    ∀ (s : σ), (∀ s, ∀ b ∈ l, f s b = g s b) → l.foldl f s = l.foldl g s := by
  induction l with
  | nil =>
    intro s _
    rfl
  | cons b rest ih =>
    intro s h
    simp only [List.foldl_cons]
    rw [h s b (List.mem_cons_self _ _)]
    exact ih _ (fun s b hb => h s b (List.mem_cons_of_mem _ hb))

namespace SGVector

theorem mem_convert_copies (R C : Nat) (fortran_order : Bool) (hfit : R * C ≤ 2147483647)
    (c : Int × Int) :
    c ∈ convert_copies (R : Int) (C : Int) fortran_order ↔
      ∃ i j, i < R ∧ j < C ∧ c.1 = ((i + j * R : Nat) : Int) ∧
        c.2 = ((if fortran_order then j * R + i else i * C + j : Nat) : Int) := by
  have hfit1 : C * R ≤ 2147483647 := by rw [Nat.mul_comm]; exact hfit
  cases fortran_order with
  | true =>
    have hb : (index_mul (C : Int) (R : Int)).toNat = C * R := by
      rw [index_mul_of_fits C R hfit1]
      exact Int.toNat_ofNat _
    have hlist : convert_copies (R : Int) (C : Int) true
        = (List.range (C * R)).map (fun (i : Nat) => ((i : Int), (i : Int))) := by
      simp only [convert_copies, if_true, hb]
    rw [hlist, List.mem_map]
    constructor
    · rintro ⟨d, hd, rfl⟩
      rw [List.mem_range] at hd
      have hR : 0 < R := by
        rcases Nat.eq_zero_or_pos R with h | h
        · rw [h] at hd
          simp at hd
        · exact h
      refine ⟨d % R, d / R, Nat.mod_lt _ hR, ?_, ?_, ?_⟩
      · exact Nat.div_lt_of_lt_mul (by rw [Nat.mul_comm]; exact hd)
      · show (d : Int) = ((d % R + d / R * R : Nat) : Int)
        rw [Nat.mul_comm, Nat.mod_add_div]
      · show (d : Int) = ((d / R * R + d % R : Nat) : Int)
        rw [Nat.mul_comm, Nat.div_add_mod]
    · rintro ⟨i, j, hi, hj, h1, h2⟩
      refine ⟨i + j * R, List.mem_range.mpr (index_bound i j R C hi hj), ?_⟩
      apply Prod.ext
      · exact h1.symm
      · show ((i + j * R : Nat) : Int) = c.2
        rw [h2, if_pos rfl, Nat.add_comm]
  | false =>
    have hlist : convert_copies (R : Int) (C : Int) false
        = (List.range R).flatMap (fun (i : Nat) =>
            (List.range C).map (fun (j : Nat) =>
              (index_add (i : Int) (index_mul (j : Int) (R : Int)),
               index_add (j : Int) (index_mul (i : Int) (C : Int))))) := by
      simp [convert_copies]
    rw [hlist, List.mem_flatMap]
    constructor
    · rintro ⟨i, hi, hc⟩
      rw [List.mem_map] at hc
      obtain ⟨j, hj, rfl⟩ := hc
      rw [List.mem_range] at hi hj
      refine ⟨i, j, hi, hj, index_of_fits i j R C hi hj hfit1, ?_⟩
      show index_add (j : Int) (index_mul (i : Int) (C : Int)) = _
      rw [index_of_fits j i C R hj hi hfit, if_neg (by simp), Nat.add_comm]
    · rintro ⟨i, j, hi, hj, h1, h2⟩
      refine ⟨i, List.mem_range.mpr hi, ?_⟩
      rw [List.mem_map]
      refine ⟨j, List.mem_range.mpr hj, ?_⟩
      apply Prod.ext
      · show index_add (i : Int) (index_mul (j : Int) (R : Int)) = c.1
        rw [h1]
        exact index_of_fits i j R C hi hj hfit1
      · show index_add (j : Int) (index_mul (i : Int) (C : Int)) = c.2
        rw [h2, index_of_fits j i C R hj hi hfit, if_neg (by simp), Nat.add_comm]

theorem convert_copies_functional (R C : Nat) (fortran_order : Bool)
    (hfit : R * C ≤ 2147483647) (c c1 : Int × Int)
    (hc : c ∈ convert_copies (R : Int) (C : Int) fortran_order)
    (hc1 : c1 ∈ convert_copies (R : Int) (C : Int) fortran_order) (h : c.1 = c1.1) :
    c.2 = c1.2 := by
  obtain ⟨i, j, hi, hj, h1, h2⟩ := (mem_convert_copies R C fortran_order hfit c).mp hc
  obtain ⟨i1, j1, hi1, hj1, h3, h4⟩ := (mem_convert_copies R C fortran_order hfit c1).mp hc1
  have heq : i + j * R = i1 + j1 * R := by
    have : ((i + j * R : Nat) : Int) = ((i1 + j1 * R : Nat) : Int) := by
      rw [← h1, ← h3, h]
    exact Int.ofNat_inj.mp this
  have hmod : i = i1 := by
    have := congrArg (fun x => x % R) heq
    simp only [Nat.add_mul_mod_self_right] at this
    rwa [Nat.mod_eq_of_lt hi, Nat.mod_eq_of_lt hi1] at this
  have hdiv : j = j1 := by
    have hR : 0 < R := by omega
    have := congrArg (fun x => x / R) heq
    simp only [Nat.add_mul_div_right _ _ hR, Nat.div_eq_of_lt hi, Nat.div_eq_of_lt hi1,
      Nat.zero_add] at this
    exact this
  rw [h2, h4, hmod, hdiv]

end SGVector

namespace SGVector

theorem convert_to_matrix_raw_of_null {α : Type} (matrix : Option Nat) (nrows ncols : Int)
    (vlen : Int) (fortran_order : Bool) (mem : VectorMemory α)
    (h1 : ¬ (index_mul nrows ncols > vlen)) (h2 : ¬ (index_mul nrows ncols < 0))
    (hempty : (convert_copies nrows ncols fortran_order).isEmpty = true) :
    convert_to_matrix_raw matrix nrows ncols none vlen fortran_order mem
      = (.ok (some mem.brk),
         { mem with brk := mem.brk + (index_mul nrows ncols).toNat }) := by
  unfold convert_to_matrix_raw
  rw [if_neg h1, if_neg h2]
  simp only [hempty, if_true]

theorem convert_to_matrix_raw_of_data {α : Type} (matrix : Option Nat) (nrows ncols : Int)
    (v : Nat) (vlen : Int) (fortran_order : Bool) (mem : VectorMemory α)
    (h1 : ¬ (index_mul nrows ncols > vlen)) (h2 : ¬ (index_mul nrows ncols < 0))
    (hall : (convert_copies nrows ncols fortran_order).all
      (fun c => decide (0 ≤ (mem.brk : Int) + c.1 ∧ 0 ≤ (v : Int) + c.2)) = true) :
    convert_to_matrix_raw matrix nrows ncols (some v) vlen fortran_order mem
      = (.ok (some mem.brk),
         (convert_copies nrows ncols fortran_order).foldl
           (fun m c =>
             m.store ((mem.brk : Int) + c.1).toNat (m.cells (((v : Int) + c.2).toNat)))
           { mem with brk := mem.brk + (index_mul nrows ncols).toNat }) := by
  unfold convert_to_matrix_raw
  rw [if_neg h1, if_neg h2]
  simp only [hall, if_true]

theorem convert_to_matrix_of_raw {α : Type} (v : SGVector) (nrows ncols : Int)
    (fortran_order : Bool) (mem : VectorMemory α) (h : DataHeap)
    (h1 : ¬ (index_mul nrows ncols > v.vlen)) (data : Option Nat) (mem1 : VectorMemory α)
    (hraw : convert_to_matrix_raw none nrows ncols v.vector v.vlen fortran_order mem
      = (.ok data, mem1)) :
    convert_to_matrix v nrows ncols fortran_order mem h
      = (.ok (SGMatrix.from_pointer data nrows ncols h).1, mem1,
         (SGMatrix.from_pointer data nrows ncols h).2) := by
  unfold convert_to_matrix
  rw [if_neg h1, hraw]

end SGVector

namespace SGVector

/-- C39 (counterexample): `nrows = ncols = 65536` and a vector of three
elements. The product `nrows * ncols` is `2 ^ 32`, which exceeds the length,
but as an `index_t` it is 0: in Fortran order the call does not fail and
returns a matrix of 65536 rows and 65536 columns over a block of no elements;
in the other order the loops read, among others, `vector[3]`, which is not
below the length. -/
theorem convert_to_matrix_passes_wrapped_product :
    (65536 : Int) * 65536 > first_vector.vlen ∧
    index_mul 65536 65536 = 0 ∧
    (convert_to_matrix first_vector 65536 65536 true two_vector_cells empty_heap).1
      = .ok { m_refcount := some 0, matrix := some 6, num_rows := 65536,
              num_cols := 65536 } ∧
    (convert_to_matrix first_vector 65536 65536 true two_vector_cells
      empty_heap).2.1.brk = 6 ∧
    ((196608 : Int), (3 : Int)) ∈ convert_copies 65536 65536 false ∧
    first_vector.vlen = 3 := by
  refine ⟨by decide, by decide, rfl, rfl, ?_, rfl⟩
  simp only [convert_copies, Bool.false_eq_true, if_false, List.mem_flatMap, List.mem_map,
    List.mem_range]
  exact ⟨0, by decide, 3, by decide, by decide⟩

/-- C39 (amended): `nrows` and `ncols` are not negative and their product is
representable in `index_t`. Then `convert_to_matrix(vector, nrows, ncols,
fortran_order)` fails with "Dimensions mismatch" when `nrows * ncols` exceeds
the length of the vector, leaving the memory alone; otherwise, on a valid
vector, it returns a matrix with these dimensions whose entry `(i, j)`, read
column-major, is `vector[j * nrows + i]` in Fortran order and
`vector[i * ncols + j]` otherwise; every index the loops read lies below the
length of the vector, and the elements allocated before are unchanged. -/
theorem convert_to_matrix_entries {α : Type} (v : SGVector) (nrows ncols : Int)
    (fortran_order : Bool) (mem : VectorMemory α) (h : DataHeap) (hv : v.valid mem)
    (hr : 0 ≤ nrows) (hc : 0 ≤ ncols) (hfit : nrows * ncols ≤ 2147483647) :
    (nrows * ncols > v.vlen →
      convert_to_matrix v nrows ncols fortran_order mem h
        = (.error .dimensions_mismatch, mem, h)) ∧
    (nrows * ncols ≤ v.vlen →
      ∃ (m : SGMatrix) (mem1 : VectorMemory α) (h1 : DataHeap),
        convert_to_matrix v nrows ncols fortran_order mem h = (.ok m, mem1, h1) ∧
        m.num_rows = nrows ∧ m.num_cols = ncols ∧
        (∀ i j : Nat, (i : Int) < nrows → (j : Int) < ncols →
          m.entry mem1 i j
            = v.element mem
                (if fortran_order then j * nrows.toNat + i else i * ncols.toNat + j) ∧
          ((if fortran_order then j * nrows.toNat + i else i * ncols.toNat + j : Nat) : Int)
            < v.vlen) ∧
        (∀ c ∈ convert_copies nrows ncols fortran_order, 0 ≤ c.2 ∧ c.2 < v.vlen) ∧
        (∀ x, x < mem.brk → mem1.cells x = mem.cells x)) := by
  obtain ⟨R, rfl⟩ := Int.eq_ofNat_of_zero_le hr
  obtain ⟨C, rfl⟩ := Int.eq_ofNat_of_zero_le hc
  have hfitN : R * C ≤ 2147483647 := by
    have : ((R * C : Nat) : Int) ≤ 2147483647 := by
      rw [Nat.cast_mul]
      exact hfit
    omega
  have hmul : index_mul (R : Int) (C : Int) = (R : Int) * (C : Int) := by
    rw [index_mul_of_fits R C hfitN, Nat.cast_mul]
  refine ⟨fun hgt => by unfold convert_to_matrix; rw [hmul, if_pos hgt], ?_⟩
  intro hle
  obtain ⟨hnonneg, hnull, halloc⟩ := hv
  have hnot : ¬ ((R : Int) * (C : Int) > v.vlen) := by omega
  have hnot1 : ¬ (index_mul (R : Int) (C : Int) > v.vlen) := by
    rw [hmul]
    exact hnot
  have hnotneg1 : ¬ (index_mul (R : Int) (C : Int) < 0) := by
    rw [index_mul_of_fits R C hfitN]
    omega
  have hRC : R * C ≤ v.vlen.toNat := by
    have : ((R * C : Nat) : Int) ≤ v.vlen := by
      rw [Nat.cast_mul]
      exact hle
    omega
  have hidx : ∀ i j : Nat, i < R → j < C →
      (if fortran_order then j * R + i else i * C + j) < R * C := by
    intro i j hi hj
    cases fortran_order with
    | true =>
      have := index_bound i j R C hi hj
      simp only [if_true]
      rw [Nat.mul_comm R C]
      omega
    | false =>
      have := index_bound j i C R hj hi
      simp only [Bool.false_eq_true, if_false]
      omega
  have hshape : ∀ c ∈ convert_copies (R : Int) (C : Int) fortran_order,
      ∃ d s : Nat, c = ((d : Int), (s : Int)) ∧ d < R * C ∧ s < R * C := by
    intro c hc
    obtain ⟨i, j, hi, hj, h1, h2⟩ := (mem_convert_copies R C fortran_order hfitN c).mp hc
    refine ⟨i + j * R, if fortran_order then j * R + i else i * C + j,
      Prod.ext h1 h2, ?_, hidx i j hi hj⟩
    have := index_bound i j R C hi hj
    rw [Nat.mul_comm R C]
    exact this
  have hreads : ∀ c ∈ convert_copies (R : Int) (C : Int) fortran_order,
      0 ≤ c.2 ∧ c.2 < v.vlen := by
    intro c hc
    obtain ⟨d, s, rfl, -, hs⟩ := hshape c hc
    constructor
    · exact Int.ofNat_nonneg _
    · show (s : Int) < v.vlen
      omega
  cases hp : v.vector with
  | none =>
    have hz := hnull hp
    have hempty : (convert_copies (R : Int) (C : Int) fortran_order).isEmpty = true := by
      rw [List.isEmpty_iff]
      apply List.eq_nil_iff_forall_not_mem.mpr
      intro c hc
      obtain ⟨d, s, -, hd, -⟩ := hshape c hc
      rw [hz] at hRC
      simp at hRC
      omega
    refine ⟨(SGMatrix.from_pointer (some mem.brk) R C h).1,
      { mem with brk := mem.brk + (index_mul (R : Int) (C : Int)).toNat },
      (SGMatrix.from_pointer (some mem.brk) R C h).2, ?_, rfl, rfl, ?_, hreads,
      fun _ _ => rfl⟩
    · apply convert_to_matrix_of_raw _ _ _ _ _ _ hnot1
      rw [hp]
      exact convert_to_matrix_raw_of_null none _ _ _ _ _ hnot1 hnotneg1 hempty
    · intro i j hi hj
      have := hidx i j (by omega) (by omega)
      rw [hz] at hRC
      simp at hRC
      omega
  | some a =>
    have hal := halloc a hp
    have hall : (convert_copies (R : Int) (C : Int) fortran_order).all
        (fun c => decide (0 ≤ (mem.brk : Int) + c.1 ∧ 0 ≤ (a : Int) + c.2)) = true := by
      rw [List.all_eq_true]
      intro c hc
      obtain ⟨d, s, rfl, -, -⟩ := hshape c hc
      simp only [decide_eq_true_eq]
      constructor <;> omega
    have hfold : (convert_copies (R : Int) (C : Int) fortran_order).foldl
        (fun m c =>
          m.store ((mem.brk : Int) + c.1).toNat (m.cells (((a : Int) + c.2).toNat)))
        ({ mem with brk := mem.brk + (index_mul (R : Int) (C : Int)).toNat } :
          VectorMemory α)
        = ((convert_copies (R : Int) (C : Int) fortran_order).map
            (fun (c : Int × Int) => ((c.1.toNat, c.2.toNat) : Nat × Nat))).foldl
          (fun m c => m.write (some mem.brk) c.1 (m.cells (a + c.2)))
          ({ mem with brk := mem.brk + (index_mul (R : Int) (C : Int)).toNat } :
            VectorMemory α) := by
      rw [List.foldl_map]
      apply foldl_congr_mem
      intro s c hc
      obtain ⟨d, s1, rfl, -, -⟩ := hshape c hc
      have h1 : ((mem.brk : Int) + (d : Int)).toNat = mem.brk + d := by omega
      have h2 : ((a : Int) + (s1 : Int)).toNat = a + s1 := by omega
      simp only [h1, h2, Int.toNat_ofNat]
      rfl
    have hmapped : ∀ c ∈ (convert_copies (R : Int) (C : Int) fortran_order).map
        (fun (c : Int × Int) => ((c.1.toNat, c.2.toNat) : Nat × Nat)),
        ∃ c0 ∈ convert_copies (R : Int) (C : Int) fortran_order,
          c0 = ((c.1 : Int), (c.2 : Int)) := by
      intro c hc
      obtain ⟨c0, hc0, rfl⟩ := List.mem_map.mp hc
      obtain ⟨d, s, rfl, -, -⟩ := hshape c0 hc0
      exact ⟨_, hc0, by simp⟩
    have hread : ∀ c ∈ (convert_copies (R : Int) (C : Int) fortran_order).map
        (fun (c : Int × Int) => ((c.1.toNat, c.2.toNat) : Nat × Nat)), a + c.2 < mem.brk := by
      intro c hc
      obtain ⟨c0, hc0, rfl⟩ := hmapped c hc
      obtain ⟨d, s, heq, -, hs⟩ := hshape _ hc0
      have : ((c.2 : Nat) : Int) = (s : Int) := congrArg Prod.snd heq
      omega
    have hfun : ∀ c ∈ (convert_copies (R : Int) (C : Int) fortran_order).map
        (fun (c : Int × Int) => ((c.1.toNat, c.2.toNat) : Nat × Nat)),
        ∀ c1 ∈ (convert_copies (R : Int) (C : Int) fortran_order).map
          (fun (c : Int × Int) => ((c.1.toNat, c.2.toNat) : Nat × Nat)), c.1 = c1.1 → c.2 = c1.2 := by
      intro c hc c1 hc1 h11
      obtain ⟨c0, hc0, rfl⟩ := hmapped c hc
      obtain ⟨c2, hc2, rfl⟩ := hmapped c1 hc1
      have := convert_copies_functional R C fortran_order hfitN _ _ hc0 hc2
        (by show (c.1 : Int) = (c1.1 : Int); rw [h11])
      exact Int.ofNat_inj.mp this
    obtain ⟨f1, -, f3, -⟩ := copies_foldl_spec mem.brk a
      ((convert_copies (R : Int) (C : Int) fortran_order).map
        (fun (c : Int × Int) => ((c.1.toNat, c.2.toNat) : Nat × Nat)))
      ({ mem with brk := mem.brk + (index_mul (R : Int) (C : Int)).toNat } :
        VectorMemory α) hread
    refine ⟨(SGMatrix.from_pointer (some mem.brk) R C h).1, _,
      (SGMatrix.from_pointer (some mem.brk) R C h).2, ?_, rfl, rfl, ?_, hreads, f1⟩
    · apply convert_to_matrix_of_raw _ _ _ _ _ _ hnot1
      rw [hp, ← hfold]
      exact convert_to_matrix_raw_of_data none _ _ a _ _ _ hnot1 hnotneg1 hall
    · intro i j hi hj
      have hi1 : i < R := by omega
      have hj1 : j < C := by omega
      refine ⟨?_, ?_⟩
      · have hmem0 : (((i + j * R : Nat) : Int),
            ((if fortran_order then j * R + i else i * C + j : Nat) : Int))
            ∈ convert_copies (R : Int) (C : Int) fortran_order :=
          (mem_convert_copies R C fortran_order hfitN _).mpr ⟨i, j, hi1, hj1, rfl, rfl⟩
        have hmem : (i + j * R, if fortran_order then j * R + i else i * C + j)
            ∈ (convert_copies (R : Int) (C : Int) fortran_order).map
              (fun (c : Int × Int) => ((c.1.toNat, c.2.toNat) : Nat × Nat)) :=
          List.mem_map.mpr ⟨_, hmem0, Prod.ext (Int.toNat_ofNat _) (Int.toNat_ofNat _)⟩
        have hcell := f3 hfun _ hmem
        simp only [SGMatrix.entry, SGMatrix.from_pointer, VectorMemory.read, element, hp,
          Option.map_some', Int.toNat_ofNat, Option.some.injEq]
        exact hcell
      · have := hidx i j hi1 hj1
        simp only [Int.toNat_ofNat]
        omega

/-- Witness of `convert_to_matrix_entries`: the vector [10, 20, 30] converted
to a matrix of one row and three columns. -/
theorem convert_to_matrix_entries_witness :
    first_vector.valid two_vector_cells ∧ (0 : Int) ≤ 1 ∧ (0 : Int) ≤ 3 ∧
    (1 : Int) * 3 ≤ 2147483647 ∧ (1 : Int) * 3 ≤ first_vector.vlen ∧
    ∃ (m : SGMatrix) (mem1 : VectorMemory Int) (h1 : DataHeap),
      convert_to_matrix first_vector 1 3 false two_vector_cells empty_heap
        = (.ok m, mem1, h1) ∧
      m.num_rows = 1 ∧ m.num_cols = 3 ∧
      (∀ i j : Nat, (i : Int) < 1 → (j : Int) < 3 →
        m.entry mem1 i j
          = first_vector.element two_vector_cells
              (if false then j * (1 : Int).toNat + i else i * (3 : Int).toNat + j) ∧
        ((if false then j * (1 : Int).toNat + i else i * (3 : Int).toNat + j : Nat) : Int)
          < first_vector.vlen) ∧
      (∀ c ∈ convert_copies 1 3 false, 0 ≤ c.2 ∧ c.2 < first_vector.vlen) ∧
      (∀ x, x < two_vector_cells.brk → mem1.cells x = two_vector_cells.cells x) :=
  have hv : first_vector.valid two_vector_cells :=
    ⟨by decide, fun h => by simp [first_vector] at h,
     fun a h => by
      simp only [first_vector, Option.some.injEq] at h
      subst h
      decide⟩
  ⟨hv, by decide, by decide, by decide, by decide,
   (convert_to_matrix_entries first_vector 1 3 false two_vector_cells empty_heap hv
      (by decide) (by decide) (by decide)).2 (by decide)⟩

end SGVector

namespace SGVector

theorem add_loop_spec {α : Type} (plus : α → α → α) (pa pb n : Nat)
    (hdis : ∀ i j, i < n → j < n → pb + j ≠ pa + i) (L : List Nat) :
    ∀ (m : VectorMemory α), L.Nodup → (∀ i ∈ L, i < n) →
      (∀ c, (∀ i ∈ L, pa + i ≠ c) →
        (L.foldl (fun m i => m.write (some pa) i (plus (m.cells (pa + i)) (m.cells (pb + i))))
          m).cells c = m.cells c) ∧
      (∀ i ∈ L,
        (L.foldl (fun m i => m.write (some pa) i (plus (m.cells (pa + i)) (m.cells (pb + i))))
          m).cells (pa + i) = plus (m.cells (pa + i)) (m.cells (pb + i))) ∧
      (L.foldl (fun m i => m.write (some pa) i (plus (m.cells (pa + i)) (m.cells (pb + i))))
          m).brk = m.brk := by
  induction L with
  | nil =>
    intro m _ _
    exact ⟨fun _ _ => rfl, fun i hi => absurd hi (List.not_mem_nil i), rfl⟩
  | cons i0 rest ih =>
    intro m hnd hlt
    rw [List.nodup_cons] at hnd
    have hlt_rest : ∀ i ∈ rest, i < n := fun i hi => hlt i (List.mem_cons_of_mem _ hi)
    have hi0 : i0 < n := hlt i0 (List.mem_cons_self _ _)
    obtain ⟨i1, i2, i3⟩ :=
      ih (m.write (some pa) i0 (plus (m.cells (pa + i0)) (m.cells (pb + i0)))) hnd.2 hlt_rest
    have hwrite : ∀ x, x ≠ pa + i0 →
        (m.write (some pa) i0 (plus (m.cells (pa + i0)) (m.cells (pb + i0)))).cells x
          = m.cells x := by
      intro x hx
      simp [VectorMemory.write, hx]
    simp only [List.foldl_cons]
    refine ⟨?_, ?_, ?_⟩
    · intro c hc
      rw [i1 c (fun i hi => hc i (List.mem_cons_of_mem _ hi)),
        hwrite c (fun h => hc i0 (List.mem_cons_self _ _) h.symm)]
    · intro i hi
      rcases List.mem_cons.mp hi with heq | hin
      · have hnot : ∀ j ∈ rest, pa + j ≠ pa + i := by
          intro j hj h
          have : j = i := by omega
          rw [this, heq] at hj
          exact hnd.1 hj
        rw [i1 _ hnot, heq]
        simp [VectorMemory.write]
      · have hne : i ≠ i0 := fun h => hnd.1 (h ▸ hin)
        rw [i2 i hin, hwrite (pa + i) (by omega),
          hwrite (pb + i) (hdis i0 i hi0 (hlt_rest i hin))]
    · rw [i3]
      simp [VectorMemory.write]

theorem add_ok {α : Type} (plus : α → α → α) (a b : SGVector) (mem : VectorMemory α)
    (pa pb : Nat) (hpa : a.vector = some pa) (hpb : b.vector = some pb)
    (hlen : b.vlen = a.vlen)
    (hdis : ∀ i j, i < a.vlen.toNat → j < a.vlen.toNat → pb + j ≠ pa + i) :
    (add plus a b mem).1 = .ok () ∧
    (∀ i, i < a.vlen.toNat →
      (add plus a b mem).2.cells (pa + i) = plus (mem.cells (pa + i)) (mem.cells (pb + i))) ∧
    (∀ c, (c < pa ∨ pa + a.vlen.toNat ≤ c) → (add plus a b mem).2.cells c = mem.cells c) ∧
    (add plus a b mem).2.brk = mem.brk := by
  have hne : ¬ (b.vlen ≠ a.vlen) := not_not.mpr hlen
  obtain ⟨l1, l2, l3⟩ := add_loop_spec plus pa pb a.vlen.toNat hdis
    (List.range a.vlen.toNat) mem (List.nodup_range _) (fun i hi => List.mem_range.mp hi)
  simp only [add, hpa, hpb, hne, if_false]
  refine ⟨trivial, fun i hi => l2 i (List.mem_range.mpr hi), ?_, l3⟩
  intro c hc
  apply l1
  intro i hi
  have := List.mem_range.mp hi
  omega

end SGVector

theorem wrap_emod (t : IntegerType) (s : Int) :
    t.wrap s % 2 ^ t.bits = s % 2 ^ t.bits := by
  unfold IntegerType.wrap
  cases t.is_signed with
  | false => simp
  | true =>
    simp only [if_true]
    calc ((s + 2 ^ (t.bits - 1)) % 2 ^ t.bits - 2 ^ (t.bits - 1)) % 2 ^ t.bits
        = ((s + 2 ^ (t.bits - 1)) % 2 ^ t.bits % 2 ^ t.bits
            - 2 ^ (t.bits - 1) % 2 ^ t.bits) % 2 ^ t.bits := Int.sub_emod _ _ _
      _ = ((s + 2 ^ (t.bits - 1)) % 2 ^ t.bits
            - 2 ^ (t.bits - 1) % 2 ^ t.bits) % 2 ^ t.bits := by rw [Int.emod_emod]
      _ = (s + 2 ^ (t.bits - 1) - 2 ^ (t.bits - 1)) % 2 ^ t.bits :=
          (Int.sub_emod _ _ _).symm
      _ = s % 2 ^ t.bits := by rw [Int.add_sub_cancel]

namespace SGVector

/-- C40 (counterexample): `b` is a copy of the vector `a` = [1, 2, 3], sharing
its data; `a.add(b)` succeeds and the elements of `b` are [2, 4, 6]
afterwards. With `a` the view of the elements 1 and 2 of that data and `b` the
view of the elements 0 and 1, `a.add(b)` leaves [3, 6] in `a`, not
[2 + 1, 3 + 2], and changes `b` to [1, 3]. -/
theorem add_of_shared_data_changes_both :
    (add int32_t.add example_vector example_vector example_cells).1 = .ok () ∧
    example_vector.to_list example_cells = [1, 2, 3] ∧
    example_vector.to_list
      (add int32_t.add example_vector example_vector example_cells).2 = [2, 4, 6] ∧
    slice example_vector 1 3 = .ok { m_refcount := none, vector := some 1, vlen := 2 } ∧
    slice example_vector 0 2 = .ok { m_refcount := none, vector := some 0, vlen := 2 } ∧
    to_list { m_refcount := none, vector := some 1, vlen := 2 } example_cells = [2, 3] ∧
    to_list { m_refcount := none, vector := some 0, vlen := 2 } example_cells = [1, 2] ∧
    (add int32_t.add { m_refcount := none, vector := some 1, vlen := 2 }
      { m_refcount := none, vector := some 0, vlen := 2 } example_cells).1 = .ok () ∧
    to_list { m_refcount := none, vector := some 1, vlen := 2 }
      (add int32_t.add { m_refcount := none, vector := some 1, vlen := 2 }
        { m_refcount := none, vector := some 0, vlen := 2 } example_cells).2 = [3, 6] ∧
    to_list { m_refcount := none, vector := some 0, vlen := 2 }
      (add int32_t.add { m_refcount := none, vector := some 1, vlen := 2 }
        { m_refcount := none, vector := some 0, vlen := 2 } example_cells).2 = [1, 3] :=
  ⟨rfl, by decide, by decide, rfl, rfl, by decide, by decide, rfl, by decide, by decide⟩

end SGVector

namespace SGVector

theorem add_fails {α : Type} (plus : α → α → α) (a b : SGVector) (mem : VectorMemory α)
    (hbad : a.vector = none ∨ b.vector = none ∨ b.vlen ≠ a.vlen) :
    ∃ e, add plus a b mem = (.error e, mem) := by
  cases hpb : b.vector with
  | none => exact ⟨.non_null_required, by simp [add, hpb]⟩
  | some pb =>
    cases hpa : a.vector with
    | none => exact ⟨.non_null_required, by simp [add, hpa, hpb]⟩
    | some pa =>
      have hne : b.vlen ≠ a.vlen := by
        rcases hbad with h | h | h
        · rw [hpa] at h
          simp at h
        · rw [hpb] at h
          simp at h
        · exact h
      exact ⟨.requirement_failed a.vlen, by simp [add, hpa, hpb, hne]⟩

theorem operator_plus_fails {α : Type} (plus : α → α → α) (a b : SGVector)
    (mem : VectorMemory α) (h : DataHeap)
    (hbad : a.vector = none ∨ b.vector = none ∨ b.vlen ≠ a.vlen) :
    ∃ e, operator_plus plus a b mem h = (.error e, mem, h) := by
  cases hpb : b.vector with
  | none => exact ⟨.non_null_required, by simp [operator_plus, hpb]⟩
  | some pb =>
    cases hpa : a.vector with
    | none => exact ⟨.non_null_required, by simp [operator_plus, hpa, hpb]⟩
    | some pa =>
      have hne : b.vlen ≠ a.vlen := by
        rcases hbad with h | h | h
        · rw [hpa] at h
          simp at h
        · rw [hpb] at h
          simp at h
        · exact h
      exact ⟨.requirement_failed a.vlen, by simp [operator_plus, hpa, hpb, hne]⟩

/-- C40 (amended): `a` and `b` are valid non-null vectors of integers of equal
length `n`, their data at `pa` and `pb`. If `n > 0`, `a + b` returns a new
vector of length `n` whose element `i` is `a[i] + b[i]` wrapped to the element
type, and every element allocated before, so all of `a` and `b`, is unchanged.
If the data of `a` and `b` do not overlap, `a.add(b)` succeeds, leaves
`a[i] + b[i]` wrapped to the element type in `a[i]` and changes no element
outside the data of `a`, so none of `b`. The wrapped sum is congruent to the
sum modulo two to the width. When either vector is null or the lengths differ,
both operations fail and the memory is as before. -/
theorem add_and_plus_of_separate_vectors (t : IntegerType) (a b : SGVector)
    (mem : VectorMemory Int) (h : DataHeap) (pa pb : Nat) (hpa : a.vector = some pa)
    (hpb : b.vector = some pb) (hlen : b.vlen = a.vlen) (hva : a.valid mem)
    (hvb : b.valid mem) :
    (0 < a.vlen →
      ∃ (r : SGVector) (mem1 : VectorMemory Int) (h1 : DataHeap),
        operator_plus t.add a b mem h = (.ok r, mem1, h1) ∧ r.vlen = a.vlen ∧
        r.vector = some mem.brk ∧
        (∀ i, i < a.vlen.toNat →
          r.element mem1 i = some (t.add (mem.cells (pa + i)) (mem.cells (pb + i)))) ∧
        (∀ c, c < mem.brk → mem1.cells c = mem.cells c) ∧
        a.to_list mem1 = a.to_list mem ∧ b.to_list mem1 = b.to_list mem) ∧
    ((pa + a.vlen.toNat ≤ pb ∨ pb + a.vlen.toNat ≤ pa) →
      (add t.add a b mem).1 = .ok () ∧
      (∀ i, i < a.vlen.toNat →
        a.element (add t.add a b mem).2 i
          = some (t.add (mem.cells (pa + i)) (mem.cells (pb + i)))) ∧
      (∀ c, (c < pa ∨ pa + a.vlen.toNat ≤ c) → (add t.add a b mem).2.cells c = mem.cells c) ∧
      b.to_list (add t.add a b mem).2 = b.to_list mem) ∧
    (∀ x y : Int, t.add x y % 2 ^ t.bits = (x + y) % 2 ^ t.bits) ∧
    (∀ (a1 b1 : SGVector) (m : VectorMemory Int) (h0 : DataHeap),
      (a1.vector = none ∨ b1.vector = none ∨ b1.vlen ≠ a1.vlen) →
      (∃ e, add t.add a1 b1 m = (.error e, m)) ∧
      (∃ e, operator_plus t.add a1 b1 m h0 = (.error e, m, h0))) := by
  have hala := hva.2.2 pa hpa
  have halb := hvb.2.2 pb hpb
  have hblock : ∀ (v : SGVector) (p : Nat), v.vector = some p → v.vlen = a.vlen →
      p + a.vlen.toNat ≤ mem.brk → ∀ (m1 : VectorMemory Int),
      (∀ c, c < p + a.vlen.toNat → c ≥ p → m1.cells c = mem.cells c) →
      v.to_list m1 = v.to_list mem := by
    intro v p hp hl _ m1 hsame
    simp only [to_list, hp, hl]
    apply List.ext_getElem
    · simp [VectorMemory.block]
    · intro j hj1 hj2
      have hj : j < a.vlen.toNat := by simpa [VectorMemory.block] using hj1
      rw [block_getElem, block_getElem]
      exact hsame (p + j) (by omega) (by omega)
  refine ⟨?_, ?_, fun x y => wrap_emod t (x + y), fun a1 b1 m h0 hbad =>
    ⟨add_fails t.add a1 b1 m hbad, operator_plus_fails t.add a1 b1 m h0 hbad⟩⟩
  · intro hpos
    obtain ⟨-, c2, c3, c4⟩ := clone_vector_copies pa a.vlen mem hpos
    have hclone := clone_of_nonempty a mem h pa hpa hpos
    have hdis : ∀ i j, i < (from_pointer (some mem.brk) a.vlen true h).1.vlen.toNat →
        j < (from_pointer (some mem.brk) a.vlen true h).1.vlen.toNat →
        pb + j ≠ mem.brk + i := by
      intro i j _ hj
      have hj1 : j < a.vlen.toNat := hj
      rw [hlen] at halb
      omega
    obtain ⟨a1, a2, a3, -⟩ := add_ok t.add (from_pointer (some mem.brk) a.vlen true h).1 b
      (clone_vector (some pa) a.vlen mem).2 mem.brk pb rfl hpb hlen hdis
    have hadd : add t.add (from_pointer (some mem.brk) a.vlen true h).1 b
        (clone_vector (some pa) a.vlen mem).2
        = (.ok (), (add t.add (from_pointer (some mem.brk) a.vlen true h).1 b
            (clone_vector (some pa) a.vlen mem).2).2) := by
      rw [← a1]
    have hne : ¬ (b.vlen ≠ a.vlen) := not_not.mpr hlen
    have hres : operator_plus t.add a b mem h
        = (.ok (from_pointer (some mem.brk) a.vlen true h).1,
           (add t.add (from_pointer (some mem.brk) a.vlen true h).1 b
              (clone_vector (some pa) a.vlen mem).2).2,
           (from_pointer (some mem.brk) a.vlen true h).2) := by
      simp only [operator_plus, hpa, hpb, hne, if_false, hclone]
      rw [hadd]
    have hbelow : ∀ c, c < mem.brk →
        (add t.add (from_pointer (some mem.brk) a.vlen true h).1 b
          (clone_vector (some pa) a.vlen mem).2).2.cells c = mem.cells c := by
      intro c hc
      rw [a3 c (Or.inl hc), c3 c hc]
    refine ⟨_, _, _, hres, rfl, rfl, ?_, hbelow, ?_, ?_⟩
    · intro i hi
      have hel : ∀ M : VectorMemory Int,
          (from_pointer (some mem.brk) a.vlen true h).1.element M i
            = some (M.cells (mem.brk + i)) := fun M => rfl
      have hi1 : i < (from_pointer (some mem.brk) a.vlen true h).1.vlen.toNat := hi
      rw [hel, a2 i hi1, c2 i hi, c3 (pb + i) (by rw [hlen] at halb; omega)]
    · exact hblock a pa hpa rfl hala _ (fun c hc _ => hbelow c (by omega))
    · exact hblock b pb hpb hlen (by rw [hlen] at halb; exact halb) _
        (fun c hc _ => hbelow c (by rw [hlen] at halb; omega))
  · intro hsep
    have hdis : ∀ i j, i < a.vlen.toNat → j < a.vlen.toNat → pb + j ≠ pa + i := by
      intro i j hi hj
      omega
    obtain ⟨a1, a2, a3, -⟩ := add_ok t.add a b mem pa pb hpa hpb hlen hdis
    refine ⟨a1, ?_, a3, ?_⟩
    · intro i hi
      simp only [element, VectorMemory.read, hpa, Option.map_some']
      rw [a2 i hi]
    · exact hblock b pb hpb hlen (by rw [hlen] at halb; exact halb) _
        (fun c hc hc1 => a3 c (by omega))

/-- Witness of `add_and_plus_of_separate_vectors`: the vectors [10, 20, 30] and
[1, 2, 3] of `two_vector_cells`, as `int32_t`; `a.add(b)` leaves [11, 22, 33]
in `a`. -/
theorem add_and_plus_of_separate_vectors_witness :
    first_vector.valid two_vector_cells ∧ second_vector.valid two_vector_cells ∧
    first_vector.to_list (add int32_t.add first_vector second_vector two_vector_cells).2
      = [11, 22, 33] ∧
    (0 + first_vector.vlen.toNat ≤ 3 ∨ 3 + first_vector.vlen.toNat ≤ 0) ∧
    (add int32_t.add first_vector second_vector two_vector_cells).1 = .ok () ∧
    (∀ i, i < first_vector.vlen.toNat →
      first_vector.element (add int32_t.add first_vector second_vector two_vector_cells).2 i
        = some (int32_t.add (two_vector_cells.cells (0 + i))
            (two_vector_cells.cells (3 + i)))) ∧
    (∀ c, (c < 0 ∨ 0 + first_vector.vlen.toNat ≤ c) →
      (add int32_t.add first_vector second_vector two_vector_cells).2.cells c
        = two_vector_cells.cells c) ∧
    second_vector.to_list (add int32_t.add first_vector second_vector two_vector_cells).2
      = second_vector.to_list two_vector_cells :=
  have hva : first_vector.valid two_vector_cells :=
    ⟨by decide, fun h => by simp [first_vector] at h,
     fun a h => by
      simp only [first_vector, Option.some.injEq] at h
      subst h
      decide⟩
  have hvb : second_vector.valid two_vector_cells :=
    ⟨by decide, fun h => by simp [second_vector] at h,
     fun a h => by
      simp only [second_vector, Option.some.injEq] at h
      subst h
      decide⟩
  ⟨hva, hvb, by decide, Or.inl (by decide),
   (add_and_plus_of_separate_vectors int32_t first_vector second_vector two_vector_cells
      empty_heap 0 3 rfl rfl rfl hva hvb).2.1 (Or.inl (by decide))⟩

end SGVector

end shogun
